import Mathlib

/-!
# FBX–Blender–Rizom bridge: container codec, reader and re-attachment

A shallow embedding of `Extractor.cpp` and `Injector.cpp`.

* Bytes are natural numbers (a `char` of the stream), strings and buffers are
  lists of bytes.
* `std::ofstream` is the list of bytes written so far (writes do not fail).
* `std::ifstream` is the list of bytes still to be read together with the
  `failbit` and `eofbit` state flags.
* A `uint32_t` or an `int` is stored in its four bytes least significant byte
  first (the object representation of the platforms the tools are built for);
  `size_t` is wider than 32 bits, so `count * sizeof(int)` does not wrap.
* `std::map` is an association list kept in key order.
-/

namespace RizomBridge

/-! ## Bytes and fixed-width integers -/

/-- The four bytes of the object representation of a `uint32_t`. -/
def toLE32 (n : Nat) : List Nat :=
  [n % 256, n / 256 % 256, n / 65536 % 256, n / 16777216 % 256]

/-- The `uint32_t` whose object representation is the given buffer of four bytes. -/
def fromLE32 (bs : List Nat) : Nat :=
  bs.getD 0 0 + 256 * bs.getD 1 0 + 65536 * bs.getD 2 0 + 16777216 * bs.getD 3 0

/-- Conversion `static_cast<uint32_t>(n)` of a `size_t`. -/
def castU32 (n : Nat) : Nat := n % 2 ^ 32

/-- The bit pattern of an `int` as an unsigned 32-bit number. -/
def intToU32 (v : Int) : Nat := (v % 2 ^ 32).toNat

/-- The `int` with the given 32-bit pattern (two's complement). -/
def u32ToInt (u : Nat) : Int := if u < 2 ^ 31 then (u : Int) else (u : Int) - 2 ^ 32

/-- The bytes of a packed `int` array, `reinterpret_cast<const char*>(arr.data())`. -/
def intsToBytes : List Int → List Nat
  | [] => []
  | v :: vs => toLE32 (intToU32 v) ++ intsToBytes vs

/-- The `int`s held by a byte buffer, four bytes each. -/
def bytesToInts : List Nat → List Int
  | a :: b :: c :: d :: rest => u32ToInt (fromLE32 [a, b, c, d]) :: bytesToInts rest
  | _ => []

/-- The content of a byte buffer or a string after a resize to `n` bytes that
succeeds: the first `n` bytes are kept, zero bytes fill the rest. -/
def resized (v : List Nat) (n : Nat) : List Nat :=
  v.take n ++ List.replicate (n - v.length) 0

/-- The content of an `int` array after a resize to `n` elements that succeeds:
the first `n` elements are kept, zeros fill the rest. -/
def resizedInts (v : List Int) (n : Nat) : List Int :=
  v.take n ++ List.replicate (n - v.length) 0

/-- The allocator of the machine the injector runs on: whether it grants a request
of the given number of bytes. It is asked by the `resize` calls of the three
readers, whose sizes are read from the file; the other allocations of the program
hold copies of what was read and are taken to succeed. -/
abbrev Allocator := Nat → Bool

/-- Whether the storage of `bytes` bytes that a string or a vector asks for is
granted while `available` bytes of the file are left to read. A request that the
rest of the file fills is granted (a machine that holds the file holds the
content read from it); any other request is granted when the allocator grants it. -/
def grants (alloc : Allocator) (available bytes : Nat) : Bool :=
  decide (bytes ≤ available) || alloc bytes

/-- The call `v.resize(n)` on a `std::string` or a `std::vector<char>` while
`available` bytes of the file are left to read: the storage of `n` bytes is
allocated first; `none` when the request is refused and `std::bad_alloc` is thrown.
A `std::string` holds a short content in place and asks for nothing then; the
allocator is asked here for every length, so that the call is refused here at
least whenever it is refused in the program, and an allocator that grants such
short requests makes the two agree. -/
def resize (alloc : Allocator) (available : Nat) (v : List Nat) (n : Nat) :
    Option (List Nat) :=
  if grants alloc available n then some (resized v n) else none

/-- The call `arr.resize(n)` on a `std::vector<int>` while `available` bytes of the
file are left to read: the storage of `n` elements of four bytes is allocated
first; `none` when the request is refused and `std::bad_alloc` is thrown. -/
def resizeInts (alloc : Allocator) (available : Nat) (v : List Int) (n : Nat) :
    Option (List Int) :=
  if grants alloc available (n * 4) then some (resizedInts v n) else none

/-- An allocator that grants no request: only what the file backs is allocated. -/
def noSpareMemory : Allocator := fun _ => false

/-- An allocator that grants requests of up to 8 GiB. -/
def eightGiB : Allocator := fun bytes => decide (bytes ≤ 2 ^ 33)

/-- A buffer after `read` stored the extracted bytes `got` at its start. -/
def overlay (got buf : List Nat) : List Nat :=
  got ++ buf.drop got.length

/-- Conversion of a `const char*` to `std::string`: the bytes before the first NUL. -/
def cstr (s : List Nat) : List Nat :=
  s.takeWhile (fun b => b != 0)

/-! ## Streams -/

/-- Input stream: the bytes not yet extracted and the two state flags the code tests. -/
structure IfStream where
  data : List Nat
  failbit : Bool
  eofbit : Bool
deriving DecidableEq, Repr

/-- A freshly opened stream over the contents of a file. -/
def IfStream.open (bytes : List Nat) : IfStream :=
  { data := bytes, failbit := false, eofbit := false }

/-- Unformatted input `in.read(buf, n)`: returns the bytes stored into the buffer.
When the stream is not good nothing is extracted and `failbit` is set; when fewer
than `n` bytes remain they are all extracted and `eofbit` and `failbit` are set. -/
def IfStream.read (s : IfStream) (n : Nat) : List Nat × IfStream :=
  if s.failbit || s.eofbit then ([], { s with failbit := true })
  else if n ≤ s.data.length then (s.data.take n, { s with data := s.data.drop n })
  else (s.data, { data := [], failbit := true, eofbit := true })

/-! ## Extractor.cpp: helpers -/

/-- Extractor `WriteString(out, str)`. -/
def WriteString (out : List Nat) (str : List Nat) : List Nat :=
  let len := castU32 str.length
  let out := out ++ toLE32 len
  if len > 0 then out ++ str.take len else out

/-- Extractor `WriteIntArray(out, arr)`. -/
def WriteIntArray (out : List Nat) (arr : List Int) : List Nat :=
  let count := castU32 arr.length
  let out := out ++ toLE32 count
  if count > 0 then out ++ (intsToBytes arr).take (count * 4) else out

/-! ## Injector.cpp: helpers -/

/-- Injector `ReadString(in, str)`: the returned flag, the string and the stream
afterwards; `none` when `str.resize(len)` throws `std::bad_alloc`, which happens
before any byte of the string is read. -/
def ReadString (alloc : Allocator) (inp : IfStream) (str : List Nat) :
    Option (Bool × List Nat × IfStream) :=
  let (lenBytes, in1) := inp.read 4
  if in1.failbit then some (false, str, in1)
  else
    let len := fromLE32 lenBytes
    match resize alloc in1.data.length str len with
    | none => none
    | some str =>
      if len > 0 then
        let (got, in2) := in1.read len
        some (!in2.failbit, overlay got str, in2)
      else some (!in1.failbit, str, in1)

/-- Injector `ReadIntArray(in, arr)`: the returned flag, the array and the stream
afterwards; `none` when `arr.resize(count)` throws `std::bad_alloc`, which happens
before any element is read. -/
def ReadIntArray (alloc : Allocator) (inp : IfStream) (arr : List Int) :
    Option (Bool × List Int × IfStream) :=
  let (countBytes, in1) := inp.read 4
  if in1.failbit then some (false, arr, in1)
  else
    let count := fromLE32 countBytes
    match resizeInts alloc in1.data.length arr count with
    | none => none
    | some arr =>
      if count > 0 then
        let (got, in2) := in1.read (count * 4)
        some (!in2.failbit, bytesToInts (overlay got (intsToBytes arr)), in2)
      else some (!in1.failbit, arr, in1)

/-- The bytes of a string literal of the source (all literals are ASCII). -/
def bytesOf (s : String) : List Nat := s.toList.map Char.toNat

/-- Type tag `"Int"`. -/
def tagInt : List Nat := bytesOf "Int"
/-- Type tag `"Integer"`. -/
def tagInteger : List Nat := bytesOf "Integer"
/-- Type tag `"Blob"`. -/
def tagBlob : List Nat := bytesOf "Blob"
/-- Type tag `"KString"`. -/
def tagKString : List Nat := bytesOf "KString"
/-- Type tag `"String"`. -/
def tagString : List Nat := bytesOf "String"

/-- Record marker `'G'`. -/
def markerG : Nat := 71
/-- Record marker `'M'`. -/
def markerM : Nat := 77
/-- Record marker `'I'`. -/
def markerI : Nat := 73

/-- Injector `ReadValue(in, typeName, data)`: the returned flag, the buffer and the
stream afterwards; `none` when `data.resize` throws `std::bad_alloc`. -/
def ReadValue (alloc : Allocator) (inp : IfStream) (typeName : List Nat) (data : List Nat) :
    Option (Bool × List Nat × IfStream) :=
  if typeName = tagInt ∨ typeName = tagInteger then
    match resize alloc inp.data.length data 4 with
    | none => none
    | some data =>
      let (got, in1) := inp.read 4
      some (!in1.failbit, overlay got data, in1)
  else if typeName = tagBlob ∨ typeName = tagKString ∨ typeName = tagString then
    let (sizeBytes, in1) := inp.read 4
    if in1.failbit then some (false, data, in1)
    else
      let size := fromLE32 sizeBytes
      match resize alloc in1.data.length data size with
      | none => none
      | some data =>
        if size > 0 then
          let (got, in2) := in1.read size
          some (!in2.failbit, overlay got data, in2)
        else some (!in1.failbit, data, in1)
  else some (false, data, inp)

/-! ## The readers when every request is granted -/

/-- What `ReadString(in, str)` returns when `str.resize(len)` is granted. -/
def readStringGranted (inp : IfStream) (str : List Nat) : Bool × List Nat × IfStream :=
  let (lenBytes, in1) := inp.read 4
  if in1.failbit then (false, str, in1)
  else
    let len := fromLE32 lenBytes
    let str := resized str len
    if len > 0 then
      let (got, in2) := in1.read len
      (!in2.failbit, overlay got str, in2)
    else (!in1.failbit, str, in1)

/-- Whether `str.resize(len)` is refused in `ReadString(in, str)`. -/
def stringRefused (alloc : Allocator) (inp : IfStream) : Bool :=
  let (lenBytes, in1) := inp.read 4
  !in1.failbit && !grants alloc in1.data.length (fromLE32 lenBytes)

/-- What `ReadValue(in, typeName, data)` returns when `data.resize` is granted. -/
def readValueGranted (inp : IfStream) (typeName : List Nat) (data : List Nat) :
    Bool × List Nat × IfStream :=
  if typeName = tagInt ∨ typeName = tagInteger then
    let data := resized data 4
    let (got, in1) := inp.read 4
    (!in1.failbit, overlay got data, in1)
  else if typeName = tagBlob ∨ typeName = tagKString ∨ typeName = tagString then
    let (sizeBytes, in1) := inp.read 4
    if in1.failbit then (false, data, in1)
    else
      let size := fromLE32 sizeBytes
      let data := resized data size
      if size > 0 then
        let (got, in2) := in1.read size
        (!in2.failbit, overlay got data, in2)
      else (!in1.failbit, data, in1)
  else (false, data, inp)

/-- Whether `data.resize` is refused in `ReadValue(in, typeName, data)`. -/
def valueRefused (alloc : Allocator) (inp : IfStream) (typeName : List Nat) : Bool :=
  if typeName = tagInt ∨ typeName = tagInteger then !grants alloc inp.data.length 4
  else if typeName = tagBlob ∨ typeName = tagKString ∨ typeName = tagString then
    let (sizeBytes, in1) := inp.read 4
    !in1.failbit && !grants alloc in1.data.length (fromLE32 sizeBytes)
  else false

/-- Whether one of the four reads of a property record, made on the stream `f1`
that follows the marker, is refused its storage. -/
def propertyRefused (alloc : Allocator) (f1 : IfStream) : Bool :=
  stringRefused alloc f1 ||
  stringRefused alloc (readStringGranted f1 []).2.2 ||
  stringRefused alloc (readStringGranted (readStringGranted f1 []).2.2 []).2.2 ||
  valueRefused alloc
    (readStringGranted (readStringGranted (readStringGranted f1 []).2.2 []).2.2 []).2.2
    (readStringGranted (readStringGranted (readStringGranted f1 []).2.2 []).2.2 []).2.1

/-- Whether one of the two reads of a name of an array record, made on the stream
`f1` that follows the marker, is refused its storage. -/
def namesRefused (alloc : Allocator) (f1 : IfStream) : Bool :=
  stringRefused alloc f1 || stringRefused alloc (readStringGranted f1 []).2.2

/-! ## `std::map` with `std::string` keys -/

/-- Order of `std::string` keys: lexicographic on bytes. -/
def strLt : List Nat → List Nat → Bool
  | [], [] => false
  | [], _ :: _ => true
  | _ :: _, [] => false
  | a :: as, b :: bs => decide (a < b) || (a == b && strLt as bs)

/-- A `std::map<std::string, β>`: its entries in iteration order. -/
abbrev StdMap (β : Type) := List (List Nat × β)

/-- The member `m.count(k)`. -/
def mapCount {β : Type} (m : StdMap β) (k : List Nat) : Nat :=
  match m with
  | [] => 0
  | (k1, _) :: rest => if k1 = k then 1 else mapCount rest k

/-- The lookup `m.find(k)`. -/
def mapFind {β : Type} (m : StdMap β) (k : List Nat) : Option β :=
  match m with
  | [] => none
  | (k1, v1) :: rest => if k1 = k then some v1 else mapFind rest k

/-- The assignment `m[k] = v`: replaces the entry of an existing key, otherwise
inserts the entry at its place in key order. -/
def mapAssign {β : Type} (m : StdMap β) (k : List Nat) (v : β) : StdMap β :=
  match m with
  | [] => [(k, v)]
  | (k1, v1) :: rest =>
    if k1 = k then (k, v) :: rest
    else if strLt k k1 then (k, v) :: (k1, v1) :: rest
    else (k1, v1) :: mapAssign rest k v

/-- The value of the expression `m[k]`: the stored entry, or a value-initialised one. -/
def mapAt {β : Type} [Inhabited β] (m : StdMap β) (k : List Nat) : β :=
  (mapFind m k).getD default

/-! ## Injector.cpp: the loaded index -/

/-- Map type of properties: name to (type name, value bytes). -/
abbrev PropertyMap := StdMap (List Nat × List Nat)

/-- The `struct GeometryData`. -/
structure GeometryData where
  properties : PropertyMap
  userDataName : List Nat
  islandGroupIDs : List Int
  hasIslandData : Bool
deriving DecidableEq, Repr

instance : Inhabited GeometryData :=
  ⟨{ properties := [], userDataName := [], islandGroupIDs := [], hasIslandData := false }⟩

/-- The reading loop of `LoadAllDataFromFile`, one iteration per unit of fuel.
The result is `none` when the loop does not return: a reader throws
`std::bad_alloc`, which nothing catches, so that the program is terminated; or the
fuel runs out before the loop ends, which one unit of fuel per byte and one more
exclude. -/
def loadLoop (alloc : Allocator) : Nat → IfStream → PropertyMap → StdMap GeometryData →
    Option (PropertyMap × StdMap GeometryData)
  | 0, _, _, _ => none
  | fuel + 1, dataFile, documentProperties, geometryData =>
    if dataFile.failbit then some (documentProperties, geometryData)
    else
      let (markerBuf, f1) := dataFile.read 1
      if f1.eofbit then some (documentProperties, geometryData)
      else
        let marker := markerBuf.getD 0 0
        if marker = markerG then
          match ReadString alloc f1 [] with
          | none => none
          | some (_, _objectName, f2) =>
          match ReadString alloc f2 [] with
          | none => none
          | some (_, propName, f3) =>
          match ReadString alloc f3 [] with
          | none => none
          | some (_, typeName, f4) =>
          match ReadValue alloc f4 typeName [] with
          | none => none
          | some (ok, data, f5) =>
            if !ok then some (documentProperties, geometryData)
            else loadLoop alloc fuel f5
              (mapAssign documentProperties propName (typeName, data))
              geometryData
        else if marker = markerM then
          match ReadString alloc f1 [] with
          | none => none
          | some (_, meshName, f2) =>
          match ReadString alloc f2 [] with
          | none => none
          | some (_, propName, f3) =>
          match ReadString alloc f3 [] with
          | none => none
          | some (_, typeName, f4) =>
          match ReadValue alloc f4 typeName [] with
          | none => none
          | some (ok, data, f5) =>
            if !ok then some (documentProperties, geometryData)
            else
              let g := mapAt geometryData meshName
              loadLoop alloc fuel f5 documentProperties
                (mapAssign geometryData meshName
                  { g with properties := mapAssign g.properties propName (typeName, data) })
        else if marker = markerI then
          match ReadString alloc f1 [] with
          | none => none
          | some (_, meshName, f2) =>
          match ReadString alloc f2 [] with
          | none => none
          | some (_, userDataName, f3) =>
          match ReadIntArray alloc f3 [] with
          | none => none
          | some (ok, groupIDs, f4) =>
            if !ok then some (documentProperties, geometryData)
            else
              let g := mapAt geometryData meshName
              loadLoop alloc fuel f4 documentProperties
                (mapAssign geometryData meshName
                  { g with userDataName := userDataName, islandGroupIDs := groupIDs,
                           hasIslandData := true })
        else loadLoop alloc fuel f1 documentProperties geometryData

/-- Injector `LoadAllDataFromFile`: `dataFile` is the content of the file, `none`
when it cannot be opened; the two maps are the in-out parameters; `alloc` is the
allocator of the machine. Every iteration extracts a byte, so one unit of fuel per
byte and one more for the final test are enough: the result is `none` exactly
when `std::bad_alloc` ends the program before the function returns. -/
def LoadAllDataFromFile (alloc : Allocator) (dataFile : Option (List Nat))
    (documentProperties : PropertyMap) (geometryData : StdMap GeometryData) :
    Option (PropertyMap × StdMap GeometryData) :=
  match dataFile with
  | none => some (documentProperties, geometryData)
  | some bytes =>
    loadLoop alloc (bytes.length + 1) (IfStream.open bytes) documentProperties geometryData

/-! ## The scene graph (FBX SDK objects the two tools touch) -/

/-- Identity of a data type of the SDK, as tested by `FbxDataType::Is`. -/
inductive FbxTypeId where
  | int | blob | string | url | other
deriving DecidableEq, Repr

/-- An `FbxDataType`: its name (`GetName()`) and its identity. -/
structure FbxDataType where
  name : List Nat
  id : FbxTypeId
deriving DecidableEq, Repr

/-- The SDK constant `FbxIntDT`. -/
def FbxIntDT : FbxDataType := { name := bytesOf "Integer", id := .int }
/-- The SDK constant `FbxBlobDT`. -/
def FbxBlobDT : FbxDataType := { name := bytesOf "Blob", id := .blob }
/-- The SDK constant `FbxStringDT`. -/
def FbxStringDT : FbxDataType := { name := bytesOf "KString", id := .string }
/-- The SDK constant `FbxUrlDT`. -/
def FbxUrlDT : FbxDataType := { name := bytesOf "Url", id := .url }

/-- The test `a.Is(b)`. -/
def FbxDataType.Is (a b : FbxDataType) : Bool := a.id == b.id

/-- The value held by a property; `unset` for a property that never received one. -/
inductive FbxValue where
  | unset
  | int (v : Int)
  | blob (bs : List Nat)
  | str (s : List Nat)
deriving DecidableEq, Repr

/-- A property of an object: `parent` lists the names of the properties it is
nested under, outermost first (empty for a property directly on the object). -/
structure FbxProperty where
  parent : List (List Nat)
  name : List Nat
  dataType : FbxDataType
  value : FbxValue
deriving DecidableEq, Repr

/-- The value `prop.Get<int>()`. -/
def FbxProperty.GetInt (p : FbxProperty) : Int :=
  match p.value with
  | .int v => v
  | _ => 0

/-- The value `prop.Get<FbxBlob>()`. -/
def FbxProperty.GetBlob (p : FbxProperty) : List Nat :=
  match p.value with
  | .blob bs => bs
  | _ => []

/-- The value `prop.Get<FbxString>()`. -/
def FbxProperty.GetString (p : FbxProperty) : List Nat :=
  match p.value with
  | .str s => s
  | _ => []

/-- A property handle: the path of the property (an object itself has the empty
path), `none` for an invalid handle. -/
abbrev PropHandle := Option (List (List Nat))

/-- The path of a property. -/
def FbxProperty.path (p : FbxProperty) : List (List Nat) := p.parent ++ [p.name]

/-- The call `FbxProperty::Create(parent, dataType, name)` with duplicate check:
the existing property of that name under the parent, or a new one without a value;
an invalid parent gives an invalid property. Returns the properties of the object
and the handle. -/
def FbxProperty.Create (props : List FbxProperty) (parent : PropHandle) (dataType : FbxDataType)
    (name : List Nat) : List FbxProperty × PropHandle :=
  match parent with
  | none => (props, none)
  | some pp =>
    if props.any (fun p => p.path = pp ++ [name]) then (props, some (pp ++ [name]))
    else (props ++ [{ parent := pp, name := name, dataType := dataType, value := .unset }],
          some (pp ++ [name]))

/-- The call `prop.Set(v)` on the property a handle designates. -/
def FbxProperty.Set (props : List FbxProperty) (h : PropHandle) (v : FbxValue) :
    List FbxProperty :=
  match h with
  | none => props
  | some path => props.map (fun p => if p.path = path then { p with value := v } else p)

/-- Mapping modes of a layer element. -/
inductive MappingMode where
  | eNone | eByControlPoint | eByPolygonVertex | eByPolygon | eByEdge | eAllSame
deriving DecidableEq, Repr

/-- Reference modes of a layer element. -/
inductive ReferenceMode where
  | eDirect | eIndex | eIndexToDirect
deriving DecidableEq, Repr

/-- An `FbxLayerElementUserData`: one direct array per declared data type. -/
structure FbxLayerElementUserData where
  name : List Nat
  id : Nat
  dataTypes : List FbxDataType
  dataNames : List (List Nat)
  mappingMode : MappingMode
  referenceMode : ReferenceMode
  directArrays : List (List Int)
deriving DecidableEq, Repr

/-- The call `FbxLayerElementUserData::Create(mesh, name, id, dataTypes, dataNames)`:
a new element with an empty direct array for every data type. -/
def FbxLayerElementUserData.Create (name : List Nat) (id : Nat) (dataTypes : List FbxDataType)
    (dataNames : List (List Nat)) : Option FbxLayerElementUserData :=
  some { name := cstr name, id := id, dataTypes := dataTypes, dataNames := dataNames,
         mappingMode := .eNone, referenceMode := .eDirect,
         directArrays := dataTypes.map (fun _ => []) }

/-- The call `userData->ResizeAllDirectArrays(n)`. -/
def FbxLayerElementUserData.ResizeAllDirectArrays (u : FbxLayerElementUserData) (n : Nat) :
    FbxLayerElementUserData :=
  { u with directArrays := u.directArrays.map (fun a => resizedInts a n) }

/-- The call `userData->GetDirectArrayVoid(i, &status)`: the status and the array. -/
def FbxLayerElementUserData.GetDirectArrayVoid (u : FbxLayerElementUserData) (i : Nat) :
    Bool × Option (List Int) :=
  match u.directArrays.get? i with
  | some a => (true, some a)
  | none => (false, none)

/-- The call `voidArray->GetLocked(...)`: the storage of the array. -/
def GetLocked (a : List Int) : Option (List Int) := some a

/-- A layer of a mesh, with its user-data element if it has one. -/
structure FbxLayer where
  userData : Option FbxLayerElementUserData
deriving DecidableEq, Repr

/-- A mesh: its name, the properties on it and its layers. -/
structure FbxMesh where
  name : List Nat
  properties : List FbxProperty
  layers : List FbxLayer
deriving DecidableEq, Repr

/-- A node attribute: a mesh, or an attribute of another type. -/
inductive FbxNodeAttribute where
  | mesh (m : FbxMesh)
  | other
deriving DecidableEq, Repr

/-- A node of the scene; every node owns its attribute. -/
structure FbxNode where
  name : List Nat
  nodeAttribute : Option FbxNodeAttribute
deriving DecidableEq, Repr

/-- The root document of a scene. -/
structure FbxDocument where
  name : List Nat
  properties : List FbxProperty
deriving DecidableEq, Repr

/-- A scene: `GetRootDocument()` and the nodes `GetNode(0)`, `GetNode(1)`, ... -/
structure FbxScene where
  rootDocument : Option FbxDocument
  nodes : List FbxNode
deriving DecidableEq, Repr

/-! ## Extractor.cpp: records -/

/-- Extractor `WriteBlob(out, blob)`. -/
def WriteBlob (out : List Nat) (blob : List Nat) : List Nat :=
  let size := castU32 blob.length
  let out := out ++ toLE32 size
  if size > 0 then out ++ blob.take size else out

/-- Extractor `ProcessAndWriteProperty(outFile, prop, objectName, marker)`. -/
def ProcessAndWriteProperty (outFile : List Nat) (prop : FbxProperty) (objectName : List Nat)
    (marker : Nat) : List Nat :=
  let propName := cstr prop.name
  let outFile := outFile ++ [marker]
  let outFile := WriteString outFile objectName
  let outFile := WriteString outFile propName
  let typeName := cstr prop.dataType.name
  let outFile := WriteString outFile typeName
  if prop.dataType.Is FbxIntDT then
    outFile ++ toLE32 (intToU32 prop.GetInt)
  else if prop.dataType.Is FbxBlobDT then
    WriteBlob outFile prop.GetBlob
  else if prop.dataType.Is FbxStringDT || prop.dataType.Is FbxUrlDT then
    WriteString outFile (cstr prop.GetString)
  else outFile

/-- The part of `ExtractGeometryRizomData` that writes one auxiliary-array record
once the integers `groupIDs` are collected. -/
def writeIslandRecord (outFile : List Nat) (cacheName userDataName : List Nat)
    (groupIDs : List Int) : List Nat :=
  let outFile := outFile ++ [markerI]
  let outFile := WriteString outFile cacheName
  let outFile := WriteString outFile userDataName
  if !groupIDs.isEmpty then WriteIntArray outFile groupIDs
  else WriteIntArray outFile groupIDs

/-! ## Injector.cpp: re-attachment -/

/-- The read `*(reinterpret_cast<int*>(data.data()))`: defined only when the
buffer holds the four bytes that are read. -/
def reinterpretInt (data : List Nat) : Option Int :=
  if data.length < 4 then none else some (u32ToInt (fromLE32 (data.take 4)))

/-- Injector `InjectDocumentRizomData(scene, properties)`; `none` when the run
reads outside a buffer. -/
def InjectDocumentRizomData (scene : FbxScene) (properties : PropertyMap) : Option FbxScene :=
  match scene.rootDocument with
  | none => some scene
  | some rootDocument => do
    let (ps, rizomProp) :=
      FbxProperty.Create rootDocument.properties (some []) FbxIntDT (bytesOf "RizomUV")
    let ps ←
      if rizomProp.isSome && decide (mapCount properties (bytesOf "RizomUV") > 0) then
        (reinterpretInt (mapAt properties (bytesOf "RizomUV")).2).map
          (fun v => FbxProperty.Set ps rizomProp (.int v))
      else some ps
    let (ps, sceneProp) := FbxProperty.Create ps rizomProp FbxBlobDT (bytesOf "Scene")
    let ps :=
      if sceneProp.isSome && decide (mapCount properties (bytesOf "Scene") > 0) then
        FbxProperty.Set ps sceneProp (.blob (mapAt properties (bytesOf "Scene")).2)
      else ps
    let (ps, uvSetsProp) := FbxProperty.Create ps rizomProp FbxStringDT (bytesOf "UVSets")
    let ps :=
      if uvSetsProp.isSome && decide (mapCount properties (bytesOf "UVSets") > 0) then
        FbxProperty.Set ps uvSetsProp (.str (mapAt properties (bytesOf "UVSets")).2)
      else ps
    let (ps, uvMapProp) := FbxProperty.Create ps uvSetsProp FbxStringDT (bytesOf "UVMap")
    let ps :=
      if uvMapProp.isSome && decide (mapCount properties (bytesOf "UVMap") > 0) then
        FbxProperty.Set ps uvMapProp (.str (mapAt properties (bytesOf "UVMap")).2)
      else ps
    let (ps, rootGroupProp) := FbxProperty.Create ps uvMapProp FbxBlobDT (bytesOf "RootGroup")
    let ps :=
      if rootGroupProp.isSome && decide (mapCount properties (bytesOf "RootGroup") > 0) then
        FbxProperty.Set ps rootGroupProp (.blob (mapAt properties (bytesOf "RootGroup")).2)
      else ps
    some { scene with rootDocument := some { name := bytesOf "Scene", properties := ps } }

/-- The copy loop `for (j = 0; j < n; j++) dataPtr[j] = islandGroupIDs[j]`, over
the indices still to be visited. -/
def copyGroupIDs (islandGroupIDs : List Int) : List Nat → List Int → List Int
  | [], dataPtr => dataPtr
  | j :: js, dataPtr => copyGroupIDs islandGroupIDs js (dataPtr.set j (islandGroupIDs.getD j 0))

/-- Part 1 of the loop body of `InjectGeometryRizomData`, first statement: the
integer property `RizomUV`; `none` when the read of the value leaves the buffer. -/
def injectRizomUV (mesh : FbxMesh) (geoData : GeometryData) : Option FbxMesh :=
  if mapCount geoData.properties (bytesOf "RizomUV") > 0 then
    let (ps, rizomProp) :=
      FbxProperty.Create mesh.properties (some []) FbxIntDT (bytesOf "RizomUV")
    if rizomProp.isSome then
      (reinterpretInt (mapAt geoData.properties (bytesOf "RizomUV")).2).map
        (fun v => { mesh with properties := FbxProperty.Set ps rizomProp (.int v) })
    else some { mesh with properties := ps }
  else some mesh

/-- Part 1 of the loop body of `InjectGeometryRizomData`, second statement: the
string property `RizomUVUVSets`. -/
def injectRizomUVUVSets (mesh : FbxMesh) (geoData : GeometryData) : FbxMesh :=
  if mapCount geoData.properties (bytesOf "RizomUVUVSets") > 0 then
    let (ps, uvSetsProp) :=
      FbxProperty.Create mesh.properties (some []) FbxStringDT (bytesOf "RizomUVUVSets")
    if uvSetsProp.isSome then
      { mesh with
        properties := FbxProperty.Set ps uvSetsProp
          (FbxValue.str (mapAt geoData.properties (bytesOf "RizomUVUVSets")).2) }
    else { mesh with properties := ps }
  else mesh

/-- Part 1 of the loop body of `InjectGeometryRizomData`: the two mesh properties. -/
def injectRizomProperties (mesh : FbxMesh) (geoData : GeometryData) : Option FbxMesh :=
  (injectRizomUV mesh geoData).map (fun mesh => injectRizomUVUVSets mesh geoData)

/-- Part 2 of the loop body of `InjectGeometryRizomData`: the island group IDs. -/
def injectIslandGroupIDs (mesh : FbxMesh) (geoData : GeometryData) : FbxMesh :=
  if geoData.hasIslandData && !geoData.islandGroupIDs.isEmpty then
    let mesh :=
      match mesh.layers.get? 0 with
      | some _ => mesh
      | none => { mesh with layers := mesh.layers ++ [{ userData := none }] }
    let userDataName :=
      if geoData.userDataName.isEmpty then bytesOf "RizomUVUVMapIslandGroupIDs"
      else geoData.userDataName
    let dataTypes := [FbxIntDT]
    let dataNames := [bytesOf "IslandGroupID"]
    match FbxLayerElementUserData.Create userDataName 0 dataTypes dataNames with
    | some userData =>
      let userData := { userData with mappingMode := MappingMode.eByPolygon }
      let userData := { userData with referenceMode := ReferenceMode.eDirect }
      let userData := userData.ResizeAllDirectArrays geoData.islandGroupIDs.length
      let (getStatus, voidArray) := userData.GetDirectArrayVoid 0
      let userData :=
        match getStatus, voidArray with
        | true, some arr =>
          match GetLocked arr with
          | some dataPtr =>
            let dataPtr := copyGroupIDs geoData.islandGroupIDs
              (List.range geoData.islandGroupIDs.length) dataPtr
            { userData with directArrays := userData.directArrays.set 0 dataPtr }
          | none => userData
        | _, _ => userData
      { mesh with layers := mesh.layers.modifyHead (fun _ => { userData := some userData }) }
    | none => mesh
  else mesh

/-- The matcher of `InjectGeometryRizomData`: the entry `geoData` points to after
the lookups by node name and by mesh name, `none` when both miss. -/
def matchGeometryData (geometryData : StdMap GeometryData) (nodeName meshName : List Nat) :
    Option GeometryData :=
  if mapCount geometryData nodeName > 0 then some (mapAt geometryData nodeName)
  else if mapCount geometryData meshName > 0 then some (mapAt geometryData meshName)
  else none

/-- The loop body of `InjectGeometryRizomData` for one node: the matcher, then the
two parts for a matched mesh; a node without a match or without a mesh is left as
it is and the loop continues. -/
def injectNode (geometryData : StdMap GeometryData) (node : FbxNode) : Option FbxNode :=
  match node.nodeAttribute with
  | some (.mesh mesh) =>
    match matchGeometryData geometryData (cstr node.name) (cstr mesh.name) with
    | none => some node
    | some geoData => do
      let mesh ← injectRizomProperties mesh geoData
      some { node with nodeAttribute := some (.mesh (injectIslandGroupIDs mesh geoData)) }
  | _ => some node

/-- The loop of `InjectGeometryRizomData` over the nodes of the scene, in order. -/
def injectNodes (geometryData : StdMap GeometryData) : List FbxNode → Option (List FbxNode)
  | [] => some []
  | node :: rest => do
    let node ← injectNode geometryData node
    let rest ← injectNodes geometryData rest
    some (node :: rest)

/-- Injector `InjectGeometryRizomData(scene, geometryData)`; `none` when the run
reads outside a buffer. -/
def InjectGeometryRizomData (scene : FbxScene) (geometryData : StdMap GeometryData) :
    Option FbxScene :=
  (injectNodes geometryData scene.nodes).map (fun nodes => { scene with nodes := nodes })

/-- What a run of the injector leaves behind: its exit code and the exported scene. -/
structure RunResult where
  exitCode : Nat
  exported : Option FbxScene
deriving DecidableEq, Repr

/-- Injector `main`: `alloc` is the allocator of the machine, `target` the imported
target scene (`none` when the importer cannot open it), `dataFile` the content of
the container file, the two flags the outcome of the exporter; `none` when the run
does not reach its end, by `std::bad_alloc` or by a read outside a buffer. -/
def Injector.main (alloc : Allocator) (argc : Nat) (target : Option FbxScene)
    (dataFile : Option (List Nat)) (exporterInitialized exportSucceeded : Bool) :
    Option RunResult :=
  if argc < 4 then some { exitCode := 1, exported := none }
  else
    match target with
    | none => some { exitCode := 1, exported := none }
    | some scene => do
      let (documentProperties, geometryData) ← LoadAllDataFromFile alloc dataFile [] []
      let scene ← InjectDocumentRizomData scene documentProperties
      let scene ← InjectGeometryRizomData scene geometryData
      if !exporterInitialized then some { exitCode := 1, exported := none }
      else if exportSucceeded then some { exitCode := 0, exported := some scene }
      else some { exitCode := 0, exported := none }

/-! ## Extractor.cpp: extraction -/

/-- The call `object->FindProperty(name)`: the property of that name directly on
the object, if there is one. -/
def FindProperty (props : List FbxProperty) (name : List Nat) : Option FbxProperty :=
  props.find? (fun p => decide (p.parent = [] ∧ p.name = name))

/-- The call `prop.Find(name)`: the child of that name of a property. -/
def FbxProperty.Find (props : List FbxProperty) (prop : FbxProperty) (name : List Nat) :
    Option FbxProperty :=
  props.find? (fun p => decide (p.parent = prop.path ∧ p.name = name))

/-- Extractor `ExtractDocumentRizomData(scene, outFile)`. -/
def ExtractDocumentRizomData (scene : FbxScene) (outFile : List Nat) : List Nat :=
  match scene.rootDocument with
  | none => outFile
  | some rootDocument =>
    match FindProperty rootDocument.properties (bytesOf "RizomUV") with
    | some rizomProp =>
      let outFile := ProcessAndWriteProperty outFile rizomProp (bytesOf "FbxDocument") markerG
      let outFile :=
        match FbxProperty.Find rootDocument.properties rizomProp (bytesOf "Scene") with
        | some sceneProp =>
          ProcessAndWriteProperty outFile sceneProp (bytesOf "FbxDocument") markerG
        | none => outFile
      match FbxProperty.Find rootDocument.properties rizomProp (bytesOf "UVSets") with
      | some uvSetsProp =>
        let outFile :=
          ProcessAndWriteProperty outFile uvSetsProp (bytesOf "FbxDocument") markerG
        match FbxProperty.Find rootDocument.properties uvSetsProp (bytesOf "UVMap") with
        | some uvMapProp =>
          let outFile :=
            ProcessAndWriteProperty outFile uvMapProp (bytesOf "FbxDocument") markerG
          match FbxProperty.Find rootDocument.properties uvMapProp (bytesOf "RootGroup") with
          | some rootGroupProp =>
            ProcessAndWriteProperty outFile rootGroupProp (bytesOf "FbxDocument") markerG
          | none => outFile
        | none => outFile
      | none => outFile
    | none => outFile

/-- The result of `str.find(sub)`: the position of the first occurrence of `sub`
in `str`, `none` for `npos`. -/
def stringFind : List Nat → List Nat → Option Nat
  | [], sub => if sub.isEmpty then some 0 else none
  | c :: cs, sub =>
    if sub.isPrefixOf (c :: cs) then some 0 else (stringFind cs sub).map (fun i => i + 1)

/-- The test `isRizomData` of `ExtractGeometryRizomData` on the name of a user-data element. -/
def isRizomData (userDataName : List Nat) : Bool :=
  (stringFind userDataName (bytesOf "Island")).isSome ||
  (stringFind userDataName (bytesOf "RizomUV")).isSome ||
  (stringFind userDataName (bytesOf "GroupID")).isSome

/-- The integers `ExtractGeometryRizomData` collects from a user-data element: the
content of its first direct array, nothing when it has none. -/
def collectGroupIDs (userData : FbxLayerElementUserData) : List Int :=
  let arrayCount := userData.directArrays.length
  if arrayCount > 0 then
    match userData.GetDirectArrayVoid 0 with
    | (true, some voidArray) =>
      match GetLocked voidArray with
      | some dataPtr => dataPtr
      | none => []
    | _ => []
  else []

/-- The loop over the layers of a mesh in `ExtractGeometryRizomData`. -/
def extractLayers (cacheName : List Nat) : List FbxLayer → List Nat → List Nat
  | [], outFile => outFile
  | layer :: rest, outFile =>
    match layer.userData with
    | some userData =>
      let userDataName := cstr userData.name
      if isRizomData userDataName then
        extractLayers cacheName rest
          (writeIslandRecord outFile cacheName userDataName (collectGroupIDs userData))
      else extractLayers cacheName rest outFile
    | none => extractLayers cacheName rest outFile

/-- The loop body of `ExtractGeometryRizomData` for one node. -/
def extractNode (node : FbxNode) (outFile : List Nat) : List Nat :=
  match node.nodeAttribute with
  | some (.mesh mesh) =>
    let nodeName := cstr node.name
    let cacheName := nodeName
    let outFile :=
      match FindProperty mesh.properties (bytesOf "RizomUV") with
      | some rizomProp => ProcessAndWriteProperty outFile rizomProp cacheName markerM
      | none => outFile
    let outFile :=
      match FindProperty mesh.properties (bytesOf "RizomUVUVSets") with
      | some uvSetsProp => ProcessAndWriteProperty outFile uvSetsProp cacheName markerM
      | none => outFile
    extractLayers cacheName mesh.layers outFile
  | _ => outFile

/-- Extractor `ExtractGeometryRizomData(scene, outFile)`. -/
def ExtractGeometryRizomData (scene : FbxScene) (outFile : List Nat) : List Nat :=
  scene.nodes.foldl (fun out node => extractNode node out) outFile

/-- Extractor `main`: `input` is the imported scene (`none` when the importer
cannot open it), `outputOpens` tells whether the output file can be opened; the
exit code and the content of the output file. -/
def Extractor.main (argc : Nat) (input : Option FbxScene) (outputOpens : Bool) :
    Nat × Option (List Nat) :=
  if argc < 3 then (1, none)
  else
    match input with
    | none => (1, none)
    | some scene =>
      if !outputOpens then (1, none)
      else
        let outFile := ExtractDocumentRizomData scene []
        let outFile := ExtractGeometryRizomData scene outFile
        (0, some outFile)

/-! ## Records of the container -/

/-- The bytes `ProcessAndWriteProperty` writes as the value of a property, without
a length prefix. -/
def valueBytes (prop : FbxProperty) : List Nat :=
  if prop.dataType.Is FbxIntDT then toLE32 (intToU32 prop.GetInt)
  else if prop.dataType.Is FbxBlobDT then prop.GetBlob
  else if prop.dataType.Is FbxStringDT || prop.dataType.Is FbxUrlDT then cstr prop.GetString
  else []

/-- The three kinds of record the extractor writes: a property of the document
(marker `'G'`), a property of a mesh (marker `'M'`), an auxiliary array (marker `'I'`). -/
inductive Record where
  | documentProperty (objectName : List Nat) (prop : FbxProperty)
  | geometryProperty (meshName : List Nat) (prop : FbxProperty)
  | auxiliaryArray (meshName userDataName : List Nat) (groupIDs : List Int)
deriving DecidableEq, Repr

/-- The bytes the extractor appends for one record. -/
def writeRecord (outFile : List Nat) : Record → List Nat
  | .documentProperty objectName prop => ProcessAndWriteProperty outFile prop objectName markerG
  | .geometryProperty meshName prop => ProcessAndWriteProperty outFile prop meshName markerM
  | .auxiliaryArray meshName userDataName groupIDs =>
    writeIslandRecord outFile meshName userDataName groupIDs

/-- The bytes the extractor appends for a sequence of records, in order. -/
def writeRecords (outFile : List Nat) (records : List Record) : List Nat :=
  records.foldl writeRecord outFile

/-- A property whose record the reader can decode: its type tag is one of the five
recognised names, an integer tag goes with an integer value, another tag with a
blob or string shorter than `2^32` bytes, and its name is shorter than `2^32` bytes. -/
def WellFormedProperty (prop : FbxProperty) : Prop :=
  (cstr prop.name).length < 2 ^ 32 ∧
  (((cstr prop.dataType.name = tagInt ∨ cstr prop.dataType.name = tagInteger) ∧
      prop.dataType.id = .int) ∨
   ((cstr prop.dataType.name = tagBlob ∨ cstr prop.dataType.name = tagKString ∨
      cstr prop.dataType.name = tagString) ∧
      (prop.dataType.id = .blob ∨ prop.dataType.id = .string ∨ prop.dataType.id = .url) ∧
      (valueBytes prop).length < 2 ^ 32))

instance (prop : FbxProperty) : Decidable (WellFormedProperty prop) := by
  unfold WellFormedProperty; infer_instance

/-- A well-formed record: strings, blobs and arrays shorter than `2^32`, a
well-formed property, 32-bit integers. -/
def Record.WellFormed : Record → Prop
  | .documentProperty objectName prop => objectName.length < 2 ^ 32 ∧ WellFormedProperty prop
  | .geometryProperty meshName prop => meshName.length < 2 ^ 32 ∧ WellFormedProperty prop
  | .auxiliaryArray meshName userDataName groupIDs =>
    meshName.length < 2 ^ 32 ∧ userDataName.length < 2 ^ 32 ∧ groupIDs.length < 2 ^ 32 ∧
    ∀ v ∈ groupIDs, -2 ^ 31 ≤ v ∧ v < 2 ^ 31

instance (r : Record) : Decidable r.WellFormed := by
  cases r <;> unfold Record.WellFormed <;> infer_instance

/-- The fields of a record after its marker, in the order the reader reads them:
for each field the bytes of its length prefix or count (none for the four raw bytes
of an integer value) and the bytes of storage the reader asks for, which are the
bytes of its content. -/
def Record.fieldRequests : Record → List (Nat × Nat)
  | .documentProperty objectName prop =>
    [(4, objectName.length), (4, (cstr prop.name).length),
     (4, (cstr prop.dataType.name).length),
     if prop.dataType.id = .int then (0, 4) else (4, (valueBytes prop).length)]
  | .geometryProperty meshName prop =>
    [(4, meshName.length), (4, (cstr prop.name).length),
     (4, (cstr prop.dataType.name).length),
     if prop.dataType.id = .int then (0, 4) else (4, (valueBytes prop).length)]
  | .auxiliaryArray meshName userDataName groupIDs =>
    [(4, meshName.length), (4, userDataName.length), (4, groupIDs.length * 4)]

/-- Whether the reader of fields of which only the first `present` bytes are in the
file is refused its storage: the fields that are whole are backed by the file; the
field in which the file ends asks for storage only if its length prefix is whole,
and for more than the file holds, so that the allocator decides. -/
def cutRefused (alloc : Allocator) : List (Nat × Nat) → Nat → Bool
  | [], _ => false
  | (lengthBytes, request) :: fields, present =>
    if present < lengthBytes then false
    else if present - lengthBytes < request then !alloc request
    else cutRefused alloc fields (present - lengthBytes - request)

/-- The cut of a record after the initial part `p`, marker included, falls in the
content of a field whose length prefix is whole, and the allocator refuses the
storage that length asks for. -/
def Record.allocationRefused (alloc : Allocator) (r : Record) (p : List Nat) : Prop :=
  cutRefused alloc r.fieldRequests (p.length - 1) = true

instance (alloc : Allocator) (r : Record) (p : List Nat) :
    Decidable (r.allocationRefused alloc p) := by
  unfold Record.allocationRefused; infer_instance

/-- Insertion of one record into the two indices, as the container format
describes it: a document property under its property name, a geometry property
under owner and property name, an array in the single slot of its owner with
the presence flag set. -/
def insertRecord (index : PropertyMap × StdMap GeometryData) :
    Record → PropertyMap × StdMap GeometryData
  | .documentProperty _ prop =>
    (mapAssign index.1 (cstr prop.name) (cstr prop.dataType.name, valueBytes prop), index.2)
  | .geometryProperty meshName prop =>
    let g := mapAt index.2 meshName
    (index.1, mapAssign index.2 meshName
      { g with properties :=
          mapAssign g.properties (cstr prop.name) (cstr prop.dataType.name, valueBytes prop) })
  | .auxiliaryArray meshName userDataName groupIDs =>
    let g := mapAt index.2 meshName
    (index.1, mapAssign index.2 meshName
      { g with userDataName := userDataName, islandGroupIDs := groupIDs,
               hasIslandData := true })

/-! ## One level of re-creation -/

/-- The pattern every level of the two inject functions follows: find or create the
property under its parent, then set its value when there is one to set and the
property is valid. Returns the properties of the object and the handle. -/
def createAndSet (props : List FbxProperty) (parent : PropHandle) (dataType : FbxDataType)
    (name : List Nat) (value : Option FbxValue) : List FbxProperty × PropHandle :=
  match value with
  | some v =>
    if (FbxProperty.Create props parent dataType name).2.isSome then
      (FbxProperty.Set (FbxProperty.Create props parent dataType name).1
        (FbxProperty.Create props parent dataType name).2 v,
       (FbxProperty.Create props parent dataType name).2)
    else FbxProperty.Create props parent dataType name
  | none => FbxProperty.Create props parent dataType name

/-- The value a level of the document chain sets: the recorded bytes of the name,
wrapped as the level's type, when the name is in the index. -/
def recordedValue (properties : PropertyMap) (name : List Nat) (wrap : List Nat → FbxValue) :
    Option FbxValue :=
  (mapFind properties name).map (fun v => wrap v.2)

/-- The properties `InjectDocumentRizomData` leaves on the document when its run is
defined: the five levels in the order of the source, each under the handle the
source passes as parent. -/
def documentChain (props : List FbxProperty) (properties : PropertyMap) : List FbxProperty :=
  let ps1 := (createAndSet props (some []) FbxIntDT (bytesOf "RizomUV")
    (recordedValue properties (bytesOf "RizomUV")
      (fun data => .int (u32ToInt (fromLE32 (data.take 4)))))).1
  let ps2 := (createAndSet ps1 (some [bytesOf "RizomUV"]) FbxBlobDT (bytesOf "Scene")
    (recordedValue properties (bytesOf "Scene") FbxValue.blob)).1
  let ps3 := (createAndSet ps2 (some [bytesOf "RizomUV"]) FbxStringDT (bytesOf "UVSets")
    (recordedValue properties (bytesOf "UVSets") FbxValue.str)).1
  let ps4 := (createAndSet ps3 (some [bytesOf "RizomUV", bytesOf "UVSets"]) FbxStringDT
    (bytesOf "UVMap") (recordedValue properties (bytesOf "UVMap") FbxValue.str)).1
  (createAndSet ps4 (some [bytesOf "RizomUV", bytesOf "UVSets", bytesOf "UVMap"]) FbxBlobDT
    (bytesOf "RootGroup") (recordedValue properties (bytesOf "RootGroup") FbxValue.blob)).1

/-- The five levels of the document chain as the source creates them: the name,
the path of the parent property, and the type the recorded bytes are set as. -/
def documentLevels : List (List Nat × List (List Nat) × (List Nat → FbxValue)) :=
  [(bytesOf "RizomUV", [], fun data => .int (u32ToInt (fromLE32 (data.take 4)))),
   (bytesOf "Scene", [bytesOf "RizomUV"], FbxValue.blob),
   (bytesOf "UVSets", [bytesOf "RizomUV"], FbxValue.str),
   (bytesOf "UVMap", [bytesOf "RizomUV", bytesOf "UVSets"], FbxValue.str),
   (bytesOf "RootGroup", [bytesOf "RizomUV", bytesOf "UVSets", bytesOf "UVMap"],
    FbxValue.blob)]

/-- A map whose entries are in strictly ascending key order, the order of
iteration of a `std::map`. -/
def mapSorted {β : Type} (m : StdMap β) : Prop :=
  m.Pairwise (fun a b => strLt a.1 b.1 = true)

/-- The loaded index is well ordered: the document map, the geometry map and the
property map of every geometry entry are in strictly ascending key order. -/
def indexSorted (doc : PropertyMap) (geo : StdMap GeometryData) : Prop :=
  mapSorted doc ∧ mapSorted geo ∧ ∀ e ∈ geo, mapSorted e.2.properties

/-! ## Layout of the fields of a record -/

/-- A length-prefixed field: the four bytes of the 32-bit length, then that many bytes. -/
def lengthPrefixed (s : List Nat) : List Nat :=
  toLE32 (castU32 s.length) ++ s.take (castU32 s.length)

/-- A count-prefixed array field: the four bytes of the 32-bit count, then the
packed integers, four bytes each. -/
def countPrefixed (a : List Int) : List Nat :=
  toLE32 (castU32 a.length) ++ (intsToBytes a).take (castU32 a.length * 4)

/-! ## Small scenes and indices used as concrete inputs -/

/-- A mesh node without properties or layers. -/
def plainMeshNode (nodeName meshName : List Nat) : FbxNode :=
  { name := nodeName,
    nodeAttribute := some (.mesh { name := meshName, properties := [], layers := [] }) }

/-- An index entry holding only an auxiliary array. -/
def arrayEntry (userDataName : List Nat) (ids : List Int) : GeometryData :=
  { properties := [], userDataName := userDataName, islandGroupIDs := ids,
    hasIslandData := true }

/-- A target scene with a root document without properties and without nodes. -/
def emptyTargetScene : FbxScene :=
  { rootDocument := some { name := [], properties := [] }, nodes := [] }

/-- The container the extractor writes for a document whose integer property
`RizomUV` is 7 and has a child `Scene` of an SDK type named `Number`. -/
def containerWithUnknownType : List Nat :=
  writeRecords []
    [Record.documentProperty (bytesOf "FbxDocument")
       { parent := [], name := bytesOf "RizomUV", dataType := FbxIntDT, value := .int 7 },
     Record.documentProperty (bytesOf "FbxDocument")
       { parent := [bytesOf "RizomUV"], name := bytesOf "Scene",
         dataType := { name := bytesOf "Number", id := .other }, value := .unset }]

/-- The source scene of the end-to-end scenario: the document has the integer
property `RizomUV = 7`; the mesh node `Island_01` has the string property
`RizomUVUVSets = "setA"` and a user-data element holding `[3, 3, 3, 7]`. -/
def scenarioSource : FbxScene :=
  { rootDocument := some
      { name := bytesOf "Scene",
        properties :=
          [{ parent := [], name := bytesOf "RizomUV", dataType := FbxIntDT, value := .int 7 }] },
    nodes :=
      [{ name := bytesOf "Island_01",
         nodeAttribute := some (.mesh
           { name := bytesOf "Island_01",
             properties :=
               [{ parent := [], name := bytesOf "RizomUVUVSets", dataType := FbxStringDT,
                  value := .str (bytesOf "setA") }],
             layers :=
               [{ userData := some
                    { name := bytesOf "RizomUVUVMapIslandGroupIDs", id := 0,
                      dataTypes := [FbxIntDT], dataNames := [bytesOf "IslandGroupID"],
                      mappingMode := .eByPolygon, referenceMode := .eDirect,
                      directArrays := [[3, 3, 3, 7]] } }] }) }] }

/-- The target scene of the end-to-end scenario: a document without properties and
a mesh node `Island_01` without properties or layers. -/
def scenarioTarget : FbxScene :=
  { rootDocument := some { name := [], properties := [] },
    nodes := [plainMeshNode (bytesOf "Island_01") (bytesOf "Island_01")] }

/-- An index entry with the two mesh properties the injector re-creates and a third
property `Foo`. -/
def threePropertyEntry : GeometryData :=
  { properties :=
      [(bytesOf "Foo", (bytesOf "Blob", [1])),
       (bytesOf "RizomUV", (bytesOf "Integer", [7, 0, 0, 0])),
       (bytesOf "RizomUVUVSets", (bytesOf "KString", bytesOf "setA"))],
    userDataName := [], islandGroupIDs := [], hasIslandData := false }

/-- A container with two properties of owner `X`, written in the order `b`, `a`. -/
def containerOutOfKeyOrder : List Nat :=
  writeRecords []
    [Record.geometryProperty [88]
       { parent := [], name := [98], dataType := FbxIntDT, value := .int 1 },
     Record.geometryProperty [88]
       { parent := [], name := [97], dataType := FbxIntDT, value := .int 2 }]

/-- The container the extractor writes for a document whose property `RizomUV` is an
empty blob. -/
def containerWithEmptyRizomUV : List Nat :=
  writeRecords []
    [Record.documentProperty (bytesOf "FbxDocument")
       { parent := [], name := bytesOf "RizomUV", dataType := FbxBlobDT, value := .blob [] }]

/-- The container the extractor writes for a mesh node `A` whose property `RizomUV`
is the string `ab`. -/
def containerWithShortRizomUV : List Nat :=
  writeRecords []
    [Record.geometryProperty [65]
       { parent := [], name := bytesOf "RizomUV", dataType := FbxStringDT,
         value := .str [97, 98] }]

/-! ## Variants of a container and names that select an array -/

/-- Two records that differ at most in the owner name of a document record: two
`'G'` records carrying the same property, or the same record twice. -/
def Record.sameUpToDocumentOwner : Record → Record → Prop
  | .documentProperty _ prop1, .documentProperty _ prop2 => prop1 = prop2
  | r1, r2 => r1 = r2

/-- The value field of a property record that the reader decodes under the type tag
`tag`, and the value it stores: four bytes, stored as they are, for an integer
tag; a 32-bit length and that many bytes, stored without the length, for a blob
or string tag. -/
def ValueField (tag field value : List Nat) : Prop :=
  ((tag = tagInt ∨ tag = tagInteger) ∧ field.length = 4 ∧ value = field) ∨
  ((tag = tagBlob ∨ tag = tagKString ∨ tag = tagString) ∧ value.length < 2 ^ 32 ∧
    field = toLE32 value.length ++ value)

instance (tag field value : List Nat) : Decidable (ValueField tag field value) := by
  unfold ValueField; infer_instance

/-- Two containers that differ only in the owner names of their `'G'` records, the
records being those the reader meets as it goes through the file: the same bytes;
a byte that is no marker, a document record with two owner names, a geometry
record or an array record, each followed by containers that differ in this way; a
`'G'` marker and two owner names followed by the same bytes, whatever they are; a
property record of an unrecognised type, with two owner names if it is a document
record, followed by containers that differ in this way. -/
inductive OwnerVariant : List Nat → List Nat → Prop
  | same (t : List Nat) : OwnerVariant t t
  | skipped (b : Nat) (t1 t2 : List Nat) :
      b ≠ markerG → b ≠ markerM → b ≠ markerI → OwnerVariant t1 t2 →
      OwnerVariant (b :: t1) (b :: t2)
  | documentRecord (owner1 owner2 name tag field value t1 t2 : List Nat) :
      owner1.length < 2 ^ 32 → owner2.length < 2 ^ 32 → name.length < 2 ^ 32 →
      tag.length < 2 ^ 32 → ValueField tag field value → OwnerVariant t1 t2 →
      OwnerVariant
        (markerG :: (lengthPrefixed owner1 ++ (lengthPrefixed name ++
          (lengthPrefixed tag ++ (field ++ t1)))))
        (markerG :: (lengthPrefixed owner2 ++ (lengthPrefixed name ++
          (lengthPrefixed tag ++ (field ++ t2)))))
  | geometryRecord (owner name tag field value t1 t2 : List Nat) :
      owner.length < 2 ^ 32 → name.length < 2 ^ 32 →
      tag.length < 2 ^ 32 → ValueField tag field value → OwnerVariant t1 t2 →
      OwnerVariant
        (markerM :: (lengthPrefixed owner ++ (lengthPrefixed name ++
          (lengthPrefixed tag ++ (field ++ t1)))))
        (markerM :: (lengthPrefixed owner ++ (lengthPrefixed name ++
          (lengthPrefixed tag ++ (field ++ t2)))))
  | arrayRecord (owner name : List Nat) (ids : List Int) (t1 t2 : List Nat) :
      owner.length < 2 ^ 32 → name.length < 2 ^ 32 → ids.length < 2 ^ 32 →
      (∀ v ∈ ids, -2 ^ 31 ≤ v ∧ v < 2 ^ 31) → OwnerVariant t1 t2 →
      OwnerVariant
        (markerI :: (lengthPrefixed owner ++ (lengthPrefixed name ++
          (countPrefixed ids ++ t1))))
        (markerI :: (lengthPrefixed owner ++ (lengthPrefixed name ++
          (countPrefixed ids ++ t2))))
  | documentOwner (owner1 owner2 t : List Nat) :
      OwnerVariant (markerG :: (lengthPrefixed owner1 ++ t))
        (markerG :: (lengthPrefixed owner2 ++ t))
  | unreadable (marker : Nat) (owner1 owner2 name tag t1 t2 : List Nat) :
      (marker = markerG ∨ (marker = markerM ∧ owner1 = owner2)) →
      owner1.length < 2 ^ 32 → owner2.length < 2 ^ 32 → name.length < 2 ^ 32 →
      tag.length < 2 ^ 32 → ¬ (tag = tagInt ∨ tag = tagInteger) →
      ¬ (tag = tagBlob ∨ tag = tagKString ∨ tag = tagString) → OwnerVariant t1 t2 →
      OwnerVariant
        (marker :: (lengthPrefixed owner1 ++ (lengthPrefixed name ++
          (lengthPrefixed tag ++ t1))))
        (marker :: (lengthPrefixed owner2 ++ (lengthPrefixed name ++
          (lengthPrefixed tag ++ t2))))

/-- A string contains `sub` as a run of consecutive bytes; bytes are compared as
they are, so the case of a letter matters. -/
def containsSubstring (s sub : List Nat) : Prop :=
  ∃ pre post, s = pre ++ (sub ++ post)

/-- A user-data element named `name` with the direct arrays `directArrays`. -/
def userDataNamed (name : List Nat) (directArrays : List (List Int)) :
    FbxLayerElementUserData :=
  { name := name, id := 0, dataTypes := [], dataNames := [], mappingMode := .eNone,
    referenceMode := .eDirect, directArrays := directArrays }

/-- The name of a user-data element selects its array: it contains `Island`,
`RizomUV` or `GroupID`. -/
def nameSelects (userDataName : List Nat) : Prop :=
  containsSubstring userDataName (bytesOf "Island") ∨
  containsSubstring userDataName (bytesOf "RizomUV") ∨
  containsSubstring userDataName (bytesOf "GroupID")

/-- A scene in which the mesh of the node `nodeName` has a layer carrying the
user-data element `userData`, after the layers `layersBefore` and before the layers
`layersAfter`; the node stands between the nodes `nodesBefore` and `nodesAfter`. -/
def sceneWithUserData (rootDocument : Option FbxDocument) (nodesBefore : List FbxNode)
    (nodeName meshName : List Nat) (properties : List FbxProperty)
    (layersBefore : List FbxLayer) (userData : FbxLayerElementUserData)
    (layersAfter : List FbxLayer) (nodesAfter : List FbxNode) : FbxScene :=
  { rootDocument := rootDocument,
    nodes := nodesBefore ++
      { name := nodeName,
        nodeAttribute := some (.mesh
          { name := meshName, properties := properties,
            layers := layersBefore ++ { userData := some userData } :: layersAfter }) } ::
      nodesAfter }

/-- A scene with one mesh node `Cube` whose three layers carry the elements
`island` (holding 9), `myGroupIDs` (holding 5 and 6) and `RizomUV` (no array). -/
def sceneWithThreeElements : FbxScene :=
  { rootDocument := none,
    nodes :=
      [{ name := bytesOf "Cube",
         nodeAttribute := some (.mesh
           { name := bytesOf "CubeShape", properties := [],
             layers :=
               [{ userData := some (userDataNamed (bytesOf "island") [[9]]) },
                { userData := some (userDataNamed (bytesOf "myGroupIDs") [[5, 6]]) },
                { userData := some (userDataNamed (bytesOf "RizomUV") []) }] }) }] }

/-- The bytes start with a property record of a type the reader does not recognise:
a marker `'G'` or `'M'`, the owner name, the property name and a type tag that is
none of the five recognised names; anything may follow. -/
def StartsUnreadable (stop : List Nat) : Prop :=
  ∃ marker o n tg tail, (marker = markerG ∨ marker = markerM) ∧
    o.length < 2 ^ 32 ∧ n.length < 2 ^ 32 ∧ tg.length < 2 ^ 32 ∧
    ¬ (tg = tagInt ∨ tg = tagInteger) ∧
    ¬ (tg = tagBlob ∨ tg = tagKString ∨ tg = tagString) ∧
    stop = WriteString (WriteString (WriteString [marker] o) n) tg ++ tail

/-- A document property `Path` of the SDK type `Url`, which the extractor writes
and the reader does not recognise. -/
def urlRecord : Record :=
  Record.documentProperty (bytesOf "FbxDocument")
    { parent := [], name := bytesOf "Path", dataType := FbxUrlDT, value := .str [47] }

/-- A document record for the integer property `RizomUV` with the value `v`. -/
def rizomUVRecord (v : Int) : Record :=
  Record.documentProperty (bytesOf "FbxDocument")
    { parent := [], name := bytesOf "RizomUV", dataType := FbxIntDT, value := .int v }

/-- A document record as it stands in a file: the marker `'G'`, the owner name, the
property name, the type tag and the value field. -/
def documentRecordBytes (owner name tag field : List Nat) : List Nat :=
  markerG :: (lengthPrefixed owner ++ (lengthPrefixed name ++ (lengthPrefixed tag ++ field)))

/-- A container with the document record of the integer property `RizomUV` under
the owner name `owner1`, a stray byte `'X'`, and the document record of the property
`Path` of the unrecognised type `Url` under the owner name `owner2`. -/
def containerOwnedBy (owner1 owner2 : List Nat) : List Nat :=
  markerG :: (lengthPrefixed owner1 ++ (lengthPrefixed (bytesOf "RizomUV") ++
    (lengthPrefixed (bytesOf "Integer") ++ ([7, 0, 0, 0] ++
      (88 :: (markerG :: (lengthPrefixed owner2 ++ (lengthPrefixed (bytesOf "Path") ++
        (lengthPrefixed (bytesOf "Url") ++ [1, 0, 0, 0, 47])))))))))

/-! ## Codec lemmas -/

theorem fromLE32_toLE32 (n : Nat) (h : n < 2 ^ 32) : fromLE32 (toLE32 n) = n := by
  simp only [fromLE32, toLE32, List.getD_cons_zero, List.getD_cons_succ]
  omega

theorem length_toLE32 (n : Nat) : (toLE32 n).length = 4 := rfl

theorem u32ToInt_intToU32 (v : Int) (h1 : -2 ^ 31 ≤ v) (h2 : v < 2 ^ 31) :
    u32ToInt (intToU32 v) = v := by
  unfold u32ToInt intToU32
  split <;> omega

theorem intToU32_lt (v : Int) : intToU32 v < 2 ^ 32 := by
  unfold intToU32
  omega

theorem length_intsToBytes (a : List Int) : (intsToBytes a).length = 4 * a.length := by
  induction a with
  | nil => rfl
  | cons v vs ih => simp [intsToBytes, length_toLE32, ih]; omega

theorem bytesToInts_intsToBytes (a : List Int) (h : ∀ v ∈ a, -2 ^ 31 ≤ v ∧ v < 2 ^ 31) :
    bytesToInts (intsToBytes a) = a := by
  induction a with
  | nil => rfl
  | cons v vs ih =>
    have hv := h v (List.mem_cons_self v vs)
    have hvs : ∀ w ∈ vs, -2 ^ 31 ≤ w ∧ w < 2 ^ 31 := fun w hw => h w (List.mem_cons_of_mem v hw)
    have e : fromLE32 (toLE32 (intToU32 v)) = intToU32 v := fromLE32_toLE32 _ (intToU32_lt v)
    have e2 := u32ToInt_intToU32 v hv.1 hv.2
    simp only [intsToBytes]
    change bytesToInts (_ :: _ :: _ :: _ :: intsToBytes vs) = _
    simp only [bytesToInts]
    rw [ih hvs]
    change u32ToInt (fromLE32 (toLE32 (intToU32 v))) :: vs = _
    rw [e, e2]

theorem read_exact (a b : List Nat) :
    (IfStream.mk (a ++ b) false false).read a.length = (a, IfStream.mk b false false) := by
  simp [IfStream.read]

theorem read_four (n : Nat) (rest : List Nat) :
    (IfStream.mk (toLE32 n ++ rest) false false).read 4 =
      (toLE32 n, IfStream.mk rest false false) :=
  read_exact (toLE32 n) rest

theorem overlay_full (got buf : List Nat) (h : buf.length ≤ got.length) :
    overlay got buf = got := by
  simp [overlay, List.drop_eq_nil_of_le h]

theorem length_resized (v : List Nat) (n : Nat) : (resized v n).length = n := by
  simp [resized]; omega

theorem length_resizedInts (v : List Int) (n : Nat) : (resizedInts v n).length = n := by
  simp [resizedInts]; omega

/-- A request that the rest of the file fills is granted by every allocator. -/
theorem resizeInts_backed (alloc : Allocator) (available : Nat) (v : List Int) (n : Nat)
    (h : n * 4 ≤ available) : resizeInts alloc available v n = some (resizedInts v n) := by
  simp [resizeInts, grants, h]

/-- A request that the rest of the file does not fill and the allocator refuses
throws. -/
theorem resizeInts_refused (alloc : Allocator) (available : Nat) (v : List Int) (n : Nat)
    (h : available < n * 4) (ha : alloc (n * 4) = false) :
    resizeInts alloc available v n = none := by
  have h2 : ¬ n * 4 ≤ available := by omega
  simp [resizeInts, grants, h2, ha]

/-- A request the allocator grants succeeds. -/
theorem resizeInts_granted (alloc : Allocator) (available : Nat) (v : List Int) (n : Nat)
    (ha : alloc (n * 4) = true) :
    resizeInts alloc available v n = some (resizedInts v n) := by
  simp [resizeInts, grants, ha]

/-- `ReadString` is refused, or returns what it returns when the request is granted. -/
theorem ReadString_eq (alloc : Allocator) (inp : IfStream) (str : List Nat) :
    ReadString alloc inp str =
      if stringRefused alloc inp = true then none else some (readStringGranted inp str) := by
  unfold ReadString stringRefused readStringGranted resize
  dsimp only []
  by_cases hf : (inp.read 4).2.failbit = true
  · simp [hf]
  · by_cases hg : grants alloc (inp.read 4).2.data.length (fromLE32 (inp.read 4).1) = true
    · by_cases hl : fromLE32 (inp.read 4).1 > 0 <;> simp [hf, hg, hl]
    · simp [hf, hg]

/-- `ReadValue` is refused, or returns what it returns when the request is granted. -/
theorem ReadValue_eq (alloc : Allocator) (inp : IfStream) (typeName data : List Nat) :
    ReadValue alloc inp typeName data =
      if valueRefused alloc inp typeName = true then none
      else some (readValueGranted inp typeName data) := by
  unfold ReadValue valueRefused readValueGranted resize
  dsimp only []
  by_cases h1 : typeName = tagInt ∨ typeName = tagInteger
  · rw [if_pos h1, if_pos h1, if_pos h1]
    by_cases hg : grants alloc inp.data.length 4 = true <;> simp [hg]
  · rw [if_neg h1, if_neg h1, if_neg h1]
    by_cases h2 : typeName = tagBlob ∨ typeName = tagKString ∨ typeName = tagString
    · rw [if_pos h2, if_pos h2, if_pos h2]
      by_cases hf : (inp.read 4).2.failbit = true
      · simp [hf]
      · by_cases hg : grants alloc (inp.read 4).2.data.length (fromLE32 (inp.read 4).1) = true
        · by_cases hl : fromLE32 (inp.read 4).1 > 0 <;> simp [hf, hg, hl]
        · simp [hf, hg]
    · rw [if_neg h2, if_neg h2, if_neg h2]
      simp

theorem WriteString_eq (out s : List Nat) (h : s.length < 2 ^ 32) :
    WriteString out s = out ++ (toLE32 s.length ++ s) := by
  have hc : castU32 s.length = s.length := Nat.mod_eq_of_lt h
  unfold WriteString
  simp only [hc]
  split
  · simp
  · have : s = [] := List.length_eq_zero.mp (by omega)
    subst this; simp

theorem readStringGranted_written (s rest str : List Nat) (h : s.length < 2 ^ 32) :
    readStringGranted (IfStream.mk (toLE32 s.length ++ (s ++ rest)) false false) str =
      (true, s, IfStream.mk rest false false) := by
  unfold readStringGranted
  rw [read_four]
  simp only [fromLE32_toLE32 _ h, Bool.false_eq_true, if_false]
  split
  · rw [read_exact]
    simp [overlay_full _ _ (le_of_eq (length_resized str s.length))]
  · have : s = [] := List.length_eq_zero.mp (by omega)
    subst this; simp [resized]

theorem WriteIntArray_eq (out : List Nat) (a : List Int) (h : a.length < 2 ^ 32) :
    WriteIntArray out a = out ++ (toLE32 a.length ++ intsToBytes a) := by
  have hc : castU32 a.length = a.length := Nat.mod_eq_of_lt h
  unfold WriteIntArray
  simp only [hc]
  split
  · rw [List.take_of_length_le (by rw [length_intsToBytes]; omega)]
    simp
  · have : a = [] := List.length_eq_zero.mp (by omega)
    subst this; simp [intsToBytes]

theorem WriteBlob_eq (out s : List Nat) (h : s.length < 2 ^ 32) :
    WriteBlob out s = out ++ (toLE32 s.length ++ s) := by
  have hc : castU32 s.length = s.length := Nat.mod_eq_of_lt h
  unfold WriteBlob
  simp only [hc]
  split
  · simp
  · have : s = [] := List.length_eq_zero.mp (by omega)
    subst this; simp

theorem ReadIntArray_written {alloc : Allocator} (a : List Int) (rest : List Nat)
    (arr : List Int) (h : a.length < 2 ^ 32) (hr : ∀ v ∈ a, -2 ^ 31 ≤ v ∧ v < 2 ^ 31) :
    ReadIntArray alloc (IfStream.mk (toLE32 a.length ++ (intsToBytes a ++ rest)) false false)
        arr =
      some (true, a, IfStream.mk rest false false) := by
  unfold ReadIntArray
  rw [read_four]
  have hl : a.length * 4 = (intsToBytes a).length := by rw [length_intsToBytes]; omega
  have hg : resizeInts alloc (intsToBytes a ++ rest).length arr a.length =
      some (resizedInts arr a.length) :=
    resizeInts_backed alloc _ arr _ (by rw [List.length_append]; omega)
  simp only [fromLE32_toLE32 _ h, Bool.false_eq_true, if_false, hg]
  split
  · rw [hl, read_exact]
    have hb : (intsToBytes (resizedInts arr a.length)).length ≤ (intsToBytes a).length := by
      rw [length_intsToBytes, length_intsToBytes, length_resizedInts]
    simp [overlay_full _ _ hb, bytesToInts_intsToBytes a hr]
  · have : a = [] := List.length_eq_zero.mp (by omega)
    subst this; simp [resizedInts, intsToBytes]

theorem readValueGranted_int (tag : List Nat) (ht : tag = tagInt ∨ tag = tagInteger)
    (u : Nat) (rest data : List Nat) :
    readValueGranted (IfStream.mk (toLE32 u ++ rest) false false) tag data =
      (true, toLE32 u, IfStream.mk rest false false) := by
  unfold readValueGranted
  rw [if_pos ht, read_four]
  have hb : (resized data 4).length ≤ (toLE32 u).length := by
    rw [length_resized, length_toLE32]
  simp [overlay_full _ _ hb]

theorem readValueGranted_sized (tag : List Nat)
    (ht : tag = tagBlob ∨ tag = tagKString ∨ tag = tagString)
    (bs rest data : List Nat) (h : bs.length < 2 ^ 32) :
    readValueGranted (IfStream.mk (toLE32 bs.length ++ (bs ++ rest)) false false) tag data =
      (true, bs, IfStream.mk rest false false) := by
  have hn : ¬ (tag = tagInt ∨ tag = tagInteger) := by
    rcases ht with h | h | h <;> subst h <;> decide
  unfold readValueGranted
  rw [if_neg hn, if_pos ht, read_four]
  simp only [fromLE32_toLE32 _ h, Bool.false_eq_true, if_false]
  split
  · rw [read_exact]
    simp [overlay_full _ _ (le_of_eq (length_resized data bs.length))]
  · have : bs = [] := List.length_eq_zero.mp (by omega)
    subst this; simp [resized]

/-- The string of a written string is backed by the file: its storage is granted. -/
theorem stringRefused_written {alloc : Allocator} (s rest : List Nat) (h : s.length < 2 ^ 32) :
    stringRefused alloc (IfStream.mk (toLE32 s.length ++ (s ++ rest)) false false) = false := by
  unfold stringRefused
  rw [read_four]
  simp [fromLE32_toLE32 _ h, grants]

/-- The four bytes of a written integer are backed by the file. -/
theorem valueRefused_int {alloc : Allocator} (tag : List Nat)
    (ht : tag = tagInt ∨ tag = tagInteger) (u : Nat) (rest : List Nat) :
    valueRefused alloc (IfStream.mk (toLE32 u ++ rest) false false) tag = false := by
  unfold valueRefused
  rw [if_pos ht]
  simp [grants, length_toLE32]

/-- The bytes of a written blob or string value are backed by the file. -/
theorem valueRefused_sized {alloc : Allocator} (tag : List Nat)
    (ht : tag = tagBlob ∨ tag = tagKString ∨ tag = tagString)
    (bs rest : List Nat) (h : bs.length < 2 ^ 32) :
    valueRefused alloc (IfStream.mk (toLE32 bs.length ++ (bs ++ rest)) false false) tag =
      false := by
  have hn : ¬ (tag = tagInt ∨ tag = tagInteger) := by
    rcases ht with h | h | h <;> subst h <;> decide
  unfold valueRefused
  rw [if_neg hn, if_pos ht, read_four]
  simp [fromLE32_toLE32 _ h, grants]

theorem ReadString_written {alloc : Allocator} (s rest str : List Nat)
    (h : s.length < 2 ^ 32) :
    ReadString alloc (IfStream.mk (toLE32 s.length ++ (s ++ rest)) false false) str =
      some (true, s, IfStream.mk rest false false) := by
  rw [ReadString_eq, stringRefused_written _ _ h, readStringGranted_written _ _ _ h]
  rfl

theorem ReadValue_int {alloc : Allocator} (tag : List Nat)
    (ht : tag = tagInt ∨ tag = tagInteger) (u : Nat) (rest data : List Nat) :
    ReadValue alloc (IfStream.mk (toLE32 u ++ rest) false false) tag data =
      some (true, toLE32 u, IfStream.mk rest false false) := by
  rw [ReadValue_eq, valueRefused_int _ ht, readValueGranted_int _ ht]
  rfl

theorem ReadValue_sized {alloc : Allocator} (tag : List Nat)
    (ht : tag = tagBlob ∨ tag = tagKString ∨ tag = tagString)
    (bs rest data : List Nat) (h : bs.length < 2 ^ 32) :
    ReadValue alloc (IfStream.mk (toLE32 bs.length ++ (bs ++ rest)) false false) tag data =
      some (true, bs, IfStream.mk rest false false) := by
  rw [ReadValue_eq, valueRefused_sized _ ht _ _ h, readValueGranted_sized _ ht _ _ _ h]
  rfl

/-- The encoded value of a well-formed property: raw for an integer, with a length
prefix otherwise. -/
theorem ProcessAndWriteProperty_eq (out : List Nat) (prop : FbxProperty) (o : List Nat)
    (marker : Nat) (ho : o.length < 2 ^ 32) (hp : WellFormedProperty prop) :
    ProcessAndWriteProperty out prop o marker =
      out ++ (marker :: (toLE32 o.length ++ (o ++ (toLE32 (cstr prop.name).length ++
        (cstr prop.name ++ (toLE32 (cstr prop.dataType.name).length ++
          (cstr prop.dataType.name ++
            (if prop.dataType.id = .int then valueBytes prop
             else toLE32 (valueBytes prop).length ++ valueBytes prop)))))))) := by
  obtain ⟨hn, hw⟩ := hp
  have htl : (cstr prop.dataType.name).length < 2 ^ 32 := by
    rcases hw with ⟨h | h, _⟩ | ⟨h | h | h, _⟩ <;> rw [h] <;> decide
  unfold ProcessAndWriteProperty
  simp only [WriteString_eq _ _ ho, WriteString_eq _ _ hn, WriteString_eq _ _ htl]
  rcases hw with ⟨_, hid⟩ | ⟨_, hid, hv⟩
  · simp [FbxDataType.Is, FbxIntDT, hid, valueBytes]
  · rcases hid with hid | hid | hid
    · have hv2 : prop.GetBlob.length < 2 ^ 32 := by
        simpa [valueBytes, FbxDataType.Is, FbxIntDT, FbxBlobDT, hid] using hv
      simp [FbxDataType.Is, FbxIntDT, FbxBlobDT, hid, valueBytes, WriteBlob_eq _ _ hv2]
    · have hv2 : (cstr prop.GetString).length < 2 ^ 32 := by
        simpa [valueBytes, FbxDataType.Is, FbxIntDT, FbxBlobDT, FbxStringDT, hid] using hv
      simp [FbxDataType.Is, FbxIntDT, FbxBlobDT, FbxStringDT, hid, valueBytes,
        WriteString_eq _ _ hv2]
    · have hv2 : (cstr prop.GetString).length < 2 ^ 32 := by
        simpa [valueBytes, FbxDataType.Is, FbxIntDT, FbxBlobDT, FbxStringDT, FbxUrlDT, hid]
          using hv
      simp [FbxDataType.Is, FbxIntDT, FbxBlobDT, FbxStringDT, FbxUrlDT, hid, valueBytes,
        WriteString_eq _ _ hv2]

/-! ## The writers only append -/

theorem WriteString_append (out s : List Nat) :
    WriteString out s = out ++ WriteString [] s := by
  simp only [WriteString]
  split <;> simp

theorem WriteBlob_append (out s : List Nat) :
    WriteBlob out s = out ++ WriteBlob [] s := by
  simp only [WriteBlob]
  split <;> simp

theorem WriteIntArray_append (out : List Nat) (a : List Int) :
    WriteIntArray out a = out ++ WriteIntArray [] a := by
  simp only [WriteIntArray]
  split <;> simp

theorem ProcessAndWriteProperty_append (out : List Nat) (prop : FbxProperty) (o : List Nat)
    (marker : Nat) :
    ProcessAndWriteProperty out prop o marker =
      out ++ ProcessAndWriteProperty [] prop o marker := by
  unfold ProcessAndWriteProperty
  simp only []
  rw [WriteString_append (WriteString (WriteString (out ++ [marker]) o) (cstr prop.name)),
    WriteString_append (WriteString (out ++ [marker]) o),
    WriteString_append (out ++ [marker]),
    WriteString_append (WriteString (WriteString ([] ++ [marker]) o) (cstr prop.name)),
    WriteString_append (WriteString ([] ++ [marker]) o),
    WriteString_append ([] ++ [marker])]
  split
  · simp
  · split
    · rw [WriteBlob_append, WriteBlob_append (_ ++ _)]; simp
    · split
      · rw [WriteString_append, WriteString_append (_ ++ _) (cstr prop.GetString)]; simp
      · simp

theorem writeIslandRecord_append (out c u : List Nat) (ids : List Int) :
    writeIslandRecord out c u ids = out ++ writeIslandRecord [] c u ids := by
  unfold writeIslandRecord
  simp only [ite_self]
  rw [WriteIntArray_append, WriteString_append (WriteString (out ++ [markerI]) c),
    WriteString_append (out ++ [markerI]),
    WriteIntArray_append (WriteString (WriteString ([] ++ [markerI]) c) u),
    WriteString_append (WriteString ([] ++ [markerI]) c),
    WriteString_append ([] ++ [markerI])]
  simp

theorem writeRecord_append (out : List Nat) (r : Record) :
    writeRecord out r = out ++ writeRecord [] r := by
  cases r with
  | documentProperty o p => exact ProcessAndWriteProperty_append out p o markerG
  | geometryProperty o p => exact ProcessAndWriteProperty_append out p o markerM
  | auxiliaryArray c u ids => exact writeIslandRecord_append out c u ids

theorem writeRecords_append (out : List Nat) (rs : List Record) :
    writeRecords out rs = out ++ writeRecords [] rs := by
  induction rs generalizing out with
  | nil => simp [writeRecords]
  | cons r rs ih =>
    have h1 : writeRecords out (r :: rs) = writeRecords (writeRecord out r) rs := rfl
    have h2 : writeRecords [] (r :: rs) = writeRecords (writeRecord [] r) rs := rfl
    rw [h1, h2, ih (writeRecord out r), ih (writeRecord [] r), writeRecord_append out r]
    simp

theorem writeRecords_cons (r : Record) (rs : List Record) :
    writeRecords [] (r :: rs) = writeRecord [] r ++ writeRecords [] rs := by
  have h2 : writeRecords [] (r :: rs) = writeRecords (writeRecord [] r) rs := rfl
  rw [h2, writeRecords_append]

theorem writeIslandRecord_eq (c u : List Nat) (ids : List Int) (hc : c.length < 2 ^ 32)
    (hu : u.length < 2 ^ 32) (hi : ids.length < 2 ^ 32) :
    writeIslandRecord [] c u ids =
      markerI :: (toLE32 c.length ++ (c ++ (toLE32 u.length ++ (u ++
        (toLE32 ids.length ++ intsToBytes ids))))) := by
  unfold writeIslandRecord
  simp [WriteString_eq _ _ hc, WriteString_eq _ _ hu, WriteIntArray_eq _ _ hi]

theorem read_one (b : Nat) (t : List Nat) :
    (IfStream.mk (b :: t) false false).read 1 = ([b], IfStream.mk t false false) := by
  simp [IfStream.read]

/-- The loop on a good stream whose next byte is `'G'`. -/
theorem loadLoop_G {alloc : Allocator} (fuel : Nat) (t : List Nat) (doc : PropertyMap) (geo : StdMap GeometryData) :
    loadLoop alloc (fuel + 1) (IfStream.mk (markerG :: t) false false) doc geo =
      if propertyRefused alloc (IfStream.mk t false false) = true then none
      else if (readValueGranted (readStringGranted (readStringGranted (readStringGranted (IfStream.mk t false false)
            []).2.2 []).2.2 []).2.2
          (readStringGranted (readStringGranted (readStringGranted (IfStream.mk t false false)
            []).2.2 []).2.2 []).2.1 []).1 = false
      then some (doc, geo)
      else loadLoop alloc fuel
        (readValueGranted (readStringGranted (readStringGranted (readStringGranted (IfStream.mk t false false)
            []).2.2 []).2.2 []).2.2
          (readStringGranted (readStringGranted (readStringGranted (IfStream.mk t false false)
            []).2.2 []).2.2 []).2.1 []).2.2
        (mapAssign doc (readStringGranted (readStringGranted (IfStream.mk t false false) []).2.2 []).2.1
          ((readStringGranted (readStringGranted (readStringGranted (IfStream.mk t false false)
              []).2.2 []).2.2 []).2.1,
           (readValueGranted (readStringGranted (readStringGranted (readStringGranted (IfStream.mk t false false)
              []).2.2 []).2.2 []).2.2
            (readStringGranted (readStringGranted (readStringGranted (IfStream.mk t false false)
              []).2.2 []).2.2 []).2.1 []).2.1)) geo := by
  rw [loadLoop, read_one]
  dsimp only []
  rw [if_neg (by decide : ¬ (false = true)), if_neg (by decide : ¬ (false = true)),
    if_pos (by decide : [markerG].getD 0 0 = markerG)]
  unfold propertyRefused
  rw [ReadString_eq]
  cases h1 : stringRefused alloc (IfStream.mk t false false)
  · simp only [Bool.false_eq_true, if_false, Bool.false_or]
    rw [ReadString_eq]
    cases h2 : stringRefused alloc (readStringGranted (IfStream.mk t false false) []).2.2
    · simp only [Bool.false_eq_true, if_false, Bool.false_or]
      rw [ReadString_eq]
      cases h3 : stringRefused alloc
        (readStringGranted (readStringGranted (IfStream.mk t false false) []).2.2 []).2.2
      · simp only [Bool.false_eq_true, if_false, Bool.false_or]
        rw [ReadValue_eq]
        cases h4 : valueRefused alloc
          (readStringGranted (readStringGranted (readStringGranted (IfStream.mk t false false)
            []).2.2 []).2.2 []).2.2
          (readStringGranted (readStringGranted (readStringGranted (IfStream.mk t false false)
            []).2.2 []).2.2 []).2.1
        · simp only [Bool.false_eq_true, if_false]
          cases (readValueGranted (readStringGranted (readStringGranted (readStringGranted (IfStream.mk t false false)
            []).2.2 []).2.2 []).2.2
          (readStringGranted (readStringGranted (readStringGranted (IfStream.mk t false false)
            []).2.2 []).2.2 []).2.1 []).1 <;> rfl
        · simp
      · simp
    · simp
  · simp

/-- The loop on a good stream whose next byte is `'M'`. -/
theorem loadLoop_M {alloc : Allocator} (fuel : Nat) (t : List Nat) (doc : PropertyMap) (geo : StdMap GeometryData) :
    loadLoop alloc (fuel + 1) (IfStream.mk (markerM :: t) false false) doc geo =
      if propertyRefused alloc (IfStream.mk t false false) = true then none
      else if (readValueGranted (readStringGranted (readStringGranted (readStringGranted (IfStream.mk t false false)
            []).2.2 []).2.2 []).2.2
          (readStringGranted (readStringGranted (readStringGranted (IfStream.mk t false false)
            []).2.2 []).2.2 []).2.1 []).1 = false
      then some (doc, geo)
      else loadLoop alloc fuel
        (readValueGranted (readStringGranted (readStringGranted (readStringGranted (IfStream.mk t false false)
            []).2.2 []).2.2 []).2.2
          (readStringGranted (readStringGranted (readStringGranted (IfStream.mk t false false)
            []).2.2 []).2.2 []).2.1 []).2.2
        doc
        (mapAssign geo (readStringGranted (IfStream.mk t false false) []).2.1
          { mapAt geo (readStringGranted (IfStream.mk t false false) []).2.1 with
            properties := mapAssign
              (mapAt geo (readStringGranted (IfStream.mk t false false) []).2.1).properties
              (readStringGranted (readStringGranted (IfStream.mk t false false) []).2.2 []).2.1
              ((readStringGranted (readStringGranted (readStringGranted (IfStream.mk t false false)
                  []).2.2 []).2.2 []).2.1,
               (readValueGranted (readStringGranted (readStringGranted (readStringGranted (IfStream.mk t false false)
                  []).2.2 []).2.2 []).2.2
                (readStringGranted (readStringGranted (readStringGranted (IfStream.mk t false false)
                  []).2.2 []).2.2 []).2.1 []).2.1) }) := by
  rw [loadLoop, read_one]
  dsimp only []
  rw [if_neg (by decide : ¬ (false = true)), if_neg (by decide : ¬ (false = true)),
    if_neg (by decide : ¬ ([markerM].getD 0 0 = markerG)),
    if_pos (by decide : [markerM].getD 0 0 = markerM)]
  unfold propertyRefused
  rw [ReadString_eq]
  cases h1 : stringRefused alloc (IfStream.mk t false false)
  · simp only [Bool.false_eq_true, if_false, Bool.false_or]
    rw [ReadString_eq]
    cases h2 : stringRefused alloc (readStringGranted (IfStream.mk t false false) []).2.2
    · simp only [Bool.false_eq_true, if_false, Bool.false_or]
      rw [ReadString_eq]
      cases h3 : stringRefused alloc
        (readStringGranted (readStringGranted (IfStream.mk t false false) []).2.2 []).2.2
      · simp only [Bool.false_eq_true, if_false, Bool.false_or]
        rw [ReadValue_eq]
        cases h4 : valueRefused alloc
          (readStringGranted (readStringGranted (readStringGranted (IfStream.mk t false false)
            []).2.2 []).2.2 []).2.2
          (readStringGranted (readStringGranted (readStringGranted (IfStream.mk t false false)
            []).2.2 []).2.2 []).2.1
        · simp only [Bool.false_eq_true, if_false]
          cases (readValueGranted (readStringGranted (readStringGranted (readStringGranted (IfStream.mk t false false)
            []).2.2 []).2.2 []).2.2
          (readStringGranted (readStringGranted (readStringGranted (IfStream.mk t false false)
            []).2.2 []).2.2 []).2.1 []).1 <;> rfl
        · simp
      · simp
    · simp
  · simp

/-- The loop on a good stream whose next byte is `'I'`. -/
theorem loadLoop_I {alloc : Allocator} (fuel : Nat) (t : List Nat) (doc : PropertyMap)
    (geo : StdMap GeometryData) :
    loadLoop alloc (fuel + 1) (IfStream.mk (markerI :: t) false false) doc geo =
      if namesRefused alloc (IfStream.mk t false false) = true then none
      else match ReadIntArray alloc (readStringGranted (readStringGranted (IfStream.mk t false false)
            []).2.2 []).2.2 [] with
      | none => none
      | some r =>
        if r.1 = false then some (doc, geo)
        else loadLoop alloc fuel r.2.2 doc
          (mapAssign geo (readStringGranted (IfStream.mk t false false) []).2.1
            { mapAt geo (readStringGranted (IfStream.mk t false false) []).2.1 with
              userDataName :=
                (readStringGranted (readStringGranted (IfStream.mk t false false) []).2.2 []).2.1
              islandGroupIDs := r.2.1
              hasIslandData := true }) := by
  rw [loadLoop, read_one]
  dsimp only []
  rw [if_neg (by decide : ¬ (false = true)), if_neg (by decide : ¬ (false = true)),
    if_neg (by decide : ¬ ([markerI].getD 0 0 = markerG)),
    if_neg (by decide : ¬ ([markerI].getD 0 0 = markerM)),
    if_pos (by decide : [markerI].getD 0 0 = markerI)]
  unfold namesRefused
  rw [ReadString_eq]
  cases h1 : stringRefused alloc (IfStream.mk t false false)
  · simp only [Bool.false_eq_true, if_false, Bool.false_or]
    rw [ReadString_eq]
    cases h2 : stringRefused alloc (readStringGranted (IfStream.mk t false false) []).2.2
    · simp only [Bool.false_eq_true, if_false]
      cases ReadIntArray alloc (readStringGranted (readStringGranted (IfStream.mk t false false)
          []).2.2 []).2.2 [] with
      | none => rfl
      | some r =>
        obtain ⟨ok, ids, f4⟩ := r
        cases ok <;> rfl
    · simp
  · simp

/-- The loop on a good stream whose next byte is no marker: the byte is skipped. -/
theorem loadLoop_other {alloc : Allocator} (fuel : Nat) (b : Nat) (t : List Nat) (doc : PropertyMap)
    (geo : StdMap GeometryData) (hG : b ≠ markerG) (hM : b ≠ markerM) (hI : b ≠ markerI) :
    loadLoop alloc (fuel + 1) (IfStream.mk (b :: t) false false) doc geo =
      loadLoop alloc fuel (IfStream.mk t false false) doc geo := by
  rw [loadLoop, read_one]
  dsimp only []
  rw [if_neg (by decide : ¬ (false = true)), if_neg (by decide : ¬ (false = true)),
    if_neg (by simpa using hG), if_neg (by simpa using hM), if_neg (by simpa using hI)]

/-- The loop at the end of the stream: the marker read sets `eofbit` and the loop ends. -/
theorem loadLoop_end {alloc : Allocator} (fuel : Nat) (doc : PropertyMap) (geo : StdMap GeometryData) :
    loadLoop alloc (fuel + 1) (IfStream.mk [] false false) doc geo = some (doc, geo) := by
  rw [loadLoop]
  rfl

/-- One iteration of the loop on a well-formed record: it is consumed whole and
inserted, and the stream stays good. -/
theorem loadLoop_record {alloc : Allocator} (fuel : Nat) (r : Record) (hr : r.WellFormed) (rest : List Nat)
    (doc : PropertyMap) (geo : StdMap GeometryData) :
    loadLoop alloc (fuel + 1) (IfStream.mk (writeRecord [] r ++ rest) false false) doc geo =
      loadLoop alloc fuel (IfStream.mk rest false false) (insertRecord (doc, geo) r).1
        (insertRecord (doc, geo) r).2 := by
  cases r with
  | documentProperty o p =>
    obtain ⟨ho, hp⟩ := hr
    have hp2 := hp
    obtain ⟨hn, hw⟩ := hp2
    have htl : (cstr p.dataType.name).length < 2 ^ 32 := by
      rcases hw with ⟨h | h, _⟩ | ⟨h | h | h, _⟩ <;> rw [h] <;> decide
    simp only [writeRecord, ProcessAndWriteProperty_eq [] p o markerG ho hp, List.nil_append,
      List.cons_append, List.append_assoc]
    rw [loadLoop_G]
    simp only [propertyRefused, readStringGranted_written _ _ _ ho,
      readStringGranted_written _ _ _ hn, readStringGranted_written _ _ _ htl,
      stringRefused_written _ _ ho, stringRefused_written _ _ hn,
      stringRefused_written _ _ htl, Bool.false_or]
    rcases hw with ⟨ht, hid⟩ | ⟨ht, hid, hv⟩
    · have hvb : valueBytes p = toLE32 (intToU32 p.GetInt) := by
        simp [valueBytes, FbxDataType.Is, FbxIntDT, hid]
      simp only [hid, if_true, hvb, readValueGranted_int _ ht, valueRefused_int _ ht,
        insertRecord]
      simp
    · have hne : p.dataType.id ≠ .int := by
        rcases hid with h | h | h <;> rw [h] <;> decide
      simp only [hne, if_false, List.append_assoc, readValueGranted_sized _ ht _ _ _ hv,
        valueRefused_sized _ ht _ _ hv, insertRecord]
      simp
  | geometryProperty o p =>
    obtain ⟨ho, hp⟩ := hr
    have hp2 := hp
    obtain ⟨hn, hw⟩ := hp2
    have htl : (cstr p.dataType.name).length < 2 ^ 32 := by
      rcases hw with ⟨h | h, _⟩ | ⟨h | h | h, _⟩ <;> rw [h] <;> decide
    simp only [writeRecord, ProcessAndWriteProperty_eq [] p o markerM ho hp, List.nil_append,
      List.cons_append, List.append_assoc]
    rw [loadLoop_M]
    simp only [propertyRefused, readStringGranted_written _ _ _ ho,
      readStringGranted_written _ _ _ hn, readStringGranted_written _ _ _ htl,
      stringRefused_written _ _ ho, stringRefused_written _ _ hn,
      stringRefused_written _ _ htl, Bool.false_or]
    rcases hw with ⟨ht, hid⟩ | ⟨ht, hid, hv⟩
    · have hvb : valueBytes p = toLE32 (intToU32 p.GetInt) := by
        simp [valueBytes, FbxDataType.Is, FbxIntDT, hid]
      simp only [hid, if_true, hvb, readValueGranted_int _ ht, valueRefused_int _ ht,
        insertRecord]
      simp
    · have hne : p.dataType.id ≠ .int := by
        rcases hid with h | h | h <;> rw [h] <;> decide
      simp only [hne, if_false, List.append_assoc, readValueGranted_sized _ ht _ _ _ hv,
        valueRefused_sized _ ht _ _ hv, insertRecord]
      simp
  | auxiliaryArray c u ids =>
    obtain ⟨hc, hu, hi, hv⟩ := hr
    simp only [writeRecord, writeIslandRecord_eq c u ids hc hu hi, List.cons_append,
      List.append_assoc]
    rw [loadLoop_I]
    simp only [namesRefused, readStringGranted_written _ _ _ hc,
      readStringGranted_written _ _ _ hu, stringRefused_written _ _ hc,
      stringRefused_written _ _ hu, ReadIntArray_written _ _ _ hi hv, insertRecord]
    simp

theorem length_writeRecord_pos (r : Record) (hr : r.WellFormed) :
    1 ≤ (writeRecord [] r).length := by
  cases r with
  | documentProperty o p =>
    simp [writeRecord, ProcessAndWriteProperty_eq [] p o markerG hr.1 hr.2]
  | geometryProperty o p =>
    simp [writeRecord, ProcessAndWriteProperty_eq [] p o markerM hr.1 hr.2]
  | auxiliaryArray c u ids =>
    simp [writeRecord, writeIslandRecord_eq c u ids hr.1 hr.2.1 hr.2.2.1]

theorem length_writeRecords_ge (rs : List Record) (hrs : ∀ r ∈ rs, r.WellFormed) :
    rs.length ≤ (writeRecords [] rs).length := by
  induction rs with
  | nil => simp
  | cons r rs ih =>
    have h1 := length_writeRecord_pos r (hrs r (List.mem_cons_self r rs))
    have h2 := ih (fun x hx => hrs x (List.mem_cons_of_mem r hx))
    rw [writeRecords_cons, List.length_append, List.length_cons]
    omega

/-- The loop consumes a sequence of well-formed records, one per iteration, and
inserts them in order; whatever follows is read with the stream still good. -/
theorem loadLoop_records {alloc : Allocator} (rs : List Record) (hrs : ∀ r ∈ rs, r.WellFormed) (k : Nat)
    (tail : List Nat) (doc : PropertyMap) (geo : StdMap GeometryData) :
    loadLoop alloc (rs.length + k) (IfStream.mk (writeRecords [] rs ++ tail) false false) doc geo =
      loadLoop alloc k (IfStream.mk tail false false) (rs.foldl insertRecord (doc, geo)).1
        (rs.foldl insertRecord (doc, geo)).2 := by
  induction rs generalizing doc geo with
  | nil => simp [writeRecords]
  | cons r rs ih =>
    have hr := hrs r (List.mem_cons_self r rs)
    have hrs2 : ∀ x ∈ rs, x.WellFormed := fun x hx => hrs x (List.mem_cons_of_mem r hx)
    have hf : (r :: rs).length + k = (rs.length + k) + 1 := by simp; omega
    rw [hf, writeRecords_cons, List.append_assoc, loadLoop_record _ r hr, ih hrs2]
    rfl

/-! ## Round trips -/

/-- C2. Length-prefixed string round trip: for a string `s` of fewer than `2^32`
bytes (the empty string included) and any following bytes `rest`, `ReadString` on
the bytes of `WriteString(s)` followed by `rest` returns true, yields exactly `s`
whatever the string held before, and leaves the stream good and positioned at
`rest`; the encoding has `4 + |s|` bytes. -/
theorem ReadString_WriteString_round_trip (alloc : Allocator) (s rest str : List Nat)
    (h : s.length < 2 ^ 32) :
    ReadString alloc (IfStream.open (WriteString [] s ++ rest)) str =
        some (true, s, IfStream.open rest) ∧
      (WriteString [] s).length = 4 + s.length := by
  rw [WriteString_eq [] s h]
  constructor
  · simpa [IfStream.open] using ReadString_written s rest str h
  · simp [length_toLE32]

/-- Witness of C2 on the string `Int` followed by one more byte. -/
theorem ReadString_WriteString_round_trip_witness :
    ReadString noSpareMemory (IfStream.open (WriteString [] [73, 110, 116] ++ [9])) [] =
        some (true, [73, 110, 116], IfStream.open [9]) ∧
      (WriteString [] [73, 110, 116]).length = 4 + [73, 110, 116].length :=
  ReadString_WriteString_round_trip noSpareMemory [73, 110, 116] [9] [] (by decide)

/-- C3. Integer-array round trip: for a sequence `a` of 32-bit signed integers with
fewer than `2^32` elements (the empty sequence included) and any following bytes
`rest`, `ReadIntArray` on the bytes of `WriteIntArray(a)` followed by `rest`
returns true, yields exactly `a`, and leaves the stream good and positioned at
`rest`; the encoding has `4 + 4 * |a|` bytes. -/
theorem ReadIntArray_WriteIntArray_round_trip (alloc : Allocator) (a : List Int)
    (rest : List Nat) (arr : List Int)
    (h : a.length < 2 ^ 32) (hr : ∀ v ∈ a, -2 ^ 31 ≤ v ∧ v < 2 ^ 31) :
    ReadIntArray alloc (IfStream.open (WriteIntArray [] a ++ rest)) arr =
        some (true, a, IfStream.open rest) ∧
      (WriteIntArray [] a).length = 4 + 4 * a.length := by
  rw [WriteIntArray_eq [] a h]
  constructor
  · simpa [IfStream.open] using ReadIntArray_written a rest arr h hr
  · simp [length_toLE32, length_intsToBytes]

/-- Witness of C3 on the array `[3, -1, 7]`. -/
theorem ReadIntArray_WriteIntArray_round_trip_witness :
    ReadIntArray noSpareMemory (IfStream.open (WriteIntArray [] [3, -1, 7] ++ [])) [] =
        some (true, [3, -1, 7], IfStream.open []) ∧
      (WriteIntArray [] [3, -1, 7]).length = 4 + 4 * [3, -1, 7].length :=
  ReadIntArray_WriteIntArray_round_trip noSpareMemory [3, -1, 7] [] [] (by decide) (by decide)

/-- Loading the bytes written for well-formed records returns the indices obtained
by inserting the records in order. -/
theorem LoadAllDataFromFile_written {alloc : Allocator} (rs : List Record)
    (hrs : ∀ r ∈ rs, r.WellFormed) (doc : PropertyMap) (geo : StdMap GeometryData) :
    LoadAllDataFromFile alloc (some (writeRecords [] rs)) doc geo =
      some (rs.foldl insertRecord (doc, geo)) := by
  unfold LoadAllDataFromFile IfStream.open
  obtain ⟨k, hk⟩ := Nat.exists_eq_add_of_le (length_writeRecords_ge rs hrs)
  have hf : (writeRecords [] rs).length + 1 = rs.length + (k + 1) := by omega
  have h := @loadLoop_records alloc rs hrs (k + 1) [] doc geo
  rw [List.append_nil] at h
  simp only [hf, h, loadLoop_end]

/-- C1. Whole-container round trip: for every sequence of well-formed records,
`LoadAllDataFromFile` on the bytes the extractor writes for them returns (and
does return) the two indices obtained by inserting the records in file order
into the maps it was given (the empty maps in `main`), each entry holding the
type tag, value bytes, array name and integers that were written. -/
theorem LoadAllDataFromFile_round_trip (alloc : Allocator) (rs : List Record)
    (hrs : ∀ r ∈ rs, r.WellFormed) (doc : PropertyMap) (geo : StdMap GeometryData) :
    LoadAllDataFromFile alloc (some (writeRecords [] rs)) doc geo =
      some (rs.foldl insertRecord (doc, geo)) := by
  unfold LoadAllDataFromFile IfStream.open
  have hlen : rs.length ≤ (writeRecords [] rs).length := length_writeRecords_ge rs hrs
  obtain ⟨k, hk⟩ := Nat.exists_eq_add_of_le hlen
  have hfuel : (writeRecords [] rs).length + 1 = rs.length + (k + 1) := by omega
  have hloop := @loadLoop_records alloc rs hrs (k + 1) [] doc geo
  rw [List.append_nil] at hloop
  simp only [hfuel, hloop]
  exact loadLoop_end k _ _

/-- Witness of C1: a document integer, a mesh string and an auxiliary array. -/
theorem LoadAllDataFromFile_round_trip_witness :
    LoadAllDataFromFile noSpareMemory (some (writeRecords []
        [Record.documentProperty (bytesOf "FbxDocument")
           { parent := [], name := bytesOf "RizomUV", dataType := FbxIntDT, value := .int 7 },
         Record.geometryProperty (bytesOf "Island_01")
           { parent := [], name := bytesOf "RizomUVUVSets", dataType := FbxStringDT,
             value := .str (bytesOf "setA") },
         Record.auxiliaryArray (bytesOf "Island_01") (bytesOf "IslandGroupIDs")
           [3, 3, 3, 7]])) [] [] =
      some (List.foldl insertRecord ([], [])
        [Record.documentProperty (bytesOf "FbxDocument")
           { parent := [], name := bytesOf "RizomUV", dataType := FbxIntDT, value := .int 7 },
         Record.geometryProperty (bytesOf "Island_01")
           { parent := [], name := bytesOf "RizomUVUVSets", dataType := FbxStringDT,
             value := .str (bytesOf "setA") },
         Record.auxiliaryArray (bytesOf "Island_01") (bytesOf "IslandGroupIDs")
           [3, 3, 3, 7]]) :=
  LoadAllDataFromFile_round_trip noSpareMemory _ (by decide) [] []

/-! ## The maps -/

theorem mapFind_mapAssign_self {β : Type} (m : StdMap β) (k : List Nat) (v : β) :
    mapFind (mapAssign m k v) k = some v := by
  induction m with
  | nil => simp [mapAssign, mapFind]
  | cons e rest ih =>
    obtain ⟨k1, v1⟩ := e
    unfold mapAssign
    split
    · simp [mapFind]
    · split
      · simp [mapFind]
      · rename_i h1 _
        simp [mapFind, h1, ih]

theorem mapFind_mapAssign_ne {β : Type} (m : StdMap β) (k k2 : List Nat) (v : β) (h : k ≠ k2) :
    mapFind (mapAssign m k v) k2 = mapFind m k2 := by
  induction m with
  | nil => simp [mapAssign, mapFind, h]
  | cons e rest ih =>
    obtain ⟨k1, v1⟩ := e
    unfold mapAssign
    split
    · rename_i h1
      subst h1
      simp [mapFind, h]
    · split
      · simp [mapFind, h]
      · simp only [mapFind, ih]

theorem mapCount_pos_iff {β : Type} (m : StdMap β) (k : List Nat) :
    0 < mapCount m k ↔ ∃ v, mapFind m k = some v := by
  induction m with
  | nil => simp [mapCount, mapFind]
  | cons e rest ih =>
    obtain ⟨k1, v1⟩ := e
    unfold mapCount mapFind
    split
    · simp
    · exact ih

theorem mapCount_zero_iff {β : Type} (m : StdMap β) (k : List Nat) :
    mapCount m k = 0 ↔ mapFind m k = none := by
  induction m with
  | nil => simp [mapCount, mapFind]
  | cons e rest ih =>
    obtain ⟨k1, v1⟩ := e
    unfold mapCount mapFind
    split
    · simp
    · exact ih

theorem mapAt_of_mapFind {β : Type} [Inhabited β] (m : StdMap β) (k : List Nat) (v : β)
    (h : mapFind m k = some v) : mapAt m k = v := by
  simp [mapAt, h]

/-! ## How one insertion changes an entry -/

theorem insertRecord_geo_property (index : PropertyMap × StdMap GeometryData) (o : List Nat)
    (p : FbxProperty) :
    mapFind (insertRecord index (.geometryProperty o p)).2 o =
      some { mapAt index.2 o with
        properties := mapAssign (mapAt index.2 o).properties (cstr p.name)
          (cstr p.dataType.name, valueBytes p) } := by
  simp [insertRecord, mapFind_mapAssign_self]

theorem insertRecord_geo_array (index : PropertyMap × StdMap GeometryData) (o u : List Nat)
    (ids : List Int) :
    mapFind (insertRecord index (.auxiliaryArray o u ids)).2 o =
      some { mapAt index.2 o with userDataName := u, islandGroupIDs := ids,
                                  hasIslandData := true } := by
  simp [insertRecord, mapFind_mapAssign_self]

theorem insertRecord_geo_property_ne (index : PropertyMap × StdMap GeometryData)
    (o o2 : List Nat) (p : FbxProperty) (h : o2 ≠ o) :
    mapFind (insertRecord index (.geometryProperty o2 p)).2 o = mapFind index.2 o := by
  simp [insertRecord, mapFind_mapAssign_ne _ _ _ _ h]

theorem insertRecord_geo_array_ne (index : PropertyMap × StdMap GeometryData)
    (o o2 u : List Nat) (ids : List Int) (h : o2 ≠ o) :
    mapFind (insertRecord index (.auxiliaryArray o2 u ids)).2 o = mapFind index.2 o := by
  simp [insertRecord, mapFind_mapAssign_ne _ _ _ _ h]

theorem insertRecord_geo_document (index : PropertyMap × StdMap GeometryData)
    (o2 : List Nat) (p : FbxProperty) :
    (insertRecord index (.documentProperty o2 p)).2 = index.2 := rfl

/-- Records other than an array of owner `o` leave the array slot of `o` as it is,
and never remove the entry of `o`. -/
theorem foldl_insertRecord_array_slot (rs : List Record) (o : List Nat)
    (hno : ∀ u ids, Record.auxiliaryArray o u ids ∉ rs)
    (index : PropertyMap × StdMap GeometryData) (g : GeometryData)
    (hg : mapFind index.2 o = some g) :
    ∃ g2, mapFind (rs.foldl insertRecord index).2 o = some g2 ∧
      g2.hasIslandData = g.hasIslandData ∧ g2.islandGroupIDs = g.islandGroupIDs ∧
      g2.userDataName = g.userDataName := by
  induction rs generalizing index g with
  | nil => exact ⟨g, hg, rfl, rfl, rfl⟩
  | cons r rs ih =>
    have hno2 : ∀ u ids, Record.auxiliaryArray o u ids ∉ rs :=
      fun u ids hm => hno u ids (List.mem_cons_of_mem r hm)
    rw [List.foldl_cons]
    cases r with
    | documentProperty o2 p => exact ih hno2 _ g hg
    | geometryProperty o2 p =>
      by_cases h : o2 = o
      · subst h
        obtain ⟨g2, h1, h2, h3, h4⟩ := ih hno2 _ _ (insertRecord_geo_property index o2 p)
        rw [mapAt_of_mapFind _ _ _ hg] at h2 h3 h4
        exact ⟨g2, h1, h2, h3, h4⟩
      · exact ih hno2 _ g (by rw [insertRecord_geo_property_ne _ _ _ _ h]; exact hg)
    | auxiliaryArray o2 u ids =>
      by_cases h : o2 = o
      · subst h
        exact absurd (List.mem_cons_self _ _) (hno u ids)
      · exact ih hno2 _ g (by rw [insertRecord_geo_array_ne _ _ _ _ _ h]; exact hg)

/-- Without an array record of owner `o`, an entry of `o` that is absent or has
the presence flag clear stays so. -/
theorem foldl_insertRecord_no_array (rs : List Record) (o : List Nat)
    (hno : ∀ u ids, Record.auxiliaryArray o u ids ∉ rs)
    (index : PropertyMap × StdMap GeometryData)
    (h0 : ∀ g, mapFind index.2 o = some g → g.hasIslandData = false) :
    ∀ g, mapFind (rs.foldl insertRecord index).2 o = some g → g.hasIslandData = false := by
  induction rs generalizing index with
  | nil => exact h0
  | cons r rs ih =>
    have hno2 : ∀ u ids, Record.auxiliaryArray o u ids ∉ rs :=
      fun u ids hm => hno u ids (List.mem_cons_of_mem r hm)
    rw [List.foldl_cons]
    apply ih hno2
    cases r with
    | documentProperty o2 p => exact h0
    | geometryProperty o2 p =>
      by_cases h : o2 = o
      · subst h
        intro g hg
        rw [insertRecord_geo_property] at hg
        cases hf : mapFind index.2 o2 with
        | none =>
          have : mapAt index.2 o2 = default := by simp [mapAt, hf]
          rw [this] at hg
          cases hg; rfl
        | some g0 =>
          rw [mapAt_of_mapFind _ _ _ hf] at hg
          cases hg
          exact h0 g0 hf
      · rw [insertRecord_geo_property_ne _ _ _ _ h]; exact h0
    | auxiliaryArray o2 u ids =>
      by_cases h : o2 = o
      · subst h
        exact absurd (List.mem_cons_self _ _) (hno u ids)
      · rw [insertRecord_geo_array_ne _ _ _ _ _ h]; exact h0

/-- An owner of a geometry property record has an entry after the insertions. -/
theorem foldl_insertRecord_present (rs : List Record) (o : List Nat)
    (index : PropertyMap × StdMap GeometryData)
    (h : (∃ g, mapFind index.2 o = some g) ∨ ∃ p, Record.geometryProperty o p ∈ rs) :
    ∃ g, mapFind (rs.foldl insertRecord index).2 o = some g := by
  induction rs generalizing index with
  | nil =>
    rcases h with h | ⟨p, hp⟩
    · exact h
    · cases hp
  | cons r rs ih =>
    rw [List.foldl_cons]
    apply ih
    by_cases hpres : ∃ g, mapFind (insertRecord index r).2 o = some g
    · exact Or.inl hpres
    · right
      rcases h with ⟨g, hg⟩ | ⟨p, hp⟩
      · exfalso
        apply hpres
        cases r with
        | documentProperty o2 p => exact ⟨g, hg⟩
        | geometryProperty o2 p =>
          by_cases h : o2 = o
          · subst h; exact ⟨_, insertRecord_geo_property index o2 p⟩
          · exact ⟨g, by rw [insertRecord_geo_property_ne _ _ _ _ h]; exact hg⟩
        | auxiliaryArray o2 u ids =>
          by_cases h : o2 = o
          · subst h; exact ⟨_, insertRecord_geo_array index o2 u ids⟩
          · exact ⟨g, by rw [insertRecord_geo_array_ne _ _ _ _ _ h]; exact hg⟩
      · rcases List.mem_cons.mp hp with heq | hmem
        · exfalso
          apply hpres
          subst heq
          exact ⟨_, insertRecord_geo_property index o p⟩
        · exact ⟨p, hmem⟩

/-- Later document records with other property names leave the entry of a name as it is. -/
theorem foldl_insertRecord_document_key (post : List Record) (n : List Nat)
    (hno : ∀ o2 p2, Record.documentProperty o2 p2 ∈ post → cstr p2.name ≠ n)
    (index : PropertyMap × StdMap GeometryData) :
    mapFind (post.foldl insertRecord index).1 n = mapFind index.1 n := by
  induction post generalizing index with
  | nil => rfl
  | cons r rs ih =>
    have hno2 : ∀ o2 p2, Record.documentProperty o2 p2 ∈ rs → cstr p2.name ≠ n :=
      fun o2 p2 hm => hno o2 p2 (List.mem_cons_of_mem r hm)
    rw [List.foldl_cons, ih hno2]
    cases r with
    | documentProperty o2 p2 =>
      have hne := hno o2 p2 (List.mem_cons_self _ _)
      simp [insertRecord, mapFind_mapAssign_ne _ _ _ _ hne]
    | geometryProperty o2 p2 => rfl
    | auxiliaryArray o2 u ids => rfl

/-- Later records that do not write property `n` of owner `o` leave that property
of the entry of `o` as it is. -/
theorem foldl_insertRecord_geometry_key (post : List Record) (o n : List Nat)
    (hno : ∀ p2, Record.geometryProperty o p2 ∈ post → cstr p2.name ≠ n)
    (index : PropertyMap × StdMap GeometryData) (g : GeometryData) (x : List Nat × List Nat)
    (hg : mapFind index.2 o = some g) (hx : mapFind g.properties n = some x) :
    ∃ g2, mapFind (post.foldl insertRecord index).2 o = some g2 ∧
      mapFind g2.properties n = some x := by
  induction post generalizing index g with
  | nil => exact ⟨g, hg, hx⟩
  | cons r rs ih =>
    have hno2 : ∀ p2, Record.geometryProperty o p2 ∈ rs → cstr p2.name ≠ n :=
      fun p2 hm => hno p2 (List.mem_cons_of_mem r hm)
    rw [List.foldl_cons]
    cases r with
    | documentProperty o2 p2 => exact ih hno2 _ g hg hx
    | geometryProperty o2 p2 =>
      by_cases h : o2 = o
      · subst h
        have hne := hno p2 (List.mem_cons_self _ _)
        refine ih hno2 _ _ (insertRecord_geo_property index o2 p2) ?_
        rw [mapAt_of_mapFind _ _ _ hg]
        simpa [mapFind_mapAssign_ne _ _ _ _ hne] using hx
      · exact ih hno2 _ g (by rw [insertRecord_geo_property_ne _ _ _ _ h]; exact hg) hx
    | auxiliaryArray o2 u ids =>
      by_cases h : o2 = o
      · subst h
        refine ih hno2 _ _ (insertRecord_geo_array index o2 u ids) ?_
        rw [mapAt_of_mapFind _ _ _ hg]
        exact hx
      · exact ih hno2 _ g (by rw [insertRecord_geo_array_ne _ _ _ _ _ h]; exact hg) hx

/-! ## Properties of the loaded index -/

/-- C4, as the code has it. Presence versus emptiness: loading a container of
well-formed records into empty maps returns an index in which (a) an owner whose
last array record has zero elements has an entry with `hasIslandData = true` and
empty `islandGroupIDs`, and (b) an owner with a geometry property record and no
array record at all has an entry with `hasIslandData = false`. -/
theorem presence_versus_emptiness (alloc : Allocator) (rs : List Record) (hrs : ∀ r ∈ rs, r.WellFormed) :
    ∃ doc geo, LoadAllDataFromFile alloc (some (writeRecords [] rs)) [] [] = some (doc, geo) ∧
      (∀ o pre u post, rs = pre ++ Record.auxiliaryArray o u [] :: post →
        (∀ u2 ids, Record.auxiliaryArray o u2 ids ∉ post) →
        ∃ g, mapFind geo o = some g ∧ g.hasIslandData = true ∧ g.islandGroupIDs = []) ∧
      (∀ o p, Record.geometryProperty o p ∈ rs →
        (∀ u ids, Record.auxiliaryArray o u ids ∉ rs) →
        ∃ g, mapFind geo o = some g ∧ g.hasIslandData = false) := by
  refine ⟨_, _, LoadAllDataFromFile_written rs hrs [] [], ?_, ?_⟩
  · intro o pre u post hsplit hno
    subst hsplit
    rw [List.foldl_append, List.foldl_cons]
    obtain ⟨g2, h1, h2, h3, _⟩ := foldl_insertRecord_array_slot post o hno _ _
      (insertRecord_geo_array (List.foldl insertRecord ([], []) pre) o u [])
    exact ⟨g2, h1, h2, h3⟩
  · intro o p hp hno
    obtain ⟨g, hg⟩ := foldl_insertRecord_present rs o ([], []) (Or.inr ⟨p, hp⟩)
    refine ⟨g, hg, foldl_insertRecord_no_array rs o hno ([], []) ?_ g hg⟩
    intro g0 h0
    cases h0

/-- Witness of C4: owner `A` has a property record only, owner `B` an array record
with zero elements. -/
theorem presence_versus_emptiness_witness :
    ∃ doc geo, LoadAllDataFromFile noSpareMemory (some (writeRecords []
        [Record.geometryProperty [65]
           { parent := [], name := bytesOf "RizomUV", dataType := FbxIntDT, value := .int 1 },
         Record.auxiliaryArray [66] (bytesOf "IslandGroupIDs") []])) [] [] = some (doc, geo) ∧
      (∃ g, mapFind geo [66] = some g ∧ g.hasIslandData = true ∧ g.islandGroupIDs = []) ∧
      (∃ g, mapFind geo [65] = some g ∧ g.hasIslandData = false) := by
  obtain ⟨doc, geo, h, ha, hb⟩ := presence_versus_emptiness noSpareMemory
    [Record.geometryProperty [65]
       { parent := [], name := bytesOf "RizomUV", dataType := FbxIntDT, value := .int 1 },
     Record.auxiliaryArray [66] (bytesOf "IslandGroupIDs") []] (by decide)
  refine ⟨doc, geo, h, ha [66] [_] _ [] rfl (by simp), hb [65] _ (List.mem_cons_self _ _) ?_⟩
  intro u ids hm
  simp at hm

/-- C4, counterexample. A container holds an array record with zero elements for
the owner `A` and, after it, an array record with the elements 5 and 6 for the same
owner: the entry of `A` is loaded with the two elements, not empty. And a container
holds a record of the unrecognised type `Url` before the array record with zero
elements of the owner `A`: the load ends at the first record and `A` has no entry. -/
theorem presence_versus_emptiness_counterexample :
    (∃ doc geo g, LoadAllDataFromFile noSpareMemory (some (writeRecords []
        [Record.auxiliaryArray [65] (bytesOf "IslandGroupIDs") [],
         Record.auxiliaryArray [65] (bytesOf "IslandGroupIDs") [5, 6]])) [] [] =
          some (doc, geo) ∧
      mapFind geo [65] = some g ∧ g.hasIslandData = true ∧ g.islandGroupIDs = [5, 6]) ∧
    (∃ doc geo, LoadAllDataFromFile noSpareMemory (some (writeRecords []
        [urlRecord, Record.auxiliaryArray [65] (bytesOf "IslandGroupIDs") []])) [] [] =
          some (doc, geo) ∧
      mapFind geo [65] = none) := by
  exact ⟨⟨_, _, _, rfl, rfl, rfl, rfl⟩, ⟨_, _, rfl, rfl⟩⟩

/-! ## The matcher and the re-attachment -/

theorem matchGeometryData_node (geo : StdMap GeometryData) (nodeName meshName : List Nat)
    (gN : GeometryData) (h : mapFind geo nodeName = some gN) :
    matchGeometryData geo nodeName meshName = some gN := by
  have hc : mapCount geo nodeName > 0 := (mapCount_pos_iff geo nodeName).mpr ⟨gN, h⟩
  simp [matchGeometryData, hc, mapAt_of_mapFind _ _ _ h]

theorem matchGeometryData_mesh (geo : StdMap GeometryData) (nodeName meshName : List Nat)
    (gM : GeometryData) (hN : mapFind geo nodeName = none)
    (h : mapFind geo meshName = some gM) :
    matchGeometryData geo nodeName meshName = some gM := by
  have hc : mapCount geo meshName > 0 := (mapCount_pos_iff geo meshName).mpr ⟨gM, h⟩
  have h0 : mapCount geo nodeName = 0 := (mapCount_zero_iff geo nodeName).mpr hN
  simp [matchGeometryData, hc, h0, mapAt_of_mapFind _ _ _ h]

theorem matchGeometryData_miss (geo : StdMap GeometryData) (nodeName meshName : List Nat)
    (hN : mapFind geo nodeName = none) (hM : mapFind geo meshName = none) :
    matchGeometryData geo nodeName meshName = none := by
  have h0 : mapCount geo nodeName = 0 := (mapCount_zero_iff geo nodeName).mpr hN
  have h1 : mapCount geo meshName = 0 := (mapCount_zero_iff geo meshName).mpr hM
  simp [matchGeometryData, h0, h1]

theorem injectNode_matched (geo : StdMap GeometryData) (node : FbxNode) (mesh : FbxMesh)
    (hattr : node.nodeAttribute = some (.mesh mesh)) (g : GeometryData)
    (hm : matchGeometryData geo (cstr node.name) (cstr mesh.name) = some g) :
    injectNode geo node =
      (injectRizomProperties mesh g).map (fun m =>
        { node with nodeAttribute := some (.mesh (injectIslandGroupIDs m g)) }) := by
  unfold injectNode
  rw [hattr]
  simp only [hm]
  cases injectRizomProperties mesh g <;> rfl

/-- C6. Matcher fallback order: for a target mesh object whose node name is a key
of the geometry index, the loop body injects the entry stored under the node
name, whether or not the mesh name is a key too, and replacing the entry stored
under a different mesh-name key does not change what is injected; the entry under
the mesh name is injected only when the node name is not a key. -/
theorem matcher_fallback_order (geo : StdMap GeometryData) (node : FbxNode) (mesh : FbxMesh)
    (hattr : node.nodeAttribute = some (.mesh mesh)) :
    (∀ gN, mapFind geo (cstr node.name) = some gN →
      matchGeometryData geo (cstr node.name) (cstr mesh.name) = some gN ∧
      injectNode geo node =
        (injectRizomProperties mesh gN).map (fun m =>
          { node with nodeAttribute := some (.mesh (injectIslandGroupIDs m gN)) }) ∧
      ∀ gM, cstr mesh.name ≠ cstr node.name →
        injectNode (mapAssign geo (cstr mesh.name) gM) node = injectNode geo node) ∧
    (mapFind geo (cstr node.name) = none →
      ∀ gM, mapFind geo (cstr mesh.name) = some gM →
        matchGeometryData geo (cstr node.name) (cstr mesh.name) = some gM ∧
        injectNode geo node =
          (injectRizomProperties mesh gM).map (fun m =>
            { node with nodeAttribute := some (.mesh (injectIslandGroupIDs m gM)) })) := by
  constructor
  · intro gN hN
    have h1 := matchGeometryData_node geo (cstr node.name) (cstr mesh.name) gN hN
    refine ⟨h1, injectNode_matched geo node mesh hattr gN h1, ?_⟩
    intro gM hne
    have hN2 : mapFind (mapAssign geo (cstr mesh.name) gM) (cstr node.name) = some gN := by
      rw [mapFind_mapAssign_ne _ _ _ _ hne]; exact hN
    rw [injectNode_matched geo node mesh hattr gN h1,
      injectNode_matched _ node mesh hattr gN
        (matchGeometryData_node _ (cstr node.name) (cstr mesh.name) gN hN2)]
  · intro hN gM hM
    have h1 := matchGeometryData_mesh geo (cstr node.name) (cstr mesh.name) gM hN hM
    exact ⟨h1, injectNode_matched geo node mesh hattr gM h1⟩

theorem injectNodes_cons (geo : StdMap GeometryData) (n : FbxNode) (ns : List FbxNode) :
    injectNodes geo (n :: ns) =
      (injectNode geo n).bind (fun a => (injectNodes geo ns).bind (fun b => some (a :: b))) :=
  rfl

theorem injectNodes_append (geo : StdMap GeometryData) (pre post : List FbxNode) :
    injectNodes geo (pre ++ post) =
      (injectNodes geo pre).bind (fun a => (injectNodes geo post).map (fun b => a ++ b)) := by
  induction pre with
  | nil =>
    have h : injectNodes geo [] = some [] := rfl
    simp [h]
  | cons n ns ih =>
    rw [List.cons_append, injectNodes_cons, injectNodes_cons, ih]
    cases injectNode geo n with
    | none => rfl
    | some n2 =>
      cases injectNodes geo ns with
      | none => rfl
      | some a =>
        cases injectNodes geo post with
        | none => rfl
        | some b => rfl

/-- C7. Miss is a skip: a target mesh object whose node name and mesh name are both
absent from the geometry index comes out of the loop body unchanged, and in a
scene that contains it every other node gets exactly the result it gets in the
scene without it: the run over `pre ++ node :: post` is the run over `pre` and
over `post` with the node put back in between as it was. -/
theorem miss_is_a_skip (geo : StdMap GeometryData) (node : FbxNode) (mesh : FbxMesh)
    (hattr : node.nodeAttribute = some (.mesh mesh))
    (hN : mapFind geo (cstr node.name) = none) (hM : mapFind geo (cstr mesh.name) = none) :
    injectNode geo node = some node ∧
    ∀ (doc : Option FbxDocument) (pre post : List FbxNode),
      InjectGeometryRizomData { rootDocument := doc, nodes := pre ++ node :: post } geo =
        (injectNodes geo pre).bind (fun a => (injectNodes geo post).map (fun b =>
          { rootDocument := doc, nodes := a ++ node :: b })) ∧
      InjectGeometryRizomData { rootDocument := doc, nodes := pre ++ post } geo =
        (injectNodes geo pre).bind (fun a => (injectNodes geo post).map (fun b =>
          { rootDocument := doc, nodes := a ++ b })) := by
  have hskip : injectNode geo node = some node := by
    unfold injectNode
    rw [hattr]
    simp only [matchGeometryData_miss geo _ _ hN hM]
  refine ⟨hskip, ?_⟩
  intro doc pre post
  constructor
  · simp only [InjectGeometryRizomData, injectNodes_append, injectNodes_cons, hskip]
    cases injectNodes geo pre with
    | none => rfl
    | some a =>
      cases injectNodes geo post with
      | none => rfl
      | some b => rfl
  · simp only [InjectGeometryRizomData, injectNodes_append]
    cases injectNodes geo pre with
    | none => rfl
    | some a =>
      cases injectNodes geo post with
      | none => rfl
      | some b => rfl

/-- Witness of C6: node name `A` and mesh name `B` are both keys; the entry of `A`
is injected. -/
theorem matcher_fallback_order_witness :
    matchGeometryData [([65], arrayEntry [] [1]), ([66], arrayEntry [] [2])] [65] [66] =
        some (arrayEntry [] [1]) ∧
      injectNode [([65], arrayEntry [] [1]), ([66], arrayEntry [] [2])]
          (plainMeshNode [65] [66]) =
        (injectRizomProperties { name := [66], properties := [], layers := [] }
          (arrayEntry [] [1])).map (fun m =>
            { plainMeshNode [65] [66] with
              nodeAttribute := some (.mesh (injectIslandGroupIDs m (arrayEntry [] [1]))) }) :=
  ⟨((matcher_fallback_order [([65], arrayEntry [] [1]), ([66], arrayEntry [] [2])]
      (plainMeshNode [65] [66]) { name := [66], properties := [], layers := [] } rfl).1
      (arrayEntry [] [1]) rfl).1,
   ((matcher_fallback_order [([65], arrayEntry [] [1]), ([66], arrayEntry [] [2])]
      (plainMeshNode [65] [66]) { name := [66], properties := [], layers := [] } rfl).1
      (arrayEntry [] [1]) rfl).2.1⟩

/-- Witness of C7: the index has the key `C` only; the node named `A` with mesh `B`
is skipped, and the node `C` after it is processed as in the scene without `A`. -/
theorem miss_is_a_skip_witness :
    injectNode [([67], arrayEntry [] [1])] (plainMeshNode [65] [66]) =
        some (plainMeshNode [65] [66]) ∧
      InjectGeometryRizomData
          { rootDocument := none, nodes := [] ++ plainMeshNode [65] [66] :: [plainMeshNode [67] [67]] }
          [([67], arrayEntry [] [1])] =
        (injectNodes [([67], arrayEntry [] [1])] []).bind (fun a =>
          (injectNodes [([67], arrayEntry [] [1])] [plainMeshNode [67] [67]]).map (fun b =>
            { rootDocument := none, nodes := a ++ plainMeshNode [65] [66] :: b })) :=
  ⟨(miss_is_a_skip [([67], arrayEntry [] [1])] (plainMeshNode [65] [66])
      { name := [66], properties := [], layers := [] } rfl rfl rfl).1,
   ((miss_is_a_skip [([67], arrayEntry [] [1])] (plainMeshNode [65] [66])
      { name := [66], properties := [], layers := [] } rfl rfl rfl).2 none []
      [plainMeshNode [67] [67]]).1⟩

/-! ## The auxiliary array -/

theorem copyGroupIDs_append (ids : List Int) (a b : List Nat) (dst : List Int) :
    copyGroupIDs ids (a ++ b) dst = copyGroupIDs ids b (copyGroupIDs ids a dst) := by
  induction a generalizing dst with
  | nil => rfl
  | cons j js ih => simp [copyGroupIDs, ih]

theorem length_copyGroupIDs (ids : List Int) (js : List Nat) (dst : List Int) :
    (copyGroupIDs ids js dst).length = dst.length := by
  induction js generalizing dst with
  | nil => rfl
  | cons j js ih => simp [copyGroupIDs, ih]

theorem copyGroupIDs_range_getElem? (ids dst : List Int) (hl : dst.length = ids.length)
    (k : Nat) (hk : k ≤ ids.length) (i : Nat) :
    (copyGroupIDs ids (List.range k) dst)[i]? = if i < k then ids[i]? else dst[i]? := by
  induction k with
  | zero => simp [copyGroupIDs]
  | succ k ih =>
    have ih2 := ih (by omega)
    rw [List.range_succ, copyGroupIDs_append]
    simp only [copyGroupIDs, List.getElem?_set, length_copyGroupIDs]
    by_cases hik : k = i
    · subst hik
      have h1 : k < dst.length := by omega
      have h2 : k < ids.length := by omega
      simp [h1, h2, List.getD_eq_getElem?_getD, List.getElem?_eq_getElem h2]
    · rw [if_neg hik, ih2]
      by_cases h3 : i < k
      · have : i < k + 1 := by omega
        simp [h3, this]
      · have : ¬ i < k + 1 := by omega
        simp [h3, this]

/-- The copy loop over all indices fills a destination of the same size with the IDs. -/
theorem copyGroupIDs_all (ids dst : List Int) (hl : dst.length = ids.length) :
    copyGroupIDs ids (List.range ids.length) dst = ids := by
  apply List.ext_getElem?
  intro i
  rw [copyGroupIDs_range_getElem? ids dst hl ids.length (le_refl _) i]
  split
  · rfl
  · rename_i h
    rw [List.getElem?_eq_none (by omega), List.getElem?_eq_none (by omega)]

/-- Part 1 is defined when the value stored under `RizomUV`, if there is one, holds
the four bytes that are read; it changes neither the layers nor the name. -/
theorem injectRizomProperties_defined (mesh : FbxMesh) (g : GeometryData)
    (hsafe : ∀ v, mapFind g.properties (bytesOf "RizomUV") = some v → 4 ≤ v.2.length) :
    ∃ m, injectRizomProperties mesh g = some m ∧ m.layers = mesh.layers ∧
      m.name = mesh.name := by
  have h1 : ∃ m1, injectRizomUV mesh g = some m1 ∧ m1.layers = mesh.layers ∧
      m1.name = mesh.name := by
    unfold injectRizomUV
    split
    · rename_i hc
      obtain ⟨v, hv⟩ := (mapCount_pos_iff _ _).mp hc
      have h4 := hsafe v hv
      have hr : reinterpretInt v.2 = some (u32ToInt (fromLE32 (v.2.take 4))) := by
        simp [reinterpretInt]; omega
      rw [mapAt_of_mapFind _ _ _ hv, hr]
      dsimp only []
      split
      · exact ⟨_, rfl, rfl, rfl⟩
      · exact ⟨_, rfl, rfl, rfl⟩
    · exact ⟨_, rfl, rfl, rfl⟩
  have h2 : ∀ m1 : FbxMesh, (injectRizomUVUVSets m1 g).layers = m1.layers ∧
      (injectRizomUVUVSets m1 g).name = m1.name := by
    intro m1
    unfold injectRizomUVUVSets
    split
    · dsimp only []
      split
      · exact ⟨rfl, rfl⟩
      · exact ⟨rfl, rfl⟩
    · exact ⟨rfl, rfl⟩
  obtain ⟨m1, e1, l1, n1⟩ := h1
  refine ⟨injectRizomUVUVSets m1 g, ?_, ?_, ?_⟩
  · simp [injectRizomProperties, e1]
  · rw [(h2 m1).1, l1]
  · rw [(h2 m1).2, n1]

/-- Part 2 on an entry with a present, non-empty array: layer 0 gets a per-polygon
element whose single direct array is the array of the entry; the other layers stay. -/
theorem injectIslandGroupIDs_layer (mesh : FbxMesh) (g : GeometryData)
    (hflag : g.hasIslandData = true) (hne : g.islandGroupIDs ≠ []) :
    ∃ ud, ((injectIslandGroupIDs mesh g).layers.get? 0).bind (fun l => l.userData) = some ud ∧
      ud.mappingMode = MappingMode.eByPolygon ∧ ud.referenceMode = ReferenceMode.eDirect ∧
      ud.directArrays = [g.islandGroupIDs] ∧
      (injectIslandGroupIDs mesh g).layers.drop 1 = mesh.layers.drop 1 := by
  have hcopy : copyGroupIDs g.islandGroupIDs (List.range g.islandGroupIDs.length)
      (resizedInts [] g.islandGroupIDs.length) = g.islandGroupIDs :=
    copyGroupIDs_all _ _ (length_resizedInts _ _)
  have hemp : g.islandGroupIDs.isEmpty = false := by
    cases h : g.islandGroupIDs with
    | nil => exact absurd h hne
    | cons a l => rfl
  unfold injectIslandGroupIDs
  simp only [hflag, hemp, Bool.not_false, Bool.and_self, if_true,
    FbxLayerElementUserData.Create, FbxLayerElementUserData.ResizeAllDirectArrays,
    FbxLayerElementUserData.GetDirectArrayVoid, GetLocked, List.map, List.get?, hcopy,
    List.set]
  obtain ⟨nm, props, layers⟩ := mesh
  cases layers with
  | nil => exact ⟨_, rfl, rfl, rfl, rfl, rfl⟩
  | cons l ls => exact ⟨_, rfl, rfl, rfl, rfl, rfl⟩

/-- C10. Auxiliary array re-attachment: for a matched target mesh whose index entry
has `hasIslandData = true` and a non-empty `islandGroupIDs`, and whose `RizomUV`
value (if the entry has one) holds the four bytes Part 1 reads, the loop body
returns the node with a mesh whose layer 0 carries a user-data element mapped by
polygon, referenced directly, whose only direct array equals `islandGroupIDs`
(same length, same values, same order); the layers after layer 0 are unchanged. -/
theorem island_group_ids_reattached (geo : StdMap GeometryData) (node : FbxNode)
    (mesh : FbxMesh) (hattr : node.nodeAttribute = some (.mesh mesh)) (g : GeometryData)
    (hmatch : matchGeometryData geo (cstr node.name) (cstr mesh.name) = some g)
    (hflag : g.hasIslandData = true) (hne : g.islandGroupIDs ≠ [])
    (hsafe : ∀ v, mapFind g.properties (bytesOf "RizomUV") = some v → 4 ≤ v.2.length) :
    ∃ mesh2 ud,
      injectNode geo node = some { node with nodeAttribute := some (.mesh mesh2) } ∧
      (mesh2.layers.get? 0).bind (fun l => l.userData) = some ud ∧
      ud.mappingMode = MappingMode.eByPolygon ∧ ud.referenceMode = ReferenceMode.eDirect ∧
      ud.directArrays = [g.islandGroupIDs] ∧
      mesh2.layers.drop 1 = mesh.layers.drop 1 := by
  obtain ⟨m1, e1, l1, _⟩ := injectRizomProperties_defined mesh g hsafe
  obtain ⟨ud, h1, h2, h3, h4, h5⟩ := injectIslandGroupIDs_layer m1 g hflag hne
  refine ⟨injectIslandGroupIDs m1 g, ud, ?_, h1, h2, h3, h4, ?_⟩
  · rw [injectNode_matched geo node mesh hattr g hmatch, e1]
    rfl
  · rw [h5, l1]

/-- Witness of C10: the node `A` matches an entry with the array `[3, 3, 3, 7]`. -/
theorem island_group_ids_reattached_witness :
    ∃ mesh2 ud,
      injectNode [([65], arrayEntry [] [3, 3, 3, 7])] (plainMeshNode [65] [66]) =
        some { plainMeshNode [65] [66] with nodeAttribute := some (.mesh mesh2) } ∧
      (mesh2.layers.get? 0).bind (fun l => l.userData) = some ud ∧
      ud.mappingMode = MappingMode.eByPolygon ∧ ud.referenceMode = ReferenceMode.eDirect ∧
      ud.directArrays = [(arrayEntry [] [3, 3, 3, 7]).islandGroupIDs] ∧
      mesh2.layers.drop 1 =
        (FbxMesh.mk [66] [] []).layers.drop 1 :=
  island_group_ids_reattached [([65], arrayEntry [] [3, 3, 3, 7])] (plainMeshNode [65] [66])
    { name := [66], properties := [], layers := [] } rfl (arrayEntry [] [3, 3, 3, 7]) rfl rfl
    (by decide) (by intro v hv; cases hv)

/-! ## Reads that fail -/

theorem read_short (d : List Nat) (n : Nat) (h : d.length < n) :
    (IfStream.mk d false false).read n = (d, IfStream.mk [] true true) := by
  simp [IfStream.read]; omega

theorem read_failed (st : IfStream) (hf : st.failbit = true) (n : Nat) :
    st.read n = ([], st) := by
  obtain ⟨d, f, e⟩ := st
  simp only at hf
  subst hf
  simp [IfStream.read]

theorem readStringGranted_failed (st : IfStream) (hf : st.failbit = true) (str : List Nat) :
    readStringGranted st str = (false, str, st) := by
  unfold readStringGranted
  rw [read_failed st hf]
  simp [hf]

theorem ReadIntArray_failed {alloc : Allocator} (st : IfStream) (hf : st.failbit = true)
    (arr : List Int) : ReadIntArray alloc st arr = some (false, arr, st) := by
  unfold ReadIntArray
  rw [read_failed st hf]
  simp [hf]

/-- A string that is empty or contains a NUL byte is none of the five type tags. -/
theorem not_tag_of_zero_mem (s : List Nat) (h : s = [] ∨ 0 ∈ s) :
    ¬ (s = tagInt ∨ s = tagInteger) ∧ ¬ (s = tagBlob ∨ s = tagKString ∨ s = tagString) := by
  rcases h with h | h
  · subst h; decide
  · constructor
    · rintro (e | e) <;> subst e <;> revert h <;> decide
    · rintro (e | e | e) <;> subst e <;> revert h <;> decide

theorem readValueGranted_unknown (st : IfStream) (tg data : List Nat)
    (h1 : ¬ (tg = tagInt ∨ tg = tagInteger))
    (h2 : ¬ (tg = tagBlob ∨ tg = tagKString ∨ tg = tagString)) :
    readValueGranted st tg data = (false, data, st) := by
  unfold readValueGranted
  rw [if_neg h1, if_neg h2]

theorem append_split (d t a b : List Nat) (h : d ++ t = a ++ b) :
    (∃ d2, d = a ++ d2 ∧ d2 ++ t = b) ∨ (∃ a2, a2 ≠ [] ∧ d ++ a2 = a) := by
  rcases List.append_eq_append_iff.mp h with ⟨a2, h1, h2⟩ | ⟨c, h1, h2⟩
  · by_cases ha : a2 = []
    · subst ha
      left
      exact ⟨[], by simpa using h1.symm, by rw [h2]; rfl⟩
    · right
      exact ⟨a2, ha, h1.symm⟩
  · left
    exact ⟨c, h1, h2.symm⟩

/-- `readStringGranted` on a proper part of an encoded string: the stream fails, and the
string is left empty or padded with a NUL byte. -/
theorem readStringGranted_truncated (s d t : List Nat) (hs : s.length < 2 ^ 32)
    (h : d ++ t = toLE32 s.length ++ s) (ht : t ≠ []) :
    (readStringGranted (IfStream.mk d false false) []).2.2.failbit = true ∧
      ((readStringGranted (IfStream.mk d false false) []).2.1 = [] ∨
        0 ∈ (readStringGranted (IfStream.mk d false false) []).2.1) := by
  have htl : 0 < t.length := List.length_pos.mpr ht
  rcases append_split d t _ _ h with ⟨d2, hd, h2⟩ | ⟨a2, ha, h2⟩
  · subst hd
    have hlen : s.length = d2.length + t.length := by rw [← h2, List.length_append]
    unfold readStringGranted
    rw [read_four]
    simp only [fromLE32_toLE32 _ hs, Bool.false_eq_true, if_false]
    rw [if_pos (by omega), read_short d2 s.length (by omega)]
    refine ⟨rfl, Or.inr ?_⟩
    simp only [overlay, resized, List.take_nil, List.nil_append, List.length_nil, Nat.sub_zero,
      List.drop_replicate, List.mem_append, List.mem_replicate]
    right
    exact ⟨by omega, trivial⟩
  · have hl : d.length < 4 := by
      have h3 := congrArg List.length h2
      rw [List.length_append, length_toLE32] at h3
      have : 0 < a2.length := List.length_pos.mpr ha
      omega
    unfold readStringGranted
    rw [read_short d 4 hl]
    exact ⟨rfl, Or.inl rfl⟩

/-- `readStringGranted` on a stream cut somewhere in or after an encoded string: either the
whole string is there, or the read fails as in `readStringGranted_truncated`. -/
theorem readStringGranted_on_cut (s b d t : List Nat) (hs : s.length < 2 ^ 32)
    (h : d ++ t = toLE32 s.length ++ (s ++ b)) :
    (∃ d2, d = toLE32 s.length ++ (s ++ d2) ∧ d2 ++ t = b) ∨
    ((readStringGranted (IfStream.mk d false false) []).2.2.failbit = true ∧
      ((readStringGranted (IfStream.mk d false false) []).2.1 = [] ∨
        0 ∈ (readStringGranted (IfStream.mk d false false) []).2.1)) := by
  rw [← List.append_assoc] at h
  rcases append_split d t _ _ h with ⟨d2, hd, h2⟩ | ⟨a2, ha, h2⟩
  · left
    exact ⟨d2, by rw [hd, List.append_assoc], h2⟩
  · right
    exact readStringGranted_truncated s d a2 hs h2 ha

theorem readValueGranted_int_truncated (tg : List Nat) (htg : tg = tagInt ∨ tg = tagInteger)
    (u : Nat) (d t data : List Nat) (h : d ++ t = toLE32 u) (ht : t ≠ []) :
    (readValueGranted (IfStream.mk d false false) tg data).1 = false := by
  have hl : d.length < 4 := by
    have h3 := congrArg List.length h
    rw [List.length_append, length_toLE32] at h3
    have : 0 < t.length := List.length_pos.mpr ht
    omega
  unfold readValueGranted
  rw [if_pos htg, read_short d 4 hl]
  rfl

theorem readValueGranted_sized_truncated (tg : List Nat)
    (htg : tg = tagBlob ∨ tg = tagKString ∨ tg = tagString)
    (bs d t data : List Nat) (hb : bs.length < 2 ^ 32)
    (h : d ++ t = toLE32 bs.length ++ bs) (ht : t ≠ []) :
    (readValueGranted (IfStream.mk d false false) tg data).1 = false := by
  have hn : ¬ (tg = tagInt ∨ tg = tagInteger) := by
    rcases htg with h | h | h <;> subst h <;> decide
  have htl : 0 < t.length := List.length_pos.mpr ht
  unfold readValueGranted
  rw [if_neg hn, if_pos htg]
  rcases append_split d t _ _ h with ⟨d2, hd, h2⟩ | ⟨a2, ha, h2⟩
  · subst hd
    have hlen : bs.length = d2.length + t.length := by rw [← h2, List.length_append]
    rw [read_four]
    simp only [fromLE32_toLE32 _ hb, Bool.false_eq_true, if_false]
    rw [if_pos (by omega), read_short d2 bs.length (by omega)]
    rfl
  · have hl : d.length < 4 := by
      have h3 := congrArg List.length h2
      rw [List.length_append, length_toLE32] at h3
      have : 0 < a2.length := List.length_pos.mpr ha
      omega
    rw [read_short d 4 hl]
    rfl

/-- The four reads of a property record on a stream that ends inside the record:
`readValueGranted` returns false, whichever field the cut falls in. -/
theorem property_fields_truncated (o n tg v d t : List Nat) (ho : o.length < 2 ^ 32)
    (hn : n.length < 2 ^ 32) (htl : tg.length < 2 ^ 32)
    (hv : ((tg = tagInt ∨ tg = tagInteger) ∧ ∃ u, v = toLE32 u) ∨
      ((tg = tagBlob ∨ tg = tagKString ∨ tg = tagString) ∧
        ∃ bs, bs.length < 2 ^ 32 ∧ v = toLE32 bs.length ++ bs))
    (h : d ++ t = toLE32 o.length ++ (o ++ (toLE32 n.length ++ (n ++
      (toLE32 tg.length ++ (tg ++ v))))))
    (ht : t ≠ []) :
    (readValueGranted (readStringGranted (readStringGranted (readStringGranted (IfStream.mk d false false)
          []).2.2 []).2.2 []).2.2
        (readStringGranted (readStringGranted (readStringGranted (IfStream.mk d false false)
          []).2.2 []).2.2 []).2.1 []).1 = false := by
  rcases readStringGranted_on_cut o _ d t ho h with ⟨d2, hd, h2⟩ | ⟨hf, _⟩
  · subst hd
    rw [readStringGranted_written _ _ _ ho]
    simp only []
    rcases readStringGranted_on_cut n _ d2 t hn h2 with ⟨d3, hd, h3⟩ | ⟨hf, _⟩
    · subst hd
      rw [readStringGranted_written _ _ _ hn]
      simp only []
      rcases readStringGranted_on_cut tg _ d3 t htl h3 with ⟨d4, hd, h4⟩ | ⟨_, hs⟩
      · subst hd
        rw [readStringGranted_written _ _ _ htl]
        simp only []
        rcases hv with ⟨htg, u, hu⟩ | ⟨htg, bs, hb, hu⟩
        · exact readValueGranted_int_truncated tg htg u d4 t [] (by rw [h4, hu]) ht
        · exact readValueGranted_sized_truncated tg htg bs d4 t [] hb (by rw [h4, hu]) ht
      · have hnot := not_tag_of_zero_mem _ hs
        rw [readValueGranted_unknown _ _ _ hnot.1 hnot.2]
    · rw [readStringGranted_failed _ hf []]
      simp only []
      have hnot := not_tag_of_zero_mem [] (Or.inl rfl)
      rw [readValueGranted_unknown _ _ _ hnot.1 hnot.2]
  · rw [readStringGranted_failed _ hf [], readStringGranted_failed _ hf []]
    have hnot := not_tag_of_zero_mem [] (Or.inl rfl)
    rw [readValueGranted_unknown _ _ _ hnot.1 hnot.2]

theorem cutRefused_whole (alloc : Allocator) (lengthBytes request : Nat)
    (fields : List (Nat × Nat)) (present rest : Nat)
    (h : present = lengthBytes + request + rest) :
    cutRefused alloc ((lengthBytes, request) :: fields) present =
      cutRefused alloc fields rest := by
  subst h
  rw [cutRefused, if_neg (by omega), if_neg (by omega)]
  congr 1
  omega

theorem cutRefused_cut (alloc : Allocator) (lengthBytes request : Nat)
    (fields : List (Nat × Nat)) (present : Nat) (h : present < lengthBytes + request) :
    cutRefused alloc ((lengthBytes, request) :: fields) present =
      (decide (lengthBytes ≤ present) && !alloc request) := by
  rw [cutRefused]
  by_cases h1 : present < lengthBytes
  · rw [if_pos h1]
    have : ¬ lengthBytes ≤ present := by omega
    simp [this]
  · rw [if_neg h1, if_pos (by omega)]
    have : lengthBytes ≤ present := by omega
    simp [this]

theorem stringRefused_failed {alloc : Allocator} (st : IfStream) (hf : st.failbit = true) :
    stringRefused alloc st = false := by
  unfold stringRefused
  rw [read_failed st hf]
  simp [hf]

theorem valueRefused_unknown {alloc : Allocator} (st : IfStream) (tg : List Nat)
    (h1 : ¬ (tg = tagInt ∨ tg = tagInteger))
    (h2 : ¬ (tg = tagBlob ∨ tg = tagKString ∨ tg = tagString)) :
    valueRefused alloc st tg = false := by
  unfold valueRefused
  rw [if_neg h1, if_neg h2]

/-- The storage of a string of which the file holds a proper part is asked for when
the length prefix is whole, and then the allocator decides. -/
theorem stringRefused_truncated {alloc : Allocator} (s d t : List Nat)
    (hs : s.length < 2 ^ 32) (h : d ++ t = toLE32 s.length ++ s) (ht : t ≠ []) :
    d.length < 4 + s.length ∧
    stringRefused alloc (IfStream.mk d false false) =
      (decide (4 ≤ d.length) && !alloc s.length) := by
  have htl : 0 < t.length := List.length_pos.mpr ht
  rcases append_split d t _ _ h with ⟨d2, hd, h2⟩ | ⟨a2, ha, h2⟩
  · subst hd
    have hlen : s.length = d2.length + t.length := by rw [← h2, List.length_append]
    have hn : ¬ s.length ≤ d2.length := by omega
    unfold stringRefused
    rw [read_four]
    simp [fromLE32_toLE32 _ hs, grants, hn, length_toLE32]
    omega
  · have hl : d.length < 4 := by
      have h3 := congrArg List.length h2
      rw [List.length_append, length_toLE32] at h3
      have : 0 < a2.length := List.length_pos.mpr ha
      omega
    have hn : ¬ 4 ≤ d.length := by omega
    unfold stringRefused
    rw [read_short d 4 hl]
    simp [hn]
    omega

theorem valueRefused_sized_eq {alloc : Allocator} (st : IfStream) (tg : List Nat)
    (htg : tg = tagBlob ∨ tg = tagKString ∨ tg = tagString) :
    valueRefused alloc st tg = stringRefused alloc st := by
  have hn : ¬ (tg = tagInt ∨ tg = tagInteger) := by
    rcases htg with h | h | h <;> subst h <;> decide
  unfold valueRefused stringRefused
  rw [if_neg hn, if_pos htg]

theorem valueRefused_int_truncated {alloc : Allocator} (tg : List Nat)
    (htg : tg = tagInt ∨ tg = tagInteger) (u : Nat) (d t : List Nat)
    (h : d ++ t = toLE32 u) (ht : t ≠ []) :
    d.length < 4 ∧ valueRefused alloc (IfStream.mk d false false) tg = !alloc 4 := by
  have hl : d.length < 4 := by
    have h3 := congrArg List.length h
    rw [List.length_append, length_toLE32] at h3
    have : 0 < t.length := List.length_pos.mpr ht
    omega
  have hn : ¬ 4 ≤ d.length := by omega
  unfold valueRefused
  rw [if_pos htg]
  simp [grants, hn, hl]

/-- The four reads of a property record on a stream that ends inside the record are
refused their storage exactly when the cut falls in the content of a field whose
length prefix is whole and the allocator refuses that length. -/
theorem property_fields_refused {alloc : Allocator} (o n tg v d t : List Nat)
    (request : Nat × Nat) (ho : o.length < 2 ^ 32)
    (hn : n.length < 2 ^ 32) (htl : tg.length < 2 ^ 32)
    (hv : ((tg = tagInt ∨ tg = tagInteger) ∧ (∃ u, v = toLE32 u) ∧ request = (0, 4)) ∨
      ((tg = tagBlob ∨ tg = tagKString ∨ tg = tagString) ∧
        ∃ bs, bs.length < 2 ^ 32 ∧ v = toLE32 bs.length ++ bs ∧ request = (4, bs.length)))
    (h : d ++ t = toLE32 o.length ++ (o ++ (toLE32 n.length ++ (n ++
      (toLE32 tg.length ++ (tg ++ v))))))
    (ht : t ≠ []) :
    propertyRefused alloc (IfStream.mk d false false) =
      cutRefused alloc [(4, o.length), (4, n.length), (4, tg.length), request] d.length := by
  have hnot := not_tag_of_zero_mem [] (Or.inl rfl)
  unfold propertyRefused
  rw [← List.append_assoc] at h
  rcases append_split d t _ _ h with ⟨d2, hd, h2⟩ | ⟨a2, ha, hcut⟩
  · subst hd
    rw [cutRefused_whole alloc 4 o.length _ _ d2.length
      (by simp only [List.length_append, length_toLE32])]
    simp only [List.append_assoc, readStringGranted_written _ _ _ ho,
      stringRefused_written _ _ ho, Bool.false_or]
    rw [← List.append_assoc] at h2
    rcases append_split d2 t _ _ h2 with ⟨d3, hd, h3⟩ | ⟨a3, ha, hcut⟩
    · subst hd
      rw [cutRefused_whole alloc 4 n.length _ _ d3.length
        (by simp only [List.length_append, length_toLE32])]
      simp only [List.append_assoc, readStringGranted_written _ _ _ hn,
        stringRefused_written _ _ hn, Bool.false_or]
      rw [← List.append_assoc] at h3
      rcases append_split d3 t _ _ h3 with ⟨d4, hd, h4⟩ | ⟨a4, ha, hcut⟩
      · subst hd
        rw [cutRefused_whole alloc 4 tg.length _ _ d4.length
          (by simp only [List.length_append, length_toLE32])]
        simp only [List.append_assoc, readStringGranted_written _ _ _ htl,
          stringRefused_written _ _ htl, Bool.false_or]
        rcases hv with ⟨htg, ⟨u, hu⟩, hreq⟩ | ⟨htg, bs, hb, hu, hreq⟩
        · subst hreq
          obtain ⟨hl, hval⟩ := @valueRefused_int_truncated alloc tg htg u d4 t
            (by rw [h4, hu]) ht
          rw [hval, cutRefused_cut alloc 0 4 _ _ (by omega)]
          simp
        · subst hreq
          obtain ⟨hl, hval⟩ := @stringRefused_truncated alloc bs d4 t hb
            (by rw [h4, hu]) ht
          rw [valueRefused_sized_eq _ _ htg, hval, cutRefused_cut alloc 4 bs.length _ _ hl]
      · obtain ⟨hl, hval⟩ := @stringRefused_truncated alloc tg d3 a4 htl hcut ha
        obtain ⟨hf, hs⟩ := readStringGranted_truncated tg d3 a4 htl hcut ha
        have hnot2 := not_tag_of_zero_mem _ hs
        rw [hval, cutRefused_cut alloc 4 tg.length _ _ hl,
          valueRefused_unknown _ _ hnot2.1 hnot2.2, Bool.or_false]
    · obtain ⟨hl, hval⟩ := @stringRefused_truncated alloc n d2 a3 hn hcut ha
      obtain ⟨hf, hs⟩ := readStringGranted_truncated n d2 a3 hn hcut ha
      rw [hval, cutRefused_cut alloc 4 n.length _ _ hl, stringRefused_failed _ hf,
        readStringGranted_failed _ hf [], valueRefused_unknown _ _ hnot.1 hnot.2]
      simp
  · obtain ⟨hl, hval⟩ := @stringRefused_truncated alloc o d a2 ho hcut ha
    obtain ⟨hf, hs⟩ := readStringGranted_truncated o d a2 ho hcut ha
    rw [hval, cutRefused_cut alloc 4 o.length _ _ hl, stringRefused_failed _ hf,
      readStringGranted_failed _ hf [], stringRefused_failed _ hf,
      readStringGranted_failed _ hf [], valueRefused_unknown _ _ hnot.1 hnot.2]
    simp

/-- `ReadIntArray` on a proper part of an encoded array: `std::bad_alloc` when the
count is whole and the allocator refuses the storage it asks for, false otherwise. -/
theorem ReadIntArray_cut {alloc : Allocator} (a : List Int) (d t : List Nat)
    (arr : List Int) (ha : a.length < 2 ^ 32)
    (h : d ++ t = toLE32 a.length ++ intsToBytes a) (ht : t ≠ []) :
    d.length < 4 + a.length * 4 ∧
    (ReadIntArray alloc (IfStream.mk d false false) arr).map (fun r => r.1) =
      if (decide (4 ≤ d.length) && !alloc (a.length * 4)) = true then none
      else some false := by
  have htl : 0 < t.length := List.length_pos.mpr ht
  unfold ReadIntArray
  rcases append_split d t _ _ h with ⟨d2, hd, h2⟩ | ⟨a2, ha2, h2⟩
  · subst hd
    have hlen : 4 * a.length = d2.length + t.length := by
      rw [← length_intsToBytes, ← h2, List.length_append]
    have h4 : 4 ≤ (toLE32 a.length ++ d2).length := by
      rw [List.length_append, length_toLE32]; omega
    refine ⟨by rw [List.length_append, length_toLE32]; omega, ?_⟩
    rw [read_four]
    simp only [fromLE32_toLE32 _ ha, Bool.false_eq_true, if_false]
    cases hal : alloc (a.length * 4)
    · rw [resizeInts_refused alloc _ _ _ (by omega) hal]
      rw [List.length_append] at h4
      simp [h4]
    · rw [resizeInts_granted alloc _ _ _ hal]
      simp only []
      rw [if_pos (by omega), read_short d2 (a.length * 4) (by omega)]
      simp
  · have hl : d.length < 4 := by
      have h3 := congrArg List.length h2
      rw [List.length_append, length_toLE32] at h3
      have : 0 < a2.length := List.length_pos.mpr ha2
      omega
    have hn : ¬ 4 ≤ d.length := by omega
    refine ⟨by omega, ?_⟩
    rw [read_short d 4 hl]
    simp [hn]

/-- The reads of an array record on a stream that ends inside the record:
`std::bad_alloc` when the cut falls in the content of a field whose length prefix
is whole and the allocator refuses that length, and `ReadIntArray` returns false
otherwise. -/
theorem array_fields_cut {alloc : Allocator} (c u : List Nat) (ids : List Int)
    (d t : List Nat)
    (hc : c.length < 2 ^ 32) (hu : u.length < 2 ^ 32) (hi : ids.length < 2 ^ 32)
    (h : d ++ t = toLE32 c.length ++ (c ++ (toLE32 u.length ++ (u ++
      (toLE32 ids.length ++ intsToBytes ids)))))
    (ht : t ≠ []) :
    (if namesRefused alloc (IfStream.mk d false false) = true then none
      else (ReadIntArray alloc (readStringGranted (readStringGranted
        (IfStream.mk d false false) []).2.2 []).2.2 []).map (fun r => r.1)) =
      if cutRefused alloc [(4, c.length), (4, u.length), (4, ids.length * 4)] d.length = true
      then none else some false := by
  unfold namesRefused
  rw [← List.append_assoc] at h
  rcases append_split d t _ _ h with ⟨d2, hd, h2⟩ | ⟨a2, ha, hcut⟩
  · subst hd
    rw [cutRefused_whole alloc 4 c.length _ _ d2.length
      (by simp only [List.length_append, length_toLE32])]
    simp only [List.append_assoc, readStringGranted_written _ _ _ hc,
      stringRefused_written _ _ hc, Bool.false_or]
    rw [← List.append_assoc] at h2
    rcases append_split d2 t _ _ h2 with ⟨d3, hd, h3⟩ | ⟨a3, ha, hcut⟩
    · subst hd
      rw [cutRefused_whole alloc 4 u.length _ _ d3.length
        (by simp only [List.length_append, length_toLE32])]
      simp only [List.append_assoc, readStringGranted_written _ _ _ hu,
        stringRefused_written _ _ hu, Bool.false_eq_true, if_false]
      obtain ⟨hl, hval⟩ := @ReadIntArray_cut alloc ids d3 t [] hi h3 ht
      rw [hval, cutRefused_cut alloc 4 (ids.length * 4) _ _ hl]
    · obtain ⟨hl, hval⟩ := @stringRefused_truncated alloc u d2 a3 hu hcut ha
      obtain ⟨hf, hs⟩ := readStringGranted_truncated u d2 a3 hu hcut ha
      rw [hval, cutRefused_cut alloc 4 u.length _ _ hl, ReadIntArray_failed _ hf []]
      cases (decide (4 ≤ d2.length) && !alloc u.length) <;> simp
  · obtain ⟨hl, hval⟩ := @stringRefused_truncated alloc c d a2 hc hcut ha
    obtain ⟨hf, hs⟩ := readStringGranted_truncated c d a2 hc hcut ha
    rw [hval, cutRefused_cut alloc 4 c.length _ _ hl, stringRefused_failed _ hf,
      readStringGranted_failed _ hf [], ReadIntArray_failed _ hf []]
    cases (decide (4 ≤ d.length) && !alloc c.length) <;> simp

/-- The value field of a well-formed property, in the two shapes the reader knows. -/
theorem valueField_shape (p : FbxProperty) (hp : WellFormedProperty p) :
    ((cstr p.dataType.name = tagInt ∨ cstr p.dataType.name = tagInteger) ∧
      ∃ u, (if p.dataType.id = .int then valueBytes p
            else toLE32 (valueBytes p).length ++ valueBytes p) = toLE32 u) ∨
    ((cstr p.dataType.name = tagBlob ∨ cstr p.dataType.name = tagKString ∨
        cstr p.dataType.name = tagString) ∧
      ∃ bs, bs.length < 2 ^ 32 ∧
        (if p.dataType.id = .int then valueBytes p
         else toLE32 (valueBytes p).length ++ valueBytes p) = toLE32 bs.length ++ bs) := by
  rcases hp.2 with ⟨ht, hid⟩ | ⟨ht, hid, hv⟩
  · left
    refine ⟨ht, intToU32 p.GetInt, ?_⟩
    simp [hid, valueBytes, FbxDataType.Is, FbxIntDT]
  · right
    have hne : p.dataType.id ≠ .int := by
      rcases hid with h | h | h <;> rw [h] <;> decide
    exact ⟨ht, valueBytes p, hv, by rw [if_neg hne]⟩

/-- The value field of a well-formed property with the storage its read asks for. -/
theorem valueField_request (p : FbxProperty) (hp : WellFormedProperty p) :
    ((cstr p.dataType.name = tagInt ∨ cstr p.dataType.name = tagInteger) ∧
      (∃ u, (if p.dataType.id = .int then valueBytes p
            else toLE32 (valueBytes p).length ++ valueBytes p) = toLE32 u) ∧
      (if p.dataType.id = .int then (0, 4) else (4, (valueBytes p).length)) = (0, 4)) ∨
    ((cstr p.dataType.name = tagBlob ∨ cstr p.dataType.name = tagKString ∨
        cstr p.dataType.name = tagString) ∧
      ∃ bs, bs.length < 2 ^ 32 ∧
        (if p.dataType.id = .int then valueBytes p
         else toLE32 (valueBytes p).length ++ valueBytes p) = toLE32 bs.length ++ bs ∧
        (if p.dataType.id = .int then (0, 4) else (4, (valueBytes p).length)) =
          (4, bs.length)) := by
  rcases hp.2 with ⟨ht, hid⟩ | ⟨ht, hid, hv⟩
  · left
    refine ⟨ht, ⟨intToU32 p.GetInt, ?_⟩, by rw [if_pos hid]⟩
    simp [hid, valueBytes, FbxDataType.Is, FbxIntDT]
  · right
    have hne : p.dataType.id ≠ .int := by
      rcases hid with h | h | h <;> rw [h] <;> decide
    exact ⟨ht, valueBytes p, hv, by rw [if_neg hne], by rw [if_neg hne]⟩

/-- One iteration of the loop on a proper, non-empty part of a well-formed record:
`std::bad_alloc` is thrown and the loop does not return when the cut falls in the
content of a field whose length prefix is whole and the allocator refuses the
storage that length asks for; otherwise the loop ends and nothing is inserted. -/
theorem loadLoop_truncated {alloc : Allocator} (fuel : Nat) (r : Record) (hr : r.WellFormed)
    (p t : List Nat) (hsplit : writeRecord [] r = p ++ t) (hp : p ≠ []) (ht : t ≠ [])
    (doc : PropertyMap) (geo : StdMap GeometryData) :
    loadLoop alloc (fuel + 1) (IfStream.mk p false false) doc geo =
      if r.allocationRefused alloc p then none else some (doc, geo) := by
  obtain ⟨m, d, rfl⟩ := List.exists_cons_of_ne_nil hp
  cases r with
  | documentProperty o q =>
    have htl : (cstr q.dataType.name).length < 2 ^ 32 := by
      rcases hr.2.2 with ⟨h | h, _⟩ | ⟨h | h | h, _⟩ <;> rw [h] <;> decide
    simp only [writeRecord, ProcessAndWriteProperty_eq [] q o markerG hr.1 hr.2,
      List.nil_append, List.cons_append] at hsplit
    obtain ⟨hm, hd⟩ := List.cons.inj hsplit
    subst hm
    rw [loadLoop_G, @property_fields_refused alloc o _ _ _ d t _ hr.1 hr.2.1 htl
      (valueField_request q hr.2) hd.symm ht]
    simp only [Record.allocationRefused, Record.fieldRequests, List.length_cons,
      Nat.add_sub_cancel]
    rw [if_pos (property_fields_truncated o _ _ _ d t hr.1 hr.2.1 htl (valueField_shape q hr.2)
      hd.symm ht)]
  | geometryProperty o q =>
    have htl : (cstr q.dataType.name).length < 2 ^ 32 := by
      rcases hr.2.2 with ⟨h | h, _⟩ | ⟨h | h | h, _⟩ <;> rw [h] <;> decide
    simp only [writeRecord, ProcessAndWriteProperty_eq [] q o markerM hr.1 hr.2,
      List.nil_append, List.cons_append] at hsplit
    obtain ⟨hm, hd⟩ := List.cons.inj hsplit
    subst hm
    rw [loadLoop_M, @property_fields_refused alloc o _ _ _ d t _ hr.1 hr.2.1 htl
      (valueField_request q hr.2) hd.symm ht]
    simp only [Record.allocationRefused, Record.fieldRequests, List.length_cons,
      Nat.add_sub_cancel]
    rw [if_pos (property_fields_truncated o _ _ _ d t hr.1 hr.2.1 htl (valueField_shape q hr.2)
      hd.symm ht)]
  | auxiliaryArray c u ids =>
    simp only [writeRecord, writeIslandRecord_eq c u ids hr.1 hr.2.1 hr.2.2.1,
      List.cons_append] at hsplit
    obtain ⟨hm, hd⟩ := List.cons.inj hsplit
    subst hm
    have hcut := @array_fields_cut alloc c u ids d t hr.1 hr.2.1 hr.2.2.1 hd.symm ht
    rw [loadLoop_I]
    simp only [Record.allocationRefused, Record.fieldRequests, List.length_cons,
      Nat.add_sub_cancel]
    cases hn : namesRefused alloc (IfStream.mk d false false)
    · rw [hn] at hcut
      simp only [Bool.false_eq_true, if_false] at hcut ⊢
      cases hres : ReadIntArray alloc (readStringGranted (readStringGranted
          (IfStream.mk d false false) []).2.2 []).2.2 [] with
      | none =>
        rw [hres] at hcut
        by_cases hc : cutRefused alloc
            [(4, c.length), (4, u.length), (4, ids.length * 4)] d.length = true
        · rw [if_pos hc]
        · rw [if_neg hc] at hcut
          simp at hcut
      | some res =>
        rw [hres] at hcut
        by_cases hc : cutRefused alloc
            [(4, c.length), (4, u.length), (4, ids.length * 4)] d.length = true
        · rw [if_pos hc] at hcut
          simp at hcut
        · rw [if_neg hc] at hcut ⊢
          have hfalse : res.1 = false := by simpa using hcut
          simp only [hfalse, if_true]
    · rw [hn] at hcut
      simp only [if_true] at hcut ⊢
      by_cases hc : cutRefused alloc
          [(4, c.length), (4, u.length), (4, ids.length * 4)] d.length = true
      · rw [if_pos hc]
      · rw [if_neg hc] at hcut
        simp at hcut

/-- C9, what the code does. For well-formed records `r1..rn` and a non-empty proper
initial part `p` of the encoding of one further well-formed record,
`LoadAllDataFromFile` on the encodings of `r1..rn` followed by `p` returns exactly
the indices obtained from `r1..rn`, nothing of the truncated record being inserted,
unless the file ends in the content of a string, a value or an array whose length
prefix or count is whole and the allocator refuses the storage that length asks
for: then `std::bad_alloc` ends the program and nothing is returned. -/
theorem truncation_aborts (alloc : Allocator) (rs : List Record)
    (hrs : ∀ r ∈ rs, r.WellFormed) (r : Record)
    (hr : r.WellFormed) (p t : List Nat) (hsplit : writeRecord [] r = p ++ t) (hp : p ≠ [])
    (ht : t ≠ []) (doc : PropertyMap) (geo : StdMap GeometryData) :
    (¬ r.allocationRefused alloc p →
      LoadAllDataFromFile alloc (some (writeRecords [] rs ++ p)) doc geo =
        some (rs.foldl insertRecord (doc, geo))) ∧
    (r.allocationRefused alloc p →
      LoadAllDataFromFile alloc (some (writeRecords [] rs ++ p)) doc geo = none) := by
  have hlen := length_writeRecords_ge rs hrs
  obtain ⟨k, hk⟩ := Nat.exists_eq_add_of_le hlen
  have hf : (writeRecords [] rs ++ p).length + 1 = rs.length + (k + p.length + 1) := by
    rw [List.length_append]; omega
  constructor
  · intro hg
    unfold LoadAllDataFromFile IfStream.open
    simp only [hf, loadLoop_records rs hrs (k + p.length + 1) p doc geo]
    rw [loadLoop_truncated _ r hr p t hsplit hp ht, if_neg hg]
  · intro hg
    unfold LoadAllDataFromFile IfStream.open
    simp only [hf, loadLoop_records rs hrs (k + p.length + 1) p doc geo]
    rw [loadLoop_truncated _ r hr p t hsplit hp ht, if_pos hg]

/-- Witness of C9: after one whole record, an array record of one element cut two
bytes before its end, on a machine that grants 8 GiB and on a machine that grants
nothing the file does not back. -/
theorem truncation_aborts_witness :
    LoadAllDataFromFile eightGiB (some (writeRecords []
        [Record.auxiliaryArray [67] [68] [1]] ++
        [73, 1, 0, 0, 0, 65, 1, 0, 0, 0, 66, 1, 0, 0, 0, 5, 0])) [] [] =
      some (List.foldl insertRecord ([], []) [Record.auxiliaryArray [67] [68] [1]]) ∧
    LoadAllDataFromFile noSpareMemory (some (writeRecords []
        [Record.auxiliaryArray [67] [68] [1]] ++
        [73, 1, 0, 0, 0, 65, 1, 0, 0, 0, 66, 1, 0, 0, 0, 5, 0])) [] [] = none :=
  ⟨(truncation_aborts eightGiB [Record.auxiliaryArray [67] [68] [1]] (by decide)
      (Record.auxiliaryArray [65] [66] [5]) (by decide)
      [73, 1, 0, 0, 0, 65, 1, 0, 0, 0, 66, 1, 0, 0, 0, 5, 0] [0, 0] (by decide) (by decide)
      (by decide) [] []).1 (by decide),
   (truncation_aborts noSpareMemory [Record.auxiliaryArray [67] [68] [1]] (by decide)
      (Record.auxiliaryArray [65] [66] [5]) (by decide)
      [73, 1, 0, 0, 0, 65, 1, 0, 0, 0, 66, 1, 0, 0, 0, 5, 0] [0, 0] (by decide) (by decide)
      (by decide) [] []).2 (by decide)⟩

/-- C9 at the failing input. A file of 34 bytes: one whole array record, then an
array record cut after the count `0xFFFFFFFF`. On a machine that grants up to 8 GiB
the storage of `4 * (2^32 - 1)` bytes is refused: the load does not return, and so
does not return the whole record either. -/
theorem truncated_count_bad_alloc :
    (writeRecords [] [Record.auxiliaryArray [67] [68] [1]] ++
        [73, 1, 0, 0, 0, 65, 1, 0, 0, 0, 66, 255, 255, 255, 255]).length = 34 ∧
    LoadAllDataFromFile eightGiB (some (writeRecords []
        [Record.auxiliaryArray [67] [68] [1]] ++
        [73, 1, 0, 0, 0, 65, 1, 0, 0, 0, 66, 255, 255, 255, 255])) [] [] = none := by
  decide

/-! ## Unknown type tags -/

/-- The three strings of a property record that are whole are backed by the file:
only the read of the value may be refused its storage. -/
theorem propertyRefused_tagged {alloc : Allocator} (o n tg rest : List Nat)
    (ho : o.length < 2 ^ 32) (hn : n.length < 2 ^ 32) (htl : tg.length < 2 ^ 32) :
    propertyRefused alloc (IfStream.mk (toLE32 o.length ++ (o ++ (toLE32 n.length ++
      (n ++ (toLE32 tg.length ++ (tg ++ rest)))))) false false) =
      valueRefused alloc (IfStream.mk rest false false) tg := by
  simp only [propertyRefused, readStringGranted_written _ _ _ ho,
    readStringGranted_written _ _ _ hn, readStringGranted_written _ _ _ htl,
    stringRefused_written _ _ ho, stringRefused_written _ _ hn,
    stringRefused_written _ _ htl, Bool.false_or]

/-- The load stops at a property record with an unrecognised type tag; the records
before it are in the index. -/
theorem loadLoop_unknown_type {alloc : Allocator} (rs : List Record) (hrs : ∀ r ∈ rs, r.WellFormed)
    (marker : Nat) (hm : marker = markerG ∨ marker = markerM) (o n tg tail : List Nat)
    (ho : o.length < 2 ^ 32) (hn : n.length < 2 ^ 32) (htl : tg.length < 2 ^ 32)
    (h1 : ¬ (tg = tagInt ∨ tg = tagInteger))
    (h2 : ¬ (tg = tagBlob ∨ tg = tagKString ∨ tg = tagString))
    (doc : PropertyMap) (geo : StdMap GeometryData) :
    LoadAllDataFromFile alloc
        (some (writeRecords [] rs ++
          (WriteString (WriteString (WriteString [marker] o) n) tg ++ tail))) doc geo =
      some (rs.foldl insertRecord (doc, geo)) := by
  unfold LoadAllDataFromFile IfStream.open
  have hlen := length_writeRecords_ge rs hrs
  obtain ⟨k, hk⟩ := Nat.exists_eq_add_of_le hlen
  have hf : (writeRecords [] rs ++
      (WriteString (WriteString (WriteString [marker] o) n) tg ++ tail)).length + 1 =
      rs.length + (k + (WriteString (WriteString (WriteString [marker] o) n) tg ++
        tail).length + 1) := by
    rw [List.length_append]; omega
  simp only [hf, loadLoop_records rs hrs _ _ doc geo]
  simp only [WriteString_eq _ _ ho, WriteString_eq _ _ hn, WriteString_eq _ _ htl,
    List.append_assoc, List.cons_append, List.nil_append]
  rcases hm with hm | hm
  · subst hm
    rw [loadLoop_G, propertyRefused_tagged _ _ _ _ ho hn htl,
      valueRefused_unknown _ _ h1 h2, if_neg (by decide), if_pos]
    simp only [readStringGranted_written _ _ _ ho, readStringGranted_written _ _ _ hn,
      readStringGranted_written _ _ _ htl]
    rw [readValueGranted_unknown _ _ _ h1 h2]
  · subst hm
    rw [loadLoop_M, propertyRefused_tagged _ _ _ _ ho hn htl,
      valueRefused_unknown _ _ h1 h2, if_neg (by decide), if_pos]
    simp only [readStringGranted_written _ _ _ ho, readStringGranted_written _ _ _ hn,
      readStringGranted_written _ _ _ htl]
    rw [readValueGranted_unknown _ _ _ h1 h2]

/-- C8, as the code has it. A property record whose type tag is none of the five
recognised names ends the load at that record: neither it nor anything after it
is inserted, the index holds exactly the records before it, and `main`, which gets
no failure report from `LoadAllDataFromFile`, injects that index: the run is the
run on the container that holds only the records before the offending one. -/
theorem unknown_type_stops_load (alloc : Allocator) (rs : List Record) (hrs : ∀ r ∈ rs, r.WellFormed)
    (marker : Nat) (hm : marker = markerG ∨ marker = markerM) (o n tg tail : List Nat)
    (ho : o.length < 2 ^ 32) (hn : n.length < 2 ^ 32) (htl : tg.length < 2 ^ 32)
    (h1 : ¬ (tg = tagInt ∨ tg = tagInteger))
    (h2 : ¬ (tg = tagBlob ∨ tg = tagKString ∨ tg = tagString)) :
    (∀ doc geo,
      LoadAllDataFromFile alloc
          (some (writeRecords [] rs ++
            (WriteString (WriteString (WriteString [marker] o) n) tg ++ tail))) doc geo =
        some (rs.foldl insertRecord (doc, geo))) ∧
    (∀ argc target exporterInitialized exportSucceeded,
      Injector.main alloc argc target
          (some (writeRecords [] rs ++
            (WriteString (WriteString (WriteString [marker] o) n) tg ++ tail)))
          exporterInitialized exportSucceeded =
        Injector.main alloc argc target (some (writeRecords [] rs))
          exporterInitialized exportSucceeded) := by
  refine ⟨loadLoop_unknown_type rs hrs marker hm o n tg tail ho hn htl h1 h2, ?_⟩
  intro argc target e1 e2
  unfold Injector.main
  rw [loadLoop_unknown_type rs hrs marker hm o n tg tail ho hn htl h1 h2,
    LoadAllDataFromFile_written rs hrs]

/-- Witness of C8 as amended: a record of type `Float` after one integer record. -/
theorem unknown_type_stops_load_witness :
    (∀ doc geo,
      LoadAllDataFromFile noSpareMemory
          (some (writeRecords [] [Record.auxiliaryArray [67] [68] [1]] ++
            (WriteString (WriteString (WriteString [markerG] [65]) [66]) (bytesOf "Float") ++
              [1, 2, 3]))) doc geo =
        some (List.foldl insertRecord (doc, geo) [Record.auxiliaryArray [67] [68] [1]])) ∧
    (∀ argc target exporterInitialized exportSucceeded,
      Injector.main noSpareMemory argc target
          (some (writeRecords [] [Record.auxiliaryArray [67] [68] [1]] ++
            (WriteString (WriteString (WriteString [markerG] [65]) [66]) (bytesOf "Float") ++
              [1, 2, 3])))
          exporterInitialized exportSucceeded =
        Injector.main noSpareMemory argc target (some (writeRecords [] [Record.auxiliaryArray [67] [68] [1]]))
          exporterInitialized exportSucceeded) :=
  unknown_type_stops_load noSpareMemory [Record.auxiliaryArray [67] [68] [1]] (by decide) markerG
    (Or.inl rfl) [65] [66] (bytesOf "Float") [1, 2, 3] (by decide) (by decide) (by decide)
    (by decide) (by decide)

/-- C8, counterexample. The container holds the integer record `RizomUV = 7` and
then a record whose type tag `Number` is not recognised; the run of the injector
on a target with an empty document exits with code 0 and exports a scene whose
document carries `RizomUV = 7`, read from the record before the offending one. -/
theorem unknown_type_rejection_counterexample :
    ∃ scene document,
      Injector.main noSpareMemory 4 (some emptyTargetScene) (some containerWithUnknownType) true true =
        some { exitCode := 0, exported := some scene } ∧
      scene.rootDocument = some document ∧
      { parent := [], name := bytesOf "RizomUV", dataType := FbxIntDT, value := .int 7 }
        ∈ document.properties := by
  refine ⟨_, _, rfl, rfl, ?_⟩
  decide

/-! ## The last record of a key -/

/-- Loading the bytes written for well-formed records, followed or not by a
property record of an unrecognised type and anything after it, returns the indices
obtained by inserting the well-formed records in order. -/
theorem LoadAllDataFromFile_written_stop {alloc : Allocator} (rs : List Record)
    (hrs : ∀ r ∈ rs, r.WellFormed) (stop : List Nat)
    (hstop : stop = [] ∨ StartsUnreadable stop) (doc : PropertyMap)
    (geo : StdMap GeometryData) :
    LoadAllDataFromFile alloc (some (writeRecords [] rs ++ stop)) doc geo =
      some (rs.foldl insertRecord (doc, geo)) := by
  rcases hstop with h | ⟨marker, o, n, tg, tail, hm, ho, hn, htl, h1, h2, h⟩
  · subst h
    rw [List.append_nil]
    exact LoadAllDataFromFile_written rs hrs doc geo
  · subst h
    exact loadLoop_unknown_type rs hrs marker hm o n tg tail ho hn htl h1 h2 doc geo

/-- C5, as the code has it. Last write wins: in a container of well-formed records,
followed or not by a property record of an unrecognised type and anything after
it, a property record after which no well-formed record writes the same key
decides the entry of that key, whatever records with the same key precede it. For
a document record the key is the property name, for a geometry record the owner
and the property name; the entry holds exactly the type tag and value bytes of
that last record. -/
theorem last_write_wins (alloc : Allocator) (pre post : List Record) (o : List Nat)
    (p : FbxProperty) (stop : List Nat)
    (hpre : ∀ r ∈ pre, r.WellFormed) (hpost : ∀ r ∈ post, r.WellFormed)
    (hstop : stop = [] ∨ StartsUnreadable stop)
    (ho : o.length < 2 ^ 32) (hp : WellFormedProperty p)
    (doc0 : PropertyMap) (geo0 : StdMap GeometryData) :
    ((∀ o2 p2, Record.documentProperty o2 p2 ∈ post → cstr p2.name ≠ cstr p.name) →
      ∃ doc geo,
        LoadAllDataFromFile alloc
          (some (writeRecords [] (pre ++ Record.documentProperty o p :: post) ++ stop))
          doc0 geo0 = some (doc, geo) ∧
        mapFind doc (cstr p.name) = some (cstr p.dataType.name, valueBytes p)) ∧
    ((∀ p2, Record.geometryProperty o p2 ∈ post → cstr p2.name ≠ cstr p.name) →
      ∃ doc geo g,
        LoadAllDataFromFile alloc
          (some (writeRecords [] (pre ++ Record.geometryProperty o p :: post) ++ stop))
          doc0 geo0 = some (doc, geo) ∧
        mapFind geo o = some g ∧
        mapFind g.properties (cstr p.name) = some (cstr p.dataType.name, valueBytes p)) := by
  constructor
  · intro hno
    have hall : ∀ r ∈ pre ++ Record.documentProperty o p :: post, r.WellFormed := by
      intro r hr
      rcases List.mem_append.mp hr with h | h
      · exact hpre r h
      · rcases List.mem_cons.mp h with h | h
        · subst h; exact ⟨ho, hp⟩
        · exact hpost r h
    refine ⟨_, _, LoadAllDataFromFile_written_stop _ hall stop hstop doc0 geo0, ?_⟩
    rw [List.foldl_append, List.foldl_cons, foldl_insertRecord_document_key post _ hno]
    simp [insertRecord, mapFind_mapAssign_self]
  · intro hno
    have hall : ∀ r ∈ pre ++ Record.geometryProperty o p :: post, r.WellFormed := by
      intro r hr
      rcases List.mem_append.mp hr with h | h
      · exact hpre r h
      · rcases List.mem_cons.mp h with h | h
        · subst h; exact ⟨ho, hp⟩
        · exact hpost r h
    obtain ⟨g2, h1, h2⟩ := foldl_insertRecord_geometry_key post o (cstr p.name) hno
      (insertRecord (List.foldl insertRecord (doc0, geo0) pre) (Record.geometryProperty o p))
      _ (cstr p.dataType.name, valueBytes p)
      (insertRecord_geo_property _ o p) (by simp [mapFind_mapAssign_self])
    refine ⟨_, _, g2, LoadAllDataFromFile_written_stop _ hall stop hstop doc0 geo0, ?_, h2⟩
    rw [List.foldl_append, List.foldl_cons]
    exact h1

/-- Witness of C5 as amended: two records for the same key with the values 1 and 2,
in the document and on the owner `A`, followed by a record of the type `Url`. -/
theorem last_write_wins_witness :
    (∃ doc geo,
        LoadAllDataFromFile noSpareMemory (some (writeRecords []
          ([rizomUVRecord 1,
            Record.geometryProperty [65]
              { parent := [], name := bytesOf "RizomUV", dataType := FbxIntDT, value := .int 1 }]
            ++ Record.documentProperty [65]
              { parent := [], name := bytesOf "RizomUV", dataType := FbxIntDT, value := .int 2 }
            :: []) ++ writeRecords [] [urlRecord])) [] [] = some (doc, geo) ∧
        mapFind doc (bytesOf "RizomUV") = some (bytesOf "Integer", [2, 0, 0, 0])) ∧
    (∃ doc geo g,
        LoadAllDataFromFile noSpareMemory (some (writeRecords []
          ([rizomUVRecord 1,
            Record.geometryProperty [65]
              { parent := [], name := bytesOf "RizomUV", dataType := FbxIntDT, value := .int 1 }]
            ++ Record.geometryProperty [65]
              { parent := [], name := bytesOf "RizomUV", dataType := FbxIntDT, value := .int 2 }
            :: []) ++ writeRecords [] [urlRecord])) [] [] = some (doc, geo) ∧
        mapFind geo [65] = some g ∧
        mapFind g.properties (bytesOf "RizomUV") = some (bytesOf "Integer", [2, 0, 0, 0])) :=
  ⟨(last_write_wins noSpareMemory
      [rizomUVRecord 1,
       Record.geometryProperty [65]
         { parent := [], name := bytesOf "RizomUV", dataType := FbxIntDT, value := .int 1 }]
      [] [65]
      { parent := [], name := bytesOf "RizomUV", dataType := FbxIntDT, value := .int 2 }
      (writeRecords [] [urlRecord])
      (by decide) (by decide)
      (Or.inr ⟨markerG, bytesOf "FbxDocument", bytesOf "Path", bytesOf "Url", [1, 0, 0, 0, 47],
        Or.inl rfl, by decide, by decide, by decide, by decide, by decide, by decide⟩)
      (by decide) (by decide) [] []).1 (by simp),
   (last_write_wins noSpareMemory
      [rizomUVRecord 1,
       Record.geometryProperty [65]
         { parent := [], name := bytesOf "RizomUV", dataType := FbxIntDT, value := .int 1 }]
      [] [65]
      { parent := [], name := bytesOf "RizomUV", dataType := FbxIntDT, value := .int 2 }
      (writeRecords [] [urlRecord])
      (by decide) (by decide)
      (Or.inr ⟨markerG, bytesOf "FbxDocument", bytesOf "Path", bytesOf "Url", [1, 0, 0, 0, 47],
        Or.inl rfl, by decide, by decide, by decide, by decide, by decide, by decide⟩)
      (by decide) (by decide) [] []).2 (by simp)⟩

set_option maxRecDepth 100000 in
/-- C5, counterexample. Two well-formed records for the document property
`RizomUV`, with the values 1 and 2, and between them a record of the unrecognised
type `Url`, as the extractor writes it: the load ends at that record and the index
holds the value 1 of the earlier record. And with two well-formed records for
`RizomUV` of the owner `FbxDocument`, with the values 1 and 2, followed by a record
for `RizomUV` of the owner `Other` with the value 3, the index holds the value 3,
not the value 2 of the later of the two. -/
theorem last_write_wins_counterexample :
    (∃ doc geo, LoadAllDataFromFile noSpareMemory (some (writeRecords []
        [rizomUVRecord 1, urlRecord, rizomUVRecord 2])) [] [] = some (doc, geo) ∧
      mapFind doc (bytesOf "RizomUV") = some (bytesOf "Integer", [1, 0, 0, 0])) ∧
    (∃ doc geo, LoadAllDataFromFile noSpareMemory (some (writeRecords []
        [rizomUVRecord 1, rizomUVRecord 2,
         Record.documentProperty (bytesOf "Other")
           { parent := [], name := bytesOf "RizomUV", dataType := FbxIntDT,
             value := .int 3 }])) [] [] = some (doc, geo) ∧
      mapFind doc (bytesOf "RizomUV") = some (bytesOf "Integer", [3, 0, 0, 0])) := by
  exact ⟨⟨_, _, rfl, rfl⟩, ⟨_, _, rfl, rfl⟩⟩

/-! ## The empty array and the type tags -/

theorem injectRizomUVUVSets_layers (m : FbxMesh) (g : GeometryData) :
    (injectRizomUVUVSets m g).layers = m.layers ∧ (injectRizomUVUVSets m g).name = m.name := by
  unfold injectRizomUVUVSets
  split
  · dsimp only []
    split
    · exact ⟨rfl, rfl⟩
    · exact ⟨rfl, rfl⟩
  · exact ⟨rfl, rfl⟩

theorem injectRizomUV_layers (mesh m : FbxMesh) (g : GeometryData)
    (h : injectRizomUV mesh g = some m) : m.layers = mesh.layers ∧ m.name = mesh.name := by
  unfold injectRizomUV at h
  split at h
  · dsimp only [] at h
    split at h
    · cases hr : reinterpretInt (mapAt g.properties (bytesOf "RizomUV")).2 with
      | none => rw [hr] at h; cases h
      | some v =>
        rw [hr] at h
        cases h
        exact ⟨rfl, rfl⟩
    · cases h
      exact ⟨rfl, rfl⟩
  · cases h
    exact ⟨rfl, rfl⟩

/-- Part 1 changes neither the layers nor the name of the mesh. -/
theorem injectRizomProperties_layers (mesh m : FbxMesh) (g : GeometryData)
    (h : injectRizomProperties mesh g = some m) : m.layers = mesh.layers ∧ m.name = mesh.name := by
  unfold injectRizomProperties at h
  cases h1 : injectRizomUV mesh g with
  | none => rw [h1] at h; cases h
  | some m1 =>
    rw [h1] at h
    cases h
    have a := injectRizomUV_layers mesh m1 g h1
    have b := injectRizomUVUVSets_layers m1 g
    exact ⟨b.1.trans a.1, b.2.trans a.2⟩

/-- C11. A present but empty array is not re-attached: for a matched target mesh
whose entry has `hasIslandData = true` and an empty `islandGroupIDs`, Part 2 of the
loop body returns the mesh as it is, exactly as it does for any entry with
`hasIslandData = false`; the node comes out with the mesh Part 1 produced, whose
layers are the layers of the target mesh (no layer, no user-data element). -/
theorem present_but_empty_not_reattached (geo : StdMap GeometryData) (node : FbxNode)
    (mesh : FbxMesh) (hattr : node.nodeAttribute = some (.mesh mesh)) (g : GeometryData)
    (hmatch : matchGeometryData geo (cstr node.name) (cstr mesh.name) = some g)
    (hflag : g.hasIslandData = true) (hemp : g.islandGroupIDs = []) :
    (∀ m : FbxMesh, injectIslandGroupIDs m g = m) ∧
    (∀ (m : FbxMesh) (g2 : GeometryData), g2.hasIslandData = false →
      injectIslandGroupIDs m g2 = m) ∧
    injectNode geo node =
      (injectRizomProperties mesh g).map (fun m =>
        { node with nodeAttribute := some (.mesh m) }) ∧
    (∀ m, injectRizomProperties mesh g = some m → m.layers = mesh.layers) := by
  have h1 : ∀ m : FbxMesh, injectIslandGroupIDs m g = m := by
    intro m
    simp [injectIslandGroupIDs, hflag, hemp]
  refine ⟨h1, ?_, ?_, ?_⟩
  · intro m g2 h2
    simp [injectIslandGroupIDs, h2]
  · rw [injectNode_matched geo node mesh hattr g hmatch]
    simp only [h1]
  · intro m hm
    exact (injectRizomProperties_layers mesh m g hm).1

/-- Witness of C11: the node `A` matches an entry with a present, empty array. -/
theorem present_but_empty_not_reattached_witness :
    injectNode [([65], arrayEntry [] [])] (plainMeshNode [65] [66]) =
      some (plainMeshNode [65] [66]) :=
  (present_but_empty_not_reattached [([65], arrayEntry [] [])] (plainMeshNode [65] [66])
    { name := [66], properties := [], layers := [] } rfl (arrayEntry [] []) rfl rfl rfl).2.2.1

/-- C12. Type-tag synonyms: on every stream `ReadValue` gives the same outcome
(flag, bytes and stream) for `KString` as for `String`, and for `Int` as for
`Integer`; a string tag decodes a four-byte length followed by that many bytes, an
integer tag a fixed four bytes without a length. -/
theorem type_tag_synonyms (alloc : Allocator) (inp : IfStream)
    (data v pre body rest : List Nat)
    (hv : v.length = 4) (hpre : pre.length = 4) (hlen : fromLE32 pre = body.length) :
    ReadValue alloc inp tagKString data = ReadValue alloc inp tagString data ∧
    ReadValue alloc inp tagInt data = ReadValue alloc inp tagInteger data ∧
    ReadValue alloc (IfStream.mk (pre ++ (body ++ rest)) false false) tagKString data =
      some (true, body, IfStream.mk rest false false) ∧
    ReadValue alloc (IfStream.mk (v ++ rest) false false) tagInt data =
      some (true, v, IfStream.mk rest false false) := by
  have hK1 : ¬ (tagKString = tagInt ∨ tagKString = tagInteger) := by decide
  have hK2 : tagKString = tagBlob ∨ tagKString = tagKString ∨ tagKString = tagString :=
    Or.inr (Or.inl rfl)
  have hS1 : ¬ (tagString = tagInt ∨ tagString = tagInteger) := by decide
  have hS2 : tagString = tagBlob ∨ tagString = tagKString ∨ tagString = tagString :=
    Or.inr (Or.inr rfl)
  have hI : tagInt = tagInt ∨ tagInt = tagInteger := Or.inl rfl
  have hJ : tagInteger = tagInt ∨ tagInteger = tagInteger := Or.inr rfl
  refine ⟨?_, ?_, ?_, ?_⟩
  · unfold ReadValue
    rw [if_neg hK1, if_pos hK2, if_neg hS1, if_pos hS2]
  · unfold ReadValue
    rw [if_pos hI, if_pos hJ]
  · have hr := read_exact pre (body ++ rest)
    rw [hpre] at hr
    have hgrant : grants alloc (body ++ rest).length body.length = true := by
      simp [grants]
    unfold ReadValue resize
    rw [if_neg hK1, if_pos hK2, hr]
    simp only [hlen, Bool.false_eq_true, if_false, hgrant, if_true]
    split
    · rw [read_exact]
      simp [overlay_full _ _ (le_of_eq (length_resized data body.length))]
    · have : body = [] := List.length_eq_zero.mp (by omega)
      subst this; simp [resized]
  · have hr := read_exact v rest
    rw [hv] at hr
    have hgrant : grants alloc (v ++ rest).length 4 = true := by
      simp [grants, hv]
    unfold ReadValue resize
    rw [if_pos hI, hgrant, if_pos rfl]
    simp only [hr]
    have hb : (resized data 4).length ≤ v.length := by rw [length_resized, hv]
    simp [overlay_full _ _ hb]

/-- Witness of C12: the value `ab` with its length, and a four-byte integer. -/
theorem type_tag_synonyms_witness :
    ReadValue noSpareMemory (IfStream.open [1]) tagKString [] =
      ReadValue noSpareMemory (IfStream.open [1]) tagString [] ∧
    ReadValue noSpareMemory (IfStream.open [1]) tagInt [] =
      ReadValue noSpareMemory (IfStream.open [1]) tagInteger [] ∧
    ReadValue noSpareMemory (IfStream.mk ([2, 0, 0, 0] ++ ([97, 98] ++ [9])) false false)
        tagKString [] =
      some (true, [97, 98], IfStream.mk [9] false false) ∧
    ReadValue noSpareMemory (IfStream.mk ([7, 0, 0, 0] ++ [9]) false false) tagInt [] =
      some (true, [7, 0, 0, 0], IfStream.mk [9] false false) :=
  type_tag_synonyms noSpareMemory (IfStream.open [1]) [] [7, 0, 0, 0] [2, 0, 0, 0] [97, 98] [9]
    rfl rfl rfl

/-! ## The layout the writer produces -/

theorem WriteString_layout (out s : List Nat) : WriteString out s = out ++ lengthPrefixed s := by
  simp only [WriteString, lengthPrefixed]
  split
  · simp
  · rename_i h
    have h0 : castU32 s.length = 0 := by omega
    simp [h0]

theorem WriteBlob_layout (out s : List Nat) : WriteBlob out s = out ++ lengthPrefixed s := by
  simp only [WriteBlob, lengthPrefixed]
  split
  · simp
  · rename_i h
    have h0 : castU32 s.length = 0 := by omega
    simp [h0]

theorem WriteIntArray_layout (out : List Nat) (a : List Int) :
    WriteIntArray out a = out ++ countPrefixed a := by
  simp only [WriteIntArray, countPrefixed]
  split
  · simp
  · rename_i h
    have h0 : castU32 a.length = 0 := by omega
    simp [h0]

theorem lengthPrefixed_short (s : List Nat) (h : s.length < 2 ^ 32) :
    lengthPrefixed s = toLE32 s.length ++ s := by
  have hc : castU32 s.length = s.length := Nat.mod_eq_of_lt h
  simp [lengthPrefixed, hc]

theorem countPrefixed_short (a : List Int) (h : a.length < 2 ^ 32) :
    countPrefixed a = toLE32 a.length ++ intsToBytes a := by
  have hc : castU32 a.length = a.length := Nat.mod_eq_of_lt h
  rw [countPrefixed, hc, List.take_of_length_le (by rw [length_intsToBytes]; omega)]

/-- The record `ProcessAndWriteProperty` appends for a property of one of the four
data types it encodes. -/
theorem ProcessAndWriteProperty_layout (out : List Nat) (prop : FbxProperty)
    (objectName : List Nat) (marker : Nat)
    (hid : prop.dataType.id = .int ∨ prop.dataType.id = .blob ∨ prop.dataType.id = .string ∨
      prop.dataType.id = .url) :
    ProcessAndWriteProperty out prop objectName marker =
      out ++ marker :: (lengthPrefixed objectName ++ (lengthPrefixed (cstr prop.name) ++
        (lengthPrefixed (cstr prop.dataType.name) ++
          (if prop.dataType.id = .int then toLE32 (intToU32 prop.GetInt)
           else if prop.dataType.id = .blob then lengthPrefixed prop.GetBlob
           else lengthPrefixed (cstr prop.GetString))))) := by
  unfold ProcessAndWriteProperty
  simp only [WriteString_layout, WriteBlob_layout]
  rcases hid with h | h | h | h <;>
    simp [FbxDataType.Is, FbxIntDT, FbxBlobDT, FbxStringDT, FbxUrlDT, h]

/-- C13, as the code has it. For a property whose data type is one of the four the
writer encodes (integer, blob, string, URL), `ProcessAndWriteProperty` appends
exactly one record: the marker byte, the length-prefixed owner name, property name
and type name, then the value, four bytes for an integer and a length-prefixed
field for a blob or string. For a selected user-data element the layer loop
appends exactly the marker `I`, the length-prefixed owner and array names, and the
count-prefixed integers. A length prefix is four bytes; for fewer than `2^32`
bytes or integers the field is the length followed by all of them. -/
theorem writer_record_layout (out : List Nat) (prop : FbxProperty) (objectName : List Nat)
    (marker : Nat) (cacheName : List Nat) (userData : FbxLayerElementUserData)
    (hid : prop.dataType.id = .int ∨ prop.dataType.id = .blob ∨ prop.dataType.id = .string ∨
      prop.dataType.id = .url)
    (hsel : isRizomData (cstr userData.name) = true) :
    ProcessAndWriteProperty out prop objectName marker =
      out ++ marker :: (lengthPrefixed objectName ++ (lengthPrefixed (cstr prop.name) ++
        (lengthPrefixed (cstr prop.dataType.name) ++
          (if prop.dataType.id = .int then toLE32 (intToU32 prop.GetInt)
           else if prop.dataType.id = .blob then lengthPrefixed prop.GetBlob
           else lengthPrefixed (cstr prop.GetString))))) ∧
    extractLayers cacheName [{ userData := some userData }] out =
      out ++ markerI :: (lengthPrefixed cacheName ++ (lengthPrefixed (cstr userData.name) ++
        countPrefixed (collectGroupIDs userData))) ∧
    (∀ n, (toLE32 n).length = 4) ∧
    (∀ s : List Nat, s.length < 2 ^ 32 → lengthPrefixed s = toLE32 s.length ++ s) ∧
    (∀ a : List Int, a.length < 2 ^ 32 →
      countPrefixed a = toLE32 a.length ++ intsToBytes a ∧
      (intsToBytes a).length = 4 * a.length) := by
  refine ⟨ProcessAndWriteProperty_layout out prop objectName marker hid, ?_, length_toLE32,
    lengthPrefixed_short, fun a ha => ⟨countPrefixed_short a ha, length_intsToBytes a⟩⟩
  simp only [extractLayers, hsel, if_true, writeIslandRecord, ite_self, WriteString_layout,
    WriteIntArray_layout]
  simp

/-- Witness of C13 as amended: the integer property `RizomUV = 7` of owner `A`, and
an element named `GroupID` holding `[5]`. -/
theorem writer_record_layout_witness :
    ProcessAndWriteProperty []
        { parent := [], name := bytesOf "RizomUV", dataType := FbxIntDT, value := .int 7 }
        [65] markerM =
      [] ++ markerM :: (lengthPrefixed [65] ++ (lengthPrefixed (bytesOf "RizomUV") ++
        (lengthPrefixed (bytesOf "Integer") ++ [7, 0, 0, 0]))) ∧
    extractLayers [65]
        [{ userData := some { name := bytesOf "GroupID", id := 0, dataTypes := [FbxIntDT],
                              dataNames := [], mappingMode := .eByPolygon,
                              referenceMode := .eDirect, directArrays := [[5]] } }] [] =
      [] ++ markerI :: (lengthPrefixed [65] ++ (lengthPrefixed (bytesOf "GroupID") ++
        countPrefixed [5])) :=
  ⟨(writer_record_layout []
      { parent := [], name := bytesOf "RizomUV", dataType := FbxIntDT, value := .int 7 }
      [65] markerM [65]
      { name := bytesOf "GroupID", id := 0, dataTypes := [FbxIntDT],
        dataNames := [], mappingMode := .eByPolygon,
        referenceMode := .eDirect, directArrays := [[5]] }
      (Or.inl rfl) (by decide)).1,
   (writer_record_layout []
      { parent := [], name := bytesOf "RizomUV", dataType := FbxIntDT, value := .int 7 }
      [65] markerM [65]
      { name := bytesOf "GroupID", id := 0, dataTypes := [FbxIntDT],
        dataNames := [], mappingMode := .eByPolygon,
        referenceMode := .eDirect, directArrays := [[5]] }
      (Or.inl rfl) (by decide)).2.1⟩

/-- C13, counterexample. For a property of another data type (here the SDK type
named `Number`) `ProcessAndWriteProperty` writes the marker and the three strings
and stops: no value follows the type name. -/
theorem writer_record_layout_counterexample :
    ProcessAndWriteProperty []
        { parent := [], name := bytesOf "Gain",
          dataType := { name := bytesOf "Number", id := .other }, value := .unset }
        [65] markerG =
      markerG :: (toLE32 1 ++ [65] ++ (toLE32 4 ++ bytesOf "Gain") ++
        (toLE32 6 ++ bytesOf "Number")) := by
  decide

/-! ## End to end -/

set_option maxRecDepth 100000 in
/-- C14. End-to-end scenario: the extractor run on the source scene (document
`RizomUV = 7`, mesh node `Island_01` with `RizomUVUVSets = "setA"` and the array
`[3, 3, 3, 7]`) writes a container; the injector run on that container and a
target scene with a mesh node `Island_01` exits with code 0 and exports a scene
whose document has the integer property `RizomUV = 7`, whose node `Island_01` has
the string property `RizomUVUVSets = "setA"` and whose layer 0 carries a
per-polygon user-data element with the direct array `[3, 3, 3, 7]`. -/
theorem end_to_end_scenario (alloc : Allocator) :
    ∃ container out document mesh userData,
      Extractor.main 3 (some scenarioSource) true = (0, some container) ∧
      Injector.main alloc 4 (some scenarioTarget) (some container) true true =
        some { exitCode := 0, exported := some out } ∧
      out.rootDocument = some document ∧
      { parent := [], name := bytesOf "RizomUV", dataType := FbxIntDT, value := .int 7 }
        ∈ document.properties ∧
      out.nodes = [{ name := bytesOf "Island_01", nodeAttribute := some (.mesh mesh) }] ∧
      { parent := [], name := bytesOf "RizomUVUVSets", dataType := FbxStringDT,
        value := .str (bytesOf "setA") } ∈ mesh.properties ∧
      (mesh.layers.get? 0).bind (fun l => l.userData) = some userData ∧
      userData.mappingMode = MappingMode.eByPolygon ∧
      userData.referenceMode = ReferenceMode.eDirect ∧
      userData.directArrays = [[3, 3, 3, 7]] := by
  refine ⟨_, _, _, _, _, rfl, rfl, rfl, ?_, rfl, ?_, rfl, rfl, rfl, rfl⟩
  · decide
  · decide

/-! ## Order of the document records -/

theorem FindProperty_some (ps : List FbxProperty) (n : List Nat) (p : FbxProperty)
    (h : FindProperty ps n = some p) : p.path = [n] := by
  have h1 := List.find?_some h
  have h2 := of_decide_eq_true h1
  simp [FbxProperty.path, h2.1, h2.2]

theorem Find_some (ps : List FbxProperty) (q : FbxProperty) (n : List Nat) (p : FbxProperty)
    (h : FbxProperty.Find ps q n = some p) : p.path = q.path ++ [n] := by
  have h1 := List.find?_some h
  have h2 := of_decide_eq_true h1
  simp [FbxProperty.path, h2.1, h2.2]

/-- C19. Parent before child in the output of `ExtractDocumentRizomData`: what it
appends is the sequence of records of some document properties whose paths, in
the order written, are one of the nine sequences listed: `Scene` and `UVSets`
occur only after `RizomUV`, `UVMap` only after `UVSets`, `RootGroup` only after
`UVMap`, each child below the path of its parent. -/
theorem parent_before_child (scene : FbxScene) (out : List Nat) :
    ∃ rs : List FbxProperty,
      ExtractDocumentRizomData scene out =
        writeRecords out (rs.map (Record.documentProperty (bytesOf "FbxDocument"))) ∧
      rs.map (fun p => p.path) ∈
        [[],
         [[bytesOf "RizomUV"]],
         [[bytesOf "RizomUV"], [bytesOf "RizomUV", bytesOf "Scene"]],
         [[bytesOf "RizomUV"], [bytesOf "RizomUV", bytesOf "UVSets"]],
         [[bytesOf "RizomUV"], [bytesOf "RizomUV", bytesOf "Scene"],
          [bytesOf "RizomUV", bytesOf "UVSets"]],
         [[bytesOf "RizomUV"], [bytesOf "RizomUV", bytesOf "UVSets"],
          [bytesOf "RizomUV", bytesOf "UVSets", bytesOf "UVMap"]],
         [[bytesOf "RizomUV"], [bytesOf "RizomUV", bytesOf "Scene"],
          [bytesOf "RizomUV", bytesOf "UVSets"],
          [bytesOf "RizomUV", bytesOf "UVSets", bytesOf "UVMap"]],
         [[bytesOf "RizomUV"], [bytesOf "RizomUV", bytesOf "UVSets"],
          [bytesOf "RizomUV", bytesOf "UVSets", bytesOf "UVMap"],
          [bytesOf "RizomUV", bytesOf "UVSets", bytesOf "UVMap", bytesOf "RootGroup"]],
         [[bytesOf "RizomUV"], [bytesOf "RizomUV", bytesOf "Scene"],
          [bytesOf "RizomUV", bytesOf "UVSets"],
          [bytesOf "RizomUV", bytesOf "UVSets", bytesOf "UVMap"],
          [bytesOf "RizomUV", bytesOf "UVSets", bytesOf "UVMap", bytesOf "RootGroup"]]] := by
  unfold ExtractDocumentRizomData
  cases hd : scene.rootDocument with
  | none => exact ⟨[], rfl, by simp⟩
  | some d =>
    simp only []
    cases h1 : FindProperty d.properties (bytesOf "RizomUV") with
    | none => exact ⟨[], rfl, by simp⟩
    | some r =>
      have p1 := FindProperty_some _ _ _ h1
      simp only []
      cases h2 : FbxProperty.Find d.properties r (bytesOf "Scene") with
      | none =>
        cases h3 : FbxProperty.Find d.properties r (bytesOf "UVSets") with
        | none => exact ⟨[r], rfl, by simp [p1]⟩
        | some u =>
          have p3 := Find_some _ _ _ _ h3
          rw [p1] at p3
          simp only []
          cases h4 : FbxProperty.Find d.properties u (bytesOf "UVMap") with
          | none => exact ⟨[r, u], rfl, by simp [p1, p3]⟩
          | some m =>
            have p4 := Find_some _ _ _ _ h4
            rw [p3] at p4
            simp only []
            cases h5 : FbxProperty.Find d.properties m (bytesOf "RootGroup") with
            | none => exact ⟨[r, u, m], rfl, by simp [p1, p3, p4]⟩
            | some g =>
              have p5 := Find_some _ _ _ _ h5
              rw [p4] at p5
              exact ⟨[r, u, m, g], rfl, by simp [p1, p3, p4, p5]⟩
      | some sc =>
        have p2 := Find_some _ _ _ _ h2
        rw [p1] at p2
        cases h3 : FbxProperty.Find d.properties r (bytesOf "UVSets") with
        | none => exact ⟨[r, sc], rfl, by simp [p1, p2]⟩
        | some u =>
          have p3 := Find_some _ _ _ _ h3
          rw [p1] at p3
          simp only []
          cases h4 : FbxProperty.Find d.properties u (bytesOf "UVMap") with
          | none => exact ⟨[r, sc, u], rfl, by simp [p1, p2, p3]⟩
          | some m =>
            have p4 := Find_some _ _ _ _ h4
            rw [p3] at p4
            simp only []
            cases h5 : FbxProperty.Find d.properties m (bytesOf "RootGroup") with
            | none => exact ⟨[r, sc, u, m], rfl, by simp [p1, p2, p3, p4]⟩
            | some g =>
              have p5 := Find_some _ _ _ _ h5
              rw [p4] at p5
              exact ⟨[r, sc, u, m, g], rfl, by simp [p1, p2, p3, p4, p5]⟩

/-! ## Find-or-create and set -/

theorem Create_handle (ps : List FbxProperty) (pp : List (List Nat)) (dt : FbxDataType)
    (n : List Nat) : (FbxProperty.Create ps (some pp) dt n).2 = some (pp ++ [n]) := by
  unfold FbxProperty.Create
  simp only []
  split <;> rfl

theorem Create_exists (ps : List FbxProperty) (pp : List (List Nat)) (dt : FbxDataType)
    (n : List Nat) : ∃ p ∈ (FbxProperty.Create ps (some pp) dt n).1, p.path = pp ++ [n] := by
  unfold FbxProperty.Create
  simp only []
  split
  · rename_i h
    obtain ⟨p, hp, hq⟩ := List.any_eq_true.mp h
    exact ⟨p, hp, of_decide_eq_true hq⟩
  · exact ⟨_, List.mem_append_right _ (List.mem_singleton_self _), rfl⟩

theorem Create_other (ps : List FbxProperty) (pp : List (List Nat)) (dt : FbxDataType)
    (n : List Nat) (q : FbxProperty) (hq : q.path ≠ pp ++ [n]) :
    q ∈ (FbxProperty.Create ps (some pp) dt n).1 ↔ q ∈ ps := by
  unfold FbxProperty.Create
  simp only []
  split
  · rfl
  · simp only [List.mem_append, List.mem_singleton]
    constructor
    · rintro (h | h)
      · exact h
      · exact absurd (by rw [h]; rfl) hq
    · exact Or.inl

theorem Create_new (ps : List FbxProperty) (pp : List (List Nat)) (dt : FbxDataType)
    (n : List Nat) (q : FbxProperty) (hq : q ∈ (FbxProperty.Create ps (some pp) dt n).1) :
    q ∈ ps ∨ q.value = .unset := by
  unfold FbxProperty.Create at hq
  simp only [] at hq
  split at hq
  · exact Or.inl hq
  · rcases List.mem_append.mp hq with h | h
    · exact Or.inl h
    · right
      rw [List.mem_singleton.mp h]

theorem Set_value (ps : List FbxProperty) (path : List (List Nat)) (v : FbxValue)
    (q : FbxProperty) (hq : q ∈ FbxProperty.Set ps (some path) v) (hp : q.path = path) :
    q.value = v := by
  unfold FbxProperty.Set at hq
  obtain ⟨p, _, rfl⟩ := List.mem_map.mp hq
  by_cases h : p.path = path
  · simp [h]
  · rw [if_neg h] at hp
    exact absurd hp h

theorem Set_other (ps : List FbxProperty) (path : List (List Nat)) (v : FbxValue)
    (q : FbxProperty) (hq : q.path ≠ path) :
    q ∈ FbxProperty.Set ps (some path) v ↔ q ∈ ps := by
  unfold FbxProperty.Set
  simp only [List.mem_map]
  constructor
  · rintro ⟨p, hp, rfl⟩
    by_cases h : p.path = path
    · rw [if_pos h] at hq
      exact absurd h hq
    · rw [if_neg h]
      exact hp
  · intro h
    exact ⟨q, h, by rw [if_neg hq]⟩

theorem Set_exists (ps : List FbxProperty) (path : List (List Nat)) (v : FbxValue)
    (h : ∃ p ∈ ps, p.path = path) :
    ∃ p ∈ FbxProperty.Set ps (some path) v, p.path = path ∧ p.value = v := by
  obtain ⟨p, hp, hpath⟩ := h
  refine ⟨{ p with value := v }, ?_, hpath, rfl⟩
  unfold FbxProperty.Set
  exact List.mem_map.mpr ⟨p, hp, by rw [if_pos hpath]⟩

/-- The handle of a level under a valid parent. -/
theorem createAndSet_handle (ps : List FbxProperty) (pp : List (List Nat)) (dt : FbxDataType)
    (n : List Nat) (value : Option FbxValue) :
    (createAndSet ps (some pp) dt n value).2 = some (pp ++ [n]) := by
  unfold createAndSet
  cases value with
  | none => exact Create_handle ps pp dt n
  | some v =>
    simp only [Create_handle, Option.isSome_some, if_true]

/-- After a level the property exists at its path. -/
theorem createAndSet_exists (ps : List FbxProperty) (pp : List (List Nat)) (dt : FbxDataType)
    (n : List Nat) (value : Option FbxValue) :
    ∃ p ∈ (createAndSet ps (some pp) dt n value).1, p.path = pp ++ [n] := by
  unfold createAndSet
  cases value with
  | none => exact Create_exists ps pp dt n
  | some v =>
    simp only [Create_handle, Option.isSome_some, if_true]
    obtain ⟨p, hp, h1, _⟩ := Set_exists _ _ v (Create_exists ps pp dt n)
    exact ⟨p, hp, h1⟩

/-- A level touches no property at another path. -/
theorem createAndSet_other (ps : List FbxProperty) (pp : List (List Nat)) (dt : FbxDataType)
    (n : List Nat) (value : Option FbxValue) (q : FbxProperty) (hq : q.path ≠ pp ++ [n]) :
    q ∈ (createAndSet ps (some pp) dt n value).1 ↔ q ∈ ps := by
  unfold createAndSet
  cases value with
  | none => exact Create_other ps pp dt n q hq
  | some v =>
    simp only [Create_handle, Option.isSome_some, if_true]
    rw [Set_other _ _ _ _ hq, Create_other ps pp dt n q hq]

/-- A level with a value leaves that value on the property at its path. -/
theorem createAndSet_value (ps : List FbxProperty) (pp : List (List Nat)) (dt : FbxDataType)
    (n : List Nat) (v : FbxValue) (q : FbxProperty)
    (hq : q ∈ (createAndSet ps (some pp) dt n (some v)).1) (hp : q.path = pp ++ [n]) :
    q.value = v := by
  unfold createAndSet at hq
  simp only [Create_handle, Option.isSome_some, if_true] at hq
  exact Set_value _ _ _ _ hq hp

/-- A level without a value leaves the property at its path as it was, or creates
it without a value. -/
theorem createAndSet_unset (ps : List FbxProperty) (pp : List (List Nat)) (dt : FbxDataType)
    (n : List Nat) (q : FbxProperty)
    (hq : q ∈ (createAndSet ps (some pp) dt n none).1) : q ∈ ps ∨ q.value = .unset := by
  unfold createAndSet at hq
  exact Create_new ps pp dt n q hq

/-! ## The two mesh properties -/

theorem injectRizomUV_present (mesh : FbxMesh) (g : GeometryData) (v : List Nat × List Nat)
    (hv : mapFind g.properties (bytesOf "RizomUV") = some v) (h4 : 4 ≤ v.2.length) :
    injectRizomUV mesh g =
      some { mesh with properties :=
        (createAndSet mesh.properties (some []) FbxIntDT (bytesOf "RizomUV")
          (some (.int (u32ToInt (fromLE32 (v.2.take 4)))))).1 } := by
  have hc : mapCount g.properties (bytesOf "RizomUV") > 0 := (mapCount_pos_iff _ _).mpr ⟨v, hv⟩
  have hr : reinterpretInt v.2 = some (u32ToInt (fromLE32 (v.2.take 4))) := by
    simp [reinterpretInt]; omega
  unfold injectRizomUV createAndSet
  simp only [hc, if_true, mapAt_of_mapFind _ _ _ hv, hr, Create_handle, Option.isSome_some,
    Option.map_some']

theorem injectRizomUV_absent (mesh : FbxMesh) (g : GeometryData)
    (hv : mapFind g.properties (bytesOf "RizomUV") = none) : injectRizomUV mesh g = some mesh := by
  have hc : mapCount g.properties (bytesOf "RizomUV") = 0 := (mapCount_zero_iff _ _).mpr hv
  simp [injectRizomUV, hc]

theorem injectRizomUVUVSets_present (mesh : FbxMesh) (g : GeometryData)
    (v : List Nat × List Nat)
    (hv : mapFind g.properties (bytesOf "RizomUVUVSets") = some v) :
    injectRizomUVUVSets mesh g =
      { mesh with properties :=
        (createAndSet mesh.properties (some []) FbxStringDT (bytesOf "RizomUVUVSets")
          (some (.str v.2))).1 } := by
  have hc : mapCount g.properties (bytesOf "RizomUVUVSets") > 0 :=
    (mapCount_pos_iff _ _).mpr ⟨v, hv⟩
  unfold injectRizomUVUVSets createAndSet
  simp only [hc, if_true, mapAt_of_mapFind _ _ _ hv, Create_handle, Option.isSome_some]

theorem injectRizomUVUVSets_absent (mesh : FbxMesh) (g : GeometryData)
    (hv : mapFind g.properties (bytesOf "RizomUVUVSets") = none) :
    injectRizomUVUVSets mesh g = mesh := by
  have hc : mapCount g.properties (bytesOf "RizomUVUVSets") = 0 :=
    (mapCount_zero_iff _ _).mpr hv
  simp [injectRizomUVUVSets, hc]

theorem injectIslandGroupIDs_properties (mesh : FbxMesh) (g : GeometryData) :
    (injectIslandGroupIDs mesh g).properties = mesh.properties := by
  unfold injectIslandGroupIDs
  split
  · simp only [FbxLayerElementUserData.Create]
    split <;> rfl
  · rfl

/-- What Part 1 does to the properties of a mesh, name by name. -/
theorem injectRizomProperties_effect (mesh : FbxMesh) (g : GeometryData)
    (hsafe : ∀ v, mapFind g.properties (bytesOf "RizomUV") = some v → 4 ≤ v.2.length) :
    ∃ m, injectRizomProperties mesh g = some m ∧
      (∀ v, mapFind g.properties (bytesOf "RizomUV") = some v →
        ∃ p ∈ m.properties, p.path = [bytesOf "RizomUV"] ∧
          p.value = .int (u32ToInt (fromLE32 (v.2.take 4)))) ∧
      (∀ v, mapFind g.properties (bytesOf "RizomUVUVSets") = some v →
        ∃ p ∈ m.properties, p.path = [bytesOf "RizomUVUVSets"] ∧ p.value = .str v.2) ∧
      (mapFind g.properties (bytesOf "RizomUV") = none →
        ∀ q, q.path = [bytesOf "RizomUV"] → (q ∈ m.properties ↔ q ∈ mesh.properties)) ∧
      (mapFind g.properties (bytesOf "RizomUVUVSets") = none →
        ∀ q, q.path = [bytesOf "RizomUVUVSets"] → (q ∈ m.properties ↔ q ∈ mesh.properties)) ∧
      (∀ q, q.path ≠ [bytesOf "RizomUV"] → q.path ≠ [bytesOf "RizomUVUVSets"] →
        (q ∈ m.properties ↔ q ∈ mesh.properties)) := by
  have hne : [bytesOf "RizomUV"] ≠ ([] : List (List Nat)) ++ [bytesOf "RizomUVUVSets"] := by
    decide
  -- the first statement
  have h1 : ∃ m1, injectRizomUV mesh g = some m1 ∧
      (∀ v, mapFind g.properties (bytesOf "RizomUV") = some v →
        ∃ p ∈ m1.properties, p.path = [bytesOf "RizomUV"] ∧
          p.value = .int (u32ToInt (fromLE32 (v.2.take 4)))) ∧
      (mapFind g.properties (bytesOf "RizomUV") = none → m1 = mesh) ∧
      (∀ q, q.path ≠ [bytesOf "RizomUV"] → (q ∈ m1.properties ↔ q ∈ mesh.properties)) := by
    cases hv : mapFind g.properties (bytesOf "RizomUV") with
    | none =>
      exact ⟨mesh, injectRizomUV_absent mesh g hv, fun v h => (by cases h), fun _ => rfl,
        fun q _ => Iff.rfl⟩
    | some v =>
      refine ⟨_, injectRizomUV_present mesh g v hv (hsafe v hv), ?_, fun h => (by cases h), ?_⟩
      · intro w hw
        cases hw
        obtain ⟨p, hp, hpath⟩ := createAndSet_exists mesh.properties [] FbxIntDT
          (bytesOf "RizomUV") (some (.int (u32ToInt (fromLE32 (v.2.take 4)))))
        exact ⟨p, hp, hpath, createAndSet_value _ _ _ _ _ p hp hpath⟩
      · intro q hq
        exact createAndSet_other _ _ _ _ _ q hq
  obtain ⟨m1, e1, a1, b1, c1⟩ := h1
  -- the second statement
  have h2 : (∀ v, mapFind g.properties (bytesOf "RizomUVUVSets") = some v →
        ∃ p ∈ (injectRizomUVUVSets m1 g).properties, p.path = [bytesOf "RizomUVUVSets"] ∧
          p.value = .str v.2) ∧
      (mapFind g.properties (bytesOf "RizomUVUVSets") = none →
        injectRizomUVUVSets m1 g = m1) ∧
      (∀ q, q.path ≠ [bytesOf "RizomUVUVSets"] →
        (q ∈ (injectRizomUVUVSets m1 g).properties ↔ q ∈ m1.properties)) := by
    cases hv : mapFind g.properties (bytesOf "RizomUVUVSets") with
    | none =>
      rw [injectRizomUVUVSets_absent m1 g hv]
      exact ⟨fun v h => (by cases h), fun _ => rfl, fun q _ => Iff.rfl⟩
    | some v =>
      rw [injectRizomUVUVSets_present m1 g v hv]
      refine ⟨?_, fun h => (by cases h), ?_⟩
      · intro w hw
        cases hw
        obtain ⟨p, hp, hpath⟩ := createAndSet_exists m1.properties [] FbxStringDT
          (bytesOf "RizomUVUVSets") (some (.str v.2))
        exact ⟨p, hp, hpath, createAndSet_value _ _ _ _ _ p hp hpath⟩
      · intro q hq
        exact createAndSet_other _ _ _ _ _ q hq
  obtain ⟨a2, b2, c2⟩ := h2
  refine ⟨injectRizomUVUVSets m1 g, by simp [injectRizomProperties, e1], ?_, a2, ?_, ?_, ?_⟩
  · intro v hv
    obtain ⟨p, hp, hpath, hval⟩ := a1 v hv
    exact ⟨p, (c2 p (by rw [hpath]; exact hne)).mpr hp, hpath, hval⟩
  · intro hv q hq
    rw [c2 q (by rw [hq]; exact hne), b1 hv]
  · intro hv q hq
    rw [b2 hv]
    exact c1 q (by rw [hq]; exact fun h => hne h.symm)
  · intro q hq1 hq2
    rw [c2 q hq2, c1 q hq1]

/-- C15, as the code has it. For a matched target mesh (whose `RizomUV` value, if
the entry has one, holds the four bytes that are read) the loop body re-creates
exactly the two properties it names: `RizomUV`, with the integer read from the
recorded bytes, when that name is in the entry, and `RizomUVUVSets`, with the
recorded bytes as a string, when that name is in the entry, each independently of
the other. A name that is lacking, and every property of another name on the
mesh, is left as it was: no other name of the entry is re-created. -/
theorem geometry_properties_recreated (geo : StdMap GeometryData) (node : FbxNode)
    (mesh : FbxMesh) (hattr : node.nodeAttribute = some (.mesh mesh)) (g : GeometryData)
    (hmatch : matchGeometryData geo (cstr node.name) (cstr mesh.name) = some g)
    (hsafe : ∀ v, mapFind g.properties (bytesOf "RizomUV") = some v → 4 ≤ v.2.length) :
    ∃ mesh2, injectNode geo node = some { node with nodeAttribute := some (.mesh mesh2) } ∧
      (∀ v, mapFind g.properties (bytesOf "RizomUV") = some v →
        ∃ p ∈ mesh2.properties, p.path = [bytesOf "RizomUV"] ∧
          p.value = .int (u32ToInt (fromLE32 (v.2.take 4)))) ∧
      (∀ v, mapFind g.properties (bytesOf "RizomUVUVSets") = some v →
        ∃ p ∈ mesh2.properties, p.path = [bytesOf "RizomUVUVSets"] ∧ p.value = .str v.2) ∧
      (mapFind g.properties (bytesOf "RizomUV") = none →
        ∀ q, q.path = [bytesOf "RizomUV"] → (q ∈ mesh2.properties ↔ q ∈ mesh.properties)) ∧
      (mapFind g.properties (bytesOf "RizomUVUVSets") = none →
        ∀ q, q.path = [bytesOf "RizomUVUVSets"] →
          (q ∈ mesh2.properties ↔ q ∈ mesh.properties)) ∧
      (∀ q, q.path ≠ [bytesOf "RizomUV"] → q.path ≠ [bytesOf "RizomUVUVSets"] →
        (q ∈ mesh2.properties ↔ q ∈ mesh.properties)) := by
  obtain ⟨m, e, h1, h2, h3, h4, h5⟩ := injectRizomProperties_effect mesh g hsafe
  refine ⟨injectIslandGroupIDs m g, ?_, ?_, ?_, ?_, ?_, ?_⟩
  · rw [injectNode_matched geo node mesh hattr g hmatch, e]
    rfl
  all_goals rw [injectIslandGroupIDs_properties]
  · exact h1
  · exact h2
  · exact h3
  · exact h4
  · exact h5

/-! ## The document chain -/

theorem Create_eq (ps : List FbxProperty) (pp : List (List Nat)) (dt : FbxDataType)
    (n : List Nat) :
    FbxProperty.Create ps (some pp) dt n =
      ((FbxProperty.Create ps (some pp) dt n).1, some (pp ++ [n])) := by
  rw [← Create_handle ps pp dt n]

theorem level_eq (ps : List FbxProperty) (pp : List (List Nat)) (dt : FbxDataType)
    (n : List Nat) (idx : PropertyMap) (wrap : List Nat → FbxValue) :
    (if (some (pp ++ [n]) : PropHandle).isSome && decide (mapCount idx n > 0) then
        FbxProperty.Set (FbxProperty.Create ps (some pp) dt n).1 (some (pp ++ [n]))
          (wrap (mapAt idx n).2)
      else (FbxProperty.Create ps (some pp) dt n).1) =
      (createAndSet ps (some pp) dt n (recordedValue idx n wrap)).1 := by
  unfold createAndSet recordedValue
  cases hv : mapFind idx n with
  | none =>
    have hc : mapCount idx n = 0 := (mapCount_zero_iff _ _).mpr hv
    simp [hc]
  | some v =>
    have hc : mapCount idx n > 0 := (mapCount_pos_iff _ _).mpr ⟨v, hv⟩
    simp [hc, Create_handle, mapAt_of_mapFind _ _ _ hv]

theorem InjectDocumentRizomData_eq (scene : FbxScene) (d : FbxDocument) (idx : PropertyMap)
    (hd : scene.rootDocument = some d)
    (hsafe : ∀ v, mapFind idx (bytesOf "RizomUV") = some v → 4 ≤ v.2.length) :
    InjectDocumentRizomData scene idx =
      some { scene with
        rootDocument := some
          { name := bytesOf "Scene", properties := documentChain d.properties idx } } := by
  unfold InjectDocumentRizomData
  rw [hd]
  simp only []
  rw [Create_eq]
  simp only [Create_handle, level_eq]
  cases hv : mapFind idx (bytesOf "RizomUV") with
  | none =>
    have hc : mapCount idx (bytesOf "RizomUV") = 0 := (mapCount_zero_iff _ _).mpr hv
    simp only [hc, gt_iff_lt, lt_self_iff_false, decide_False, Bool.and_false,
      Bool.false_eq_true, if_false]
    have e : (FbxProperty.Create d.properties (some []) FbxIntDT (bytesOf "RizomUV")).1 =
        (createAndSet d.properties (some []) FbxIntDT (bytesOf "RizomUV")
          (recordedValue idx (bytesOf "RizomUV")
            (fun data => .int (u32ToInt (fromLE32 (data.take 4)))))).1 := by
      simp [createAndSet, recordedValue, hv]
    rw [e]
    rfl
  | some v =>
    have hc : mapCount idx (bytesOf "RizomUV") > 0 := (mapCount_pos_iff _ _).mpr ⟨v, hv⟩
    have h4 := hsafe v hv
    have hr : reinterpretInt v.2 = some (u32ToInt (fromLE32 (v.2.take 4))) := by
      simp [reinterpretInt]; omega
    simp only [hc, decide_True, Option.isSome_some, Bool.and_self, if_true,
      mapAt_of_mapFind _ _ _ hv, hr, Option.map_some']
    have e : FbxProperty.Set
          (FbxProperty.Create d.properties (some []) FbxIntDT (bytesOf "RizomUV")).1
          (some ([] ++ [bytesOf "RizomUV"])) (.int (u32ToInt (fromLE32 (v.2.take 4)))) =
        (createAndSet d.properties (some []) FbxIntDT (bytesOf "RizomUV")
          (recordedValue idx (bytesOf "RizomUV")
            (fun data => .int (u32ToInt (fromLE32 (data.take 4)))))).1 := by
      simp [createAndSet, recordedValue, hv, Create_handle]
    rw [e]
    rfl

/-- One level with the value recorded for its name: the property exists afterwards,
other paths are untouched, a recorded value is on it, and without a recorded value
it is as before or new without a value. -/
theorem step_spec (ps : List FbxProperty) (pp : List (List Nat)) (dt : FbxDataType)
    (n : List Nat) (idx : PropertyMap) (wrap : List Nat → FbxValue) :
    (∃ p ∈ (createAndSet ps (some pp) dt n (recordedValue idx n wrap)).1, p.path = pp ++ [n]) ∧
    (∀ q, q.path ≠ pp ++ [n] →
      (q ∈ (createAndSet ps (some pp) dt n (recordedValue idx n wrap)).1 ↔ q ∈ ps)) ∧
    (∀ v, mapFind idx n = some v →
      ∀ q ∈ (createAndSet ps (some pp) dt n (recordedValue idx n wrap)).1,
        q.path = pp ++ [n] → q.value = wrap v.2) ∧
    (mapFind idx n = none →
      ∀ q ∈ (createAndSet ps (some pp) dt n (recordedValue idx n wrap)).1,
        q ∈ ps ∨ q.value = .unset) := by
  refine ⟨createAndSet_exists _ _ _ _ _, fun q hq => createAndSet_other _ _ _ _ _ q hq, ?_, ?_⟩
  · intro v hv q hq hp
    have hx : recordedValue idx n wrap = some (wrap v.2) := by simp [recordedValue, hv]
    rw [hx] at hq
    exact createAndSet_value _ _ _ _ _ q hq hp
  · intro hv q hq
    have hx : recordedValue idx n wrap = none := by simp [recordedValue, hv]
    rw [hx] at hq
    exact createAndSet_unset _ _ _ _ q hq

theorem sameAt_of_other (a b : List FbxProperty) (path path2 : List (List Nat))
    (h : ∀ q : FbxProperty, q.path ≠ path2 → (q ∈ a ↔ q ∈ b)) (hne : path ≠ path2)
    (q : FbxProperty) (hq : q.path = path) : q ∈ a ↔ q ∈ b :=
  h q (by rw [hq]; exact hne)

/-- The chain, level by level: every level leaves its property at the path below its
parent; a level whose name is in the index leaves the recorded value on it; a
level whose name is lacking leaves it as it was or creates it without a value;
properties at other paths are untouched. -/
theorem documentChain_spec (ps : List FbxProperty) (idx : PropertyMap) :
    (∀ l ∈ documentLevels,
      (∃ p ∈ documentChain ps idx, p.path = l.2.1 ++ [l.1]) ∧
      (∀ v, mapFind idx l.1 = some v →
        ∀ q ∈ documentChain ps idx, q.path = l.2.1 ++ [l.1] → q.value = l.2.2 v.2) ∧
      (mapFind idx l.1 = none →
        ∀ q ∈ documentChain ps idx, q.path = l.2.1 ++ [l.1] → q ∈ ps ∨ q.value = .unset)) ∧
    (∀ q : FbxProperty, (∀ l ∈ documentLevels, q.path ≠ l.2.1 ++ [l.1]) →
      (q ∈ documentChain ps idx ↔ q ∈ ps)) := by
  obtain ⟨e1, o1, v1, u1⟩ := step_spec ps [] FbxIntDT (bytesOf "RizomUV") idx
    (fun data => .int (u32ToInt (fromLE32 (data.take 4))))
  generalize hps1 : (createAndSet ps (some []) FbxIntDT (bytesOf "RizomUV")
    (recordedValue idx (bytesOf "RizomUV") (fun data => .int (u32ToInt (fromLE32 (data.take 4)))))).1 = ps1 at e1 o1 v1 u1
  obtain ⟨e2, o2, v2, u2⟩ := step_spec ps1 [bytesOf "RizomUV"] FbxBlobDT (bytesOf "Scene") idx
    FbxValue.blob
  generalize hps2 : (createAndSet ps1 (some [bytesOf "RizomUV"]) FbxBlobDT (bytesOf "Scene")
    (recordedValue idx (bytesOf "Scene") FbxValue.blob)).1 = ps2 at e2 o2 v2 u2
  obtain ⟨e3, o3, v3, u3⟩ := step_spec ps2 [bytesOf "RizomUV"] FbxStringDT (bytesOf "UVSets") idx
    FbxValue.str
  generalize hps3 : (createAndSet ps2 (some [bytesOf "RizomUV"]) FbxStringDT (bytesOf "UVSets")
    (recordedValue idx (bytesOf "UVSets") FbxValue.str)).1 = ps3 at e3 o3 v3 u3
  obtain ⟨e4, o4, v4, u4⟩ := step_spec ps3 [bytesOf "RizomUV", bytesOf "UVSets"] FbxStringDT (bytesOf "UVMap") idx
    FbxValue.str
  generalize hps4 : (createAndSet ps3 (some [bytesOf "RizomUV", bytesOf "UVSets"]) FbxStringDT (bytesOf "UVMap")
    (recordedValue idx (bytesOf "UVMap") FbxValue.str)).1 = ps4 at e4 o4 v4 u4
  obtain ⟨e5, o5, v5, u5⟩ := step_spec ps4 [bytesOf "RizomUV", bytesOf "UVSets", bytesOf "UVMap"] FbxBlobDT (bytesOf "RootGroup") idx
    FbxValue.blob
  generalize hps5 : (createAndSet ps4 (some [bytesOf "RizomUV", bytesOf "UVSets", bytesOf "UVMap"]) FbxBlobDT (bytesOf "RootGroup")
    (recordedValue idx (bytesOf "RootGroup") FbxValue.blob)).1 = ps5 at e5 o5 v5 u5
  have hchain : documentChain ps idx = ps5 := by
    unfold documentChain
    simp only []
    rw [hps1, hps2, hps3, hps4, hps5]
  rw [hchain]
  constructor
  · intro l hl
    simp only [documentLevels, List.mem_cons, List.mem_singleton, List.not_mem_nil,
      or_false] at hl
    rcases hl with rfl | rfl | rfl | rfl | rfl
    · have down : ∀ q : FbxProperty, q.path = [bytesOf "RizomUV"] → (q ∈ ps5 ↔ q ∈ ps1) := by
        intro q hq
        exact (((sameAt_of_other ps5 ps4 _ _ o5 (by decide) q hq).trans (sameAt_of_other ps4 ps3 _ _ o4 (by decide) q hq)).trans (sameAt_of_other ps3 ps2 _ _ o3 (by decide) q hq)).trans (sameAt_of_other ps2 ps1 _ _ o2 (by decide) q hq)
      have up : ∀ q : FbxProperty, q.path = [bytesOf "RizomUV"] → (q ∈ ps ↔ q ∈ ps) := by
        intro q hq
        exact Iff.rfl
      refine ⟨?_, ?_, ?_⟩
      · obtain ⟨p, hp, hpath⟩ := e1
        exact ⟨p, (down p hpath).mpr hp, hpath⟩
      · intro v hv q hq hpath
        exact v1 v hv q ((down q hpath).mp hq) hpath
      · intro hv q hq hpath
        rcases u1 hv q ((down q hpath).mp hq) with h | h
        · exact Or.inl ((up q hpath).mp h)
        · exact Or.inr h
    · have down : ∀ q : FbxProperty, q.path = [bytesOf "RizomUV", bytesOf "Scene"] → (q ∈ ps5 ↔ q ∈ ps2) := by
        intro q hq
        exact ((sameAt_of_other ps5 ps4 _ _ o5 (by decide) q hq).trans (sameAt_of_other ps4 ps3 _ _ o4 (by decide) q hq)).trans (sameAt_of_other ps3 ps2 _ _ o3 (by decide) q hq)
      have up : ∀ q : FbxProperty, q.path = [bytesOf "RizomUV", bytesOf "Scene"] → (q ∈ ps1 ↔ q ∈ ps) := by
        intro q hq
        exact sameAt_of_other ps1 ps _ _ o1 (by decide) q hq
      refine ⟨?_, ?_, ?_⟩
      · obtain ⟨p, hp, hpath⟩ := e2
        exact ⟨p, (down p hpath).mpr hp, hpath⟩
      · intro v hv q hq hpath
        exact v2 v hv q ((down q hpath).mp hq) hpath
      · intro hv q hq hpath
        rcases u2 hv q ((down q hpath).mp hq) with h | h
        · exact Or.inl ((up q hpath).mp h)
        · exact Or.inr h
    · have down : ∀ q : FbxProperty, q.path = [bytesOf "RizomUV", bytesOf "UVSets"] → (q ∈ ps5 ↔ q ∈ ps3) := by
        intro q hq
        exact (sameAt_of_other ps5 ps4 _ _ o5 (by decide) q hq).trans (sameAt_of_other ps4 ps3 _ _ o4 (by decide) q hq)
      have up : ∀ q : FbxProperty, q.path = [bytesOf "RizomUV", bytesOf "UVSets"] → (q ∈ ps2 ↔ q ∈ ps) := by
        intro q hq
        exact (sameAt_of_other ps2 ps1 _ _ o2 (by decide) q hq).trans (sameAt_of_other ps1 ps _ _ o1 (by decide) q hq)
      refine ⟨?_, ?_, ?_⟩
      · obtain ⟨p, hp, hpath⟩ := e3
        exact ⟨p, (down p hpath).mpr hp, hpath⟩
      · intro v hv q hq hpath
        exact v3 v hv q ((down q hpath).mp hq) hpath
      · intro hv q hq hpath
        rcases u3 hv q ((down q hpath).mp hq) with h | h
        · exact Or.inl ((up q hpath).mp h)
        · exact Or.inr h
    · have down : ∀ q : FbxProperty, q.path = [bytesOf "RizomUV", bytesOf "UVSets", bytesOf "UVMap"] → (q ∈ ps5 ↔ q ∈ ps4) := by
        intro q hq
        exact sameAt_of_other ps5 ps4 _ _ o5 (by decide) q hq
      have up : ∀ q : FbxProperty, q.path = [bytesOf "RizomUV", bytesOf "UVSets", bytesOf "UVMap"] → (q ∈ ps3 ↔ q ∈ ps) := by
        intro q hq
        exact ((sameAt_of_other ps3 ps2 _ _ o3 (by decide) q hq).trans (sameAt_of_other ps2 ps1 _ _ o2 (by decide) q hq)).trans (sameAt_of_other ps1 ps _ _ o1 (by decide) q hq)
      refine ⟨?_, ?_, ?_⟩
      · obtain ⟨p, hp, hpath⟩ := e4
        exact ⟨p, (down p hpath).mpr hp, hpath⟩
      · intro v hv q hq hpath
        exact v4 v hv q ((down q hpath).mp hq) hpath
      · intro hv q hq hpath
        rcases u4 hv q ((down q hpath).mp hq) with h | h
        · exact Or.inl ((up q hpath).mp h)
        · exact Or.inr h
    · have down : ∀ q : FbxProperty, q.path = [bytesOf "RizomUV", bytesOf "UVSets", bytesOf "UVMap", bytesOf "RootGroup"] → (q ∈ ps5 ↔ q ∈ ps5) := by
        intro q hq
        exact Iff.rfl
      have up : ∀ q : FbxProperty, q.path = [bytesOf "RizomUV", bytesOf "UVSets", bytesOf "UVMap", bytesOf "RootGroup"] → (q ∈ ps4 ↔ q ∈ ps) := by
        intro q hq
        exact (((sameAt_of_other ps4 ps3 _ _ o4 (by decide) q hq).trans (sameAt_of_other ps3 ps2 _ _ o3 (by decide) q hq)).trans (sameAt_of_other ps2 ps1 _ _ o2 (by decide) q hq)).trans (sameAt_of_other ps1 ps _ _ o1 (by decide) q hq)
      refine ⟨?_, ?_, ?_⟩
      · obtain ⟨p, hp, hpath⟩ := e5
        exact ⟨p, (down p hpath).mpr hp, hpath⟩
      · intro v hv q hq hpath
        exact v5 v hv q ((down q hpath).mp hq) hpath
      · intro hv q hq hpath
        rcases u5 hv q ((down q hpath).mp hq) with h | h
        · exact Or.inl ((up q hpath).mp h)
        · exact Or.inr h
  · intro q hq
    have h1 := hq _ (List.mem_cons_self _ _)
    have h2 := hq _ (List.mem_cons_of_mem _ (List.mem_cons_self _ _))
    have h3 := hq _ (List.mem_cons_of_mem _ (List.mem_cons_of_mem _ (List.mem_cons_self _ _)))
    have h4 := hq _ (List.mem_cons_of_mem _ (List.mem_cons_of_mem _
      (List.mem_cons_of_mem _ (List.mem_cons_self _ _))))
    have h5 := hq _ (List.mem_cons_of_mem _ (List.mem_cons_of_mem _
      (List.mem_cons_of_mem _ (List.mem_cons_of_mem _ (List.mem_cons_self _ _)))))
    exact (o5 q h5).trans ((o4 q h4).trans ((o3 q h3).trans ((o2 q h2).trans (o1 q h1))))

/-- Witness of C15 as amended: the entry holds `Foo`, `RizomUV` and `RizomUVUVSets`. -/
theorem geometry_properties_recreated_witness :
    ∃ mesh2, injectNode [([65], threePropertyEntry)] (plainMeshNode [65] [66]) =
        some { plainMeshNode [65] [66] with nodeAttribute := some (.mesh mesh2) } ∧
      (∃ p ∈ mesh2.properties, p.path = [bytesOf "RizomUV"] ∧ p.value = .int 7) ∧
      (∃ p ∈ mesh2.properties, p.path = [bytesOf "RizomUVUVSets"] ∧
        p.value = .str (bytesOf "setA")) := by
  obtain ⟨mesh2, h, h1, h2, _⟩ := geometry_properties_recreated [([65], threePropertyEntry)]
    (plainMeshNode [65] [66]) { name := [66], properties := [], layers := [] } rfl
    threePropertyEntry rfl
    (fun v hv => by
      have h : some (bytesOf "Integer", [7, 0, 0, 0]) = some v := hv
      cases h
      decide)
  exact ⟨mesh2, h, h1 (bytesOf "Integer", [7, 0, 0, 0]) rfl,
    h2 (bytesOf "KString", bytesOf "setA") rfl⟩

/-- C15, counterexample. The matched entry holds a property `Foo`, and after the
loop body the target mesh has the two properties the code names and no property `Foo`. -/
theorem geometry_properties_recreated_counterexample :
    mapFind threePropertyEntry.properties (bytesOf "Foo") = some (bytesOf "Blob", [1]) ∧
    ∃ mesh2, injectNode [([65], threePropertyEntry)] (plainMeshNode [65] [66]) =
        some { plainMeshNode [65] [66] with nodeAttribute := some (.mesh mesh2) } ∧
      mesh2.properties.map (fun p => p.name) = [bytesOf "RizomUV", bytesOf "RizomUVUVSets"] ∧
      ∀ p ∈ mesh2.properties, p.name ≠ bytesOf "Foo" := by
  refine ⟨rfl, _, rfl, rfl, ?_⟩
  decide

theorem path_eq (p : FbxProperty) (pp : List (List Nat)) (n : List Nat)
    (h : p.path = pp ++ [n]) : p.name = n ∧ p.parent = pp := by
  unfold FbxProperty.path at h
  have h2 := List.append_inj' h rfl
  exact ⟨by simpa using h2.2, h2.1⟩

/-- Setting a value moves no property. -/
theorem Set_paths (ps : List FbxProperty) (h : PropHandle) (v : FbxValue) :
    (FbxProperty.Set ps h v).map FbxProperty.path = ps.map FbxProperty.path := by
  cases h with
  | none => rfl
  | some path =>
    unfold FbxProperty.Set
    rw [List.map_map]
    apply List.map_congr_left
    intro p _
    simp only [Function.comp]
    split <;> rfl

/-- A level appends its property to the properties of the object when no property
is at its path, and otherwise leaves the paths as they are. -/
theorem createAndSet_paths (ps : List FbxProperty) (pp : List (List Nat)) (dt : FbxDataType)
    (n : List Nat) (value : Option FbxValue) :
    (createAndSet ps (some pp) dt n value).1.map FbxProperty.path =
      ps.map FbxProperty.path ++
        (if pp ++ [n] ∈ ps.map FbxProperty.path then [] else [pp ++ [n]]) := by
  have hc : (FbxProperty.Create ps (some pp) dt n).1.map FbxProperty.path =
      ps.map FbxProperty.path ++
        (if pp ++ [n] ∈ ps.map FbxProperty.path then [] else [pp ++ [n]]) := by
    unfold FbxProperty.Create
    simp only []
    by_cases h : pp ++ [n] ∈ ps.map FbxProperty.path
    · have ha : ps.any (fun p => decide (p.path = pp ++ [n])) = true := by
        obtain ⟨p, hp, hpath⟩ := List.mem_map.mp h
        exact List.any_eq_true.mpr ⟨p, hp, decide_eq_true hpath⟩
      rw [if_pos ha, if_pos h, List.append_nil]
    · have ha : ¬ ps.any (fun p => decide (p.path = pp ++ [n])) = true := by
        intro hany
        obtain ⟨p, hp, hpath⟩ := List.any_eq_true.mp hany
        exact h (List.mem_map.mpr ⟨p, hp, of_decide_eq_true hpath⟩)
      rw [if_neg ha, if_neg h, List.map_append]
      rfl
  unfold createAndSet
  cases value with
  | none => exact hc
  | some v =>
    simp only [Create_handle, Option.isSome_some, if_true]
    rw [Set_paths, hc]

/-- The paths of the properties after the five levels: the paths there were, then
the paths of the levels that were lacking, in the order of creation. -/
theorem documentChain_paths (ps : List FbxProperty) (idx : PropertyMap) :
    (documentChain ps idx).map FbxProperty.path =
      ps.map FbxProperty.path ++
        (documentLevels.map (fun l => l.2.1 ++ [l.1])).filter
          (fun path => decide (path ∉ ps.map FbxProperty.path)) := by
  unfold documentChain
  simp only [createAndSet_paths]
  generalize ps.map FbxProperty.path = paths
  have e1 : ([] : List (List Nat)) ++ [bytesOf "RizomUV"] = [bytesOf "RizomUV"] := rfl
  have e2 : [bytesOf "RizomUV"] ++ [bytesOf "Scene"] =
      [bytesOf "RizomUV", bytesOf "Scene"] := rfl
  have e3 : [bytesOf "RizomUV"] ++ [bytesOf "UVSets"] =
      [bytesOf "RizomUV", bytesOf "UVSets"] := rfl
  have e4 : [bytesOf "RizomUV", bytesOf "UVSets"] ++ [bytesOf "UVMap"] =
      [bytesOf "RizomUV", bytesOf "UVSets", bytesOf "UVMap"] := rfl
  have e5 : [bytesOf "RizomUV", bytesOf "UVSets", bytesOf "UVMap"] ++ [bytesOf "RootGroup"] =
      [bytesOf "RizomUV", bytesOf "UVSets", bytesOf "UVMap", bytesOf "RootGroup"] := rfl
  have n12 : [bytesOf "RizomUV", bytesOf "Scene"] ≠ [bytesOf "RizomUV"] := by decide
  have n13 : [bytesOf "RizomUV", bytesOf "UVSets"] ≠ [bytesOf "RizomUV"] := by decide
  have n23 : [bytesOf "RizomUV", bytesOf "UVSets"] ≠ [bytesOf "RizomUV", bytesOf "Scene"] := by
    decide
  have n14 : [bytesOf "RizomUV", bytesOf "UVSets", bytesOf "UVMap"] ≠ [bytesOf "RizomUV"] := by
    decide
  have n24 : [bytesOf "RizomUV", bytesOf "UVSets", bytesOf "UVMap"] ≠
      [bytesOf "RizomUV", bytesOf "Scene"] := by decide
  have n34 : [bytesOf "RizomUV", bytesOf "UVSets", bytesOf "UVMap"] ≠
      [bytesOf "RizomUV", bytesOf "UVSets"] := by decide
  have n15 : [bytesOf "RizomUV", bytesOf "UVSets", bytesOf "UVMap", bytesOf "RootGroup"] ≠
      [bytesOf "RizomUV"] := by decide
  have n25 : [bytesOf "RizomUV", bytesOf "UVSets", bytesOf "UVMap", bytesOf "RootGroup"] ≠
      [bytesOf "RizomUV", bytesOf "Scene"] := by decide
  have n35 : [bytesOf "RizomUV", bytesOf "UVSets", bytesOf "UVMap", bytesOf "RootGroup"] ≠
      [bytesOf "RizomUV", bytesOf "UVSets"] := by decide
  have n45 : [bytesOf "RizomUV", bytesOf "UVSets", bytesOf "UVMap", bytesOf "RootGroup"] ≠
      [bytesOf "RizomUV", bytesOf "UVSets", bytesOf "UVMap"] := by decide
  simp only [documentLevels, List.map, e1, e2, e3, e4, e5]
  by_cases h1 : [bytesOf "RizomUV"] ∈ paths <;>
  by_cases h2 : [bytesOf "RizomUV", bytesOf "Scene"] ∈ paths <;>
  by_cases h3 : [bytesOf "RizomUV", bytesOf "UVSets"] ∈ paths <;>
  by_cases h4 : [bytesOf "RizomUV", bytesOf "UVSets", bytesOf "UVMap"] ∈ paths <;>
  by_cases h5 : [bytesOf "RizomUV", bytesOf "UVSets", bytesOf "UVMap", bytesOf "RootGroup"] ∈
      paths <;>
  simp [h1, h2, h3, h4, h5, n12, n13, n23, n14, n24, n34, n15, n25, n35, n45, List.filter]

/-- C16, as the code has it. Whatever the index holds (provided the `RizomUV` value,
if there is one, has the four bytes that are read), `InjectDocumentRizomData`
leaves on the document the property `RizomUV`, the properties `Scene` and `UVSets`
each as a child of `RizomUV`, `UVMap` as a child of `UVSets` and `RootGroup` as a
child of `UVMap`: each is created under the property that results from its
parent's creation, whether or not the parent received a value, and properties at
other paths are untouched. The five are created in the order `RizomUV`, `Scene`,
`UVSets`, `UVMap`, `RootGroup`: the properties of the document afterwards are at the
paths it had, in their order, followed by the paths of those of the five that it
lacked, in that order. -/
theorem document_chain_parenting (scene : FbxScene) (d : FbxDocument) (idx : PropertyMap)
    (hd : scene.rootDocument = some d)
    (hsafe : ∀ v, mapFind idx (bytesOf "RizomUV") = some v → 4 ≤ v.2.length) :
    ∃ d2, InjectDocumentRizomData scene idx = some { scene with rootDocument := some d2 } ∧
      d2.name = bytesOf "Scene" ∧
      (∃ p ∈ d2.properties, p.name = bytesOf "RizomUV" ∧ p.parent = []) ∧
      (∃ p ∈ d2.properties, p.name = bytesOf "Scene" ∧ p.parent = [bytesOf "RizomUV"]) ∧
      (∃ p ∈ d2.properties, p.name = bytesOf "UVSets" ∧ p.parent = [bytesOf "RizomUV"]) ∧
      (∃ p ∈ d2.properties, p.name = bytesOf "UVMap" ∧ p.parent = [bytesOf "RizomUV", bytesOf "UVSets"]) ∧
      (∃ p ∈ d2.properties, p.name = bytesOf "RootGroup" ∧
        p.parent = [bytesOf "RizomUV", bytesOf "UVSets", bytesOf "UVMap"]) ∧
      (∀ q : FbxProperty, (∀ l ∈ documentLevels, q.path ≠ l.2.1 ++ [l.1]) →
        (q ∈ d2.properties ↔ q ∈ d.properties)) ∧
      d2.properties.map FbxProperty.path =
        d.properties.map FbxProperty.path ++
          ([[bytesOf "RizomUV"],
            [bytesOf "RizomUV", bytesOf "Scene"],
            [bytesOf "RizomUV", bytesOf "UVSets"],
            [bytesOf "RizomUV", bytesOf "UVSets", bytesOf "UVMap"],
            [bytesOf "RizomUV", bytesOf "UVSets", bytesOf "UVMap", bytesOf "RootGroup"]].filter
            (fun path => decide (path ∉ d.properties.map FbxProperty.path))) := by
  obtain ⟨hl, ho⟩ := documentChain_spec d.properties idx
  refine ⟨_, InjectDocumentRizomData_eq scene d idx hd hsafe, rfl, ?_, ?_, ?_, ?_, ?_, ho,
    documentChain_paths d.properties idx⟩
  · obtain ⟨p, hp, hpath⟩ := (hl _ (List.mem_cons_self _ _)).1
    exact ⟨p, hp, path_eq p _ _ hpath⟩
  · obtain ⟨p, hp, hpath⟩ := (hl _ (List.mem_cons_of_mem _ (List.mem_cons_self _ _))).1
    exact ⟨p, hp, path_eq p _ _ hpath⟩
  · obtain ⟨p, hp, hpath⟩ :=
      (hl _ (List.mem_cons_of_mem _ (List.mem_cons_of_mem _ (List.mem_cons_self _ _)))).1
    exact ⟨p, hp, path_eq p _ _ hpath⟩
  · obtain ⟨p, hp, hpath⟩ :=
      (hl _ (List.mem_cons_of_mem _ (List.mem_cons_of_mem _
        (List.mem_cons_of_mem _ (List.mem_cons_self _ _))))).1
    exact ⟨p, hp, path_eq p _ _ hpath⟩
  · obtain ⟨p, hp, hpath⟩ :=
      (hl _ (List.mem_cons_of_mem _ (List.mem_cons_of_mem _
        (List.mem_cons_of_mem _ (List.mem_cons_of_mem _ (List.mem_cons_self _ _)))))).1
    exact ⟨p, hp, path_eq p _ _ hpath⟩

/-- Witness of C16 as amended: the empty target and an index holding only `UVMap`. -/
theorem document_chain_parenting_witness :
    ∃ d2, InjectDocumentRizomData emptyTargetScene [(bytesOf "UVMap", (bytesOf "Scene", [1]))] =
        some { emptyTargetScene with rootDocument := some d2 } ∧
      (∃ p ∈ d2.properties, p.name = bytesOf "UVSets" ∧ p.parent = [bytesOf "RizomUV"]) ∧
      (∃ p ∈ d2.properties, p.name = bytesOf "UVMap" ∧
        p.parent = [bytesOf "RizomUV", bytesOf "UVSets"]) ∧
      d2.properties.map FbxProperty.path =
        [[bytesOf "RizomUV"],
         [bytesOf "RizomUV", bytesOf "Scene"],
         [bytesOf "RizomUV", bytesOf "UVSets"],
         [bytesOf "RizomUV", bytesOf "UVSets", bytesOf "UVMap"],
         [bytesOf "RizomUV", bytesOf "UVSets", bytesOf "UVMap", bytesOf "RootGroup"]] := by
  obtain ⟨d2, h, _, _, _, h3, h4, _, _, h7⟩ := document_chain_parenting emptyTargetScene
    { name := [], properties := [] } [(bytesOf "UVMap", (bytesOf "Scene", [1]))] rfl
    (fun v hv => by cases hv)
  exact ⟨d2, h, h3, h4, h7⟩

/-- C16, counterexample. On the empty target the property `UVSets`, the third in
creation order, is a child of `RizomUV`, not of `Scene`, the property created
immediately before it. -/
theorem document_chain_parenting_counterexample :
    ∃ d2, InjectDocumentRizomData emptyTargetScene [] =
        some { emptyTargetScene with rootDocument := some d2 } ∧
      d2.properties.map (fun p => p.name) = [bytesOf "RizomUV", bytesOf "Scene", bytesOf "UVSets", bytesOf "UVMap", bytesOf "RootGroup"] ∧
      (∃ p ∈ d2.properties, p.name = bytesOf "UVSets" ∧ p.parent = [bytesOf "RizomUV"]) ∧
      (∀ p ∈ d2.properties, p.name = bytesOf "UVSets" → p.parent ≠ [bytesOf "RizomUV", bytesOf "Scene"]) := by
  refine ⟨_, rfl, rfl, ?_, ?_⟩
  · decide
  · decide

/-- C17, as the code has it. Whatever the index holds (provided the `RizomUV` value,
if there is one, has the four bytes that are read), every one of the five levels
is created on the target document: its property exists afterwards at its path.
Only the value depends on the index: a level whose name is a key carries the
recorded bytes as its value; a level whose name is lacking is the property that
was there before, or a new property without a value. -/
theorem document_chain_creation (scene : FbxScene) (d : FbxDocument) (idx : PropertyMap)
    (hd : scene.rootDocument = some d)
    (hsafe : ∀ v, mapFind idx (bytesOf "RizomUV") = some v → 4 ≤ v.2.length) :
    ∃ d2, InjectDocumentRizomData scene idx = some { scene with rootDocument := some d2 } ∧
      ∀ l ∈ documentLevels,
        (∃ p ∈ d2.properties, p.path = l.2.1 ++ [l.1]) ∧
        (∀ v, mapFind idx l.1 = some v →
          ∀ q ∈ d2.properties, q.path = l.2.1 ++ [l.1] → q.value = l.2.2 v.2) ∧
        (mapFind idx l.1 = none →
          ∀ q ∈ d2.properties, q.path = l.2.1 ++ [l.1] →
            q ∈ d.properties ∨ q.value = .unset) :=
  ⟨_, InjectDocumentRizomData_eq scene d idx hd hsafe,
    (documentChain_spec d.properties idx).1⟩

/-- Witness of C17 as amended: the empty target and an index holding only `UVMap`. -/
theorem document_chain_creation_witness :
    ∃ d2, InjectDocumentRizomData emptyTargetScene [(bytesOf "UVMap", (bytesOf "Scene", [1]))] =
        some { emptyTargetScene with rootDocument := some d2 } ∧
      (∃ p ∈ d2.properties, p.path = [bytesOf "RizomUV", bytesOf "UVSets", bytesOf "UVMap"]) ∧
      (∃ p ∈ d2.properties, p.path = [bytesOf "RizomUV", bytesOf "Scene"]) := by
  obtain ⟨d2, h, hl⟩ := document_chain_creation emptyTargetScene
    { name := [], properties := [] } [(bytesOf "UVMap", (bytesOf "Scene", [1]))] rfl
    (fun v hv => by cases hv)
  exact ⟨d2, h,
    (hl _ (List.mem_cons_of_mem _ (List.mem_cons_of_mem _
      (List.mem_cons_of_mem _ (List.mem_cons_self _ _))))).1,
    (hl _ (List.mem_cons_of_mem _ (List.mem_cons_self _ _))).1⟩

/-- C17, counterexample. With an empty index, which lacks all five names, the run on
the empty target creates a property of each of the five names. -/
theorem document_chain_creation_counterexample :
    ∃ d2, InjectDocumentRizomData emptyTargetScene [] =
        some { emptyTargetScene with rootDocument := some d2 } ∧
      ∀ n ∈ [bytesOf "RizomUV", bytesOf "Scene", bytesOf "UVSets", bytesOf "UVMap", bytesOf "RootGroup"],
        mapCount ([] : PropertyMap) n = 0 ∧ ∃ p ∈ d2.properties, p.name = n := by
  refine ⟨_, rfl, ?_⟩
  decide

/-! ## Key order of the maps -/

theorem strLt_irrefl (a : List Nat) : strLt a a = false := by
  induction a with
  | nil => rfl
  | cons x xs ih => simp [strLt, ih]

theorem strLt_trans (a b c : List Nat) (h1 : strLt a b = true) (h2 : strLt b c = true) :
    strLt a c = true := by
  induction a generalizing b c with
  | nil =>
    cases b with
    | nil => simp [strLt] at h1
    | cons y ys =>
      cases c with
      | nil => simp [strLt] at h2
      | cons z zs => simp [strLt]
  | cons x xs ih =>
    cases b with
    | nil => simp [strLt] at h1
    | cons y ys =>
      cases c with
      | nil => simp [strLt] at h2
      | cons z zs =>
        simp only [strLt, Bool.or_eq_true, decide_eq_true_eq, Bool.and_eq_true, beq_iff_eq]
          at h1 h2 ⊢
        rcases h1 with h1 | ⟨e1, h1⟩
        · rcases h2 with h2 | ⟨e2, h2⟩
          · left; omega
          · left; omega
        · rcases h2 with h2 | ⟨e2, h2⟩
          · left; omega
          · right
            exact ⟨by omega, ih ys zs h1 h2⟩

theorem strLt_total (a b : List Nat) (hne : a ≠ b) (h : strLt a b = false) :
    strLt b a = true := by
  induction a generalizing b with
  | nil =>
    cases b with
    | nil => exact absurd rfl hne
    | cons y ys => simp [strLt] at h
  | cons x xs ih =>
    cases b with
    | nil => simp [strLt]
    | cons y ys =>
      simp only [strLt, Bool.or_eq_false_iff, decide_eq_false_iff_not, Bool.and_eq_false_imp,
        beq_iff_eq] at h
      simp only [strLt, Bool.or_eq_true, decide_eq_true_eq, Bool.and_eq_true, beq_iff_eq]
      by_cases hxy : x = y
      · subst hxy
        right
        refine ⟨rfl, ih ys ?_ (h.2 rfl)⟩
        intro e
        exact hne (by rw [e])
      · left
        omega

theorem mapAssign_mem {β : Type} (m : StdMap β) (k : List Nat) (v : β) (e : List Nat × β)
    (h : e ∈ mapAssign m k v) : e = (k, v) ∨ e ∈ m := by
  induction m with
  | nil =>
    simp only [mapAssign, List.mem_singleton] at h
    exact Or.inl h
  | cons x rest ih =>
    obtain ⟨k1, v1⟩ := x
    unfold mapAssign at h
    split at h
    · rcases List.mem_cons.mp h with h | h
      · exact Or.inl h
      · exact Or.inr (List.mem_cons_of_mem _ h)
    · split at h
      · rcases List.mem_cons.mp h with h | h
        · exact Or.inl h
        · exact Or.inr h
      · rcases List.mem_cons.mp h with h | h
        · exact Or.inr (h ▸ List.mem_cons_self _ _)
        · rcases ih h with h | h
          · exact Or.inl h
          · exact Or.inr (List.mem_cons_of_mem _ h)

/-- Assignment keeps a map in strictly ascending key order. -/
theorem mapAssign_sorted {β : Type} (m : StdMap β) (k : List Nat) (v : β)
    (h : mapSorted m) : mapSorted (mapAssign m k v) := by
  unfold mapSorted at h ⊢
  induction m with
  | nil => simp [mapAssign]
  | cons x rest ih =>
    obtain ⟨k1, v1⟩ := x
    obtain ⟨hx, hrest⟩ := List.pairwise_cons.mp h
    unfold mapAssign
    split
    · rename_i hk
      subst hk
      exact List.pairwise_cons.mpr ⟨hx, hrest⟩
    · rename_i hk
      split
      · rename_i hlt
        refine List.pairwise_cons.mpr ⟨?_, h⟩
        intro e he
        rcases List.mem_cons.mp he with he | he
        · rw [he]; exact hlt
        · exact strLt_trans _ _ _ hlt (hx e he)
      · rename_i hlt
        have hgt : strLt k1 k = true :=
          strLt_total k k1 (fun e => hk e.symm) (by simpa using hlt)
        refine List.pairwise_cons.mpr ⟨?_, ih hrest⟩
        intro e he
        rcases mapAssign_mem rest k v e he with he | he
        · rw [he]; exact hgt
        · exact hx e he

theorem mapFind_mem {β : Type} (m : StdMap β) (k : List Nat) (v : β)
    (h : mapFind m k = some v) : (k, v) ∈ m := by
  induction m with
  | nil => simp [mapFind] at h
  | cons x rest ih =>
    obtain ⟨k1, v1⟩ := x
    unfold mapFind at h
    split at h
    · rename_i hk
      cases h
      subst hk
      exact List.mem_cons_self _ _
    · exact List.mem_cons_of_mem _ (ih h)

/-- The properties of the entry an owner has, or of a value-initialised entry, are in order. -/
theorem mapAt_sorted (geo : StdMap GeometryData) (o : List Nat)
    (h : ∀ e ∈ geo, mapSorted e.2.properties) : mapSorted (mapAt geo o).properties := by
  unfold mapAt
  cases hf : mapFind geo o with
  | none => exact List.Pairwise.nil
  | some g => exact h _ (mapFind_mem geo o g hf)

theorem indexSorted_document (doc : PropertyMap) (geo : StdMap GeometryData) (k : List Nat)
    (v : List Nat × List Nat) (h : indexSorted doc geo) :
    indexSorted (mapAssign doc k v) geo :=
  ⟨mapAssign_sorted doc k v h.1, h.2.1, h.2.2⟩

theorem indexSorted_geometry (doc : PropertyMap) (geo : StdMap GeometryData) (o : List Nat)
    (g : GeometryData) (h : indexSorted doc geo) (hg : mapSorted g.properties) :
    indexSorted doc (mapAssign geo o g) := by
  refine ⟨h.1, mapAssign_sorted geo o g h.2.1, ?_⟩
  intro e he
  rcases mapAssign_mem geo o g e he with he | he
  · rw [he]; exact hg
  · exact h.2.2 e he

/-! ## The loop on an arbitrary stream -/

theorem read_data_length (st : IfStream) (n : Nat) :
    (st.read n).2.data.length ≤ st.data.length := by
  unfold IfStream.read
  split
  · exact le_refl _
  · split
    · simp
    · simp

theorem readStringGranted_data_length (st : IfStream) (str : List Nat) :
    (readStringGranted st str).2.2.data.length ≤ st.data.length := by
  have h1 := read_data_length st 4
  unfold readStringGranted
  generalize st.read 4 = r at h1
  obtain ⟨lb, in1⟩ := r
  simp only [] at h1 ⊢
  split
  · exact h1
  · split
    · have h2 := read_data_length in1 (fromLE32 lb)
      generalize in1.read (fromLE32 lb) = r2 at h2
      obtain ⟨got, in2⟩ := r2
      simp only [] at h2 ⊢
      omega
    · exact h1

theorem ReadIntArray_data_length {alloc : Allocator} (st : IfStream) (arr : List Int)
    (r : Bool × List Int × IfStream) (h : ReadIntArray alloc st arr = some r) :
    r.2.2.data.length ≤ st.data.length := by
  have h1 := read_data_length st 4
  unfold ReadIntArray at h
  generalize st.read 4 = r4 at h1 h
  obtain ⟨lb, in1⟩ := r4
  simp only [] at h1 h
  split at h
  · cases h
    exact h1
  · cases hres : resizeInts alloc in1.data.length arr (fromLE32 lb) with
    | none => rw [hres] at h; cases h
    | some arr2 =>
      rw [hres] at h
      simp only [] at h
      split at h
      · have h2 := read_data_length in1 (fromLE32 lb * 4)
        generalize in1.read (fromLE32 lb * 4) = r2 at h2 h
        obtain ⟨got, in2⟩ := r2
        cases h
        simp only [] at h2 ⊢
        omega
      · cases h
        exact h1

/-- When the allocator grants every request, `ReadIntArray` returns. -/
theorem ReadIntArray_granted {alloc : Allocator} (halloc : ∀ n, alloc n = true)
    (st : IfStream) (arr : List Int) : ∃ r, ReadIntArray alloc st arr = some r := by
  unfold ReadIntArray
  generalize st.read 4 = r4
  obtain ⟨lb, in1⟩ := r4
  simp only [resizeInts_granted alloc _ _ _ (halloc _)]
  split
  · exact ⟨_, rfl⟩
  · split
    · exact ⟨_, rfl⟩
    · exact ⟨_, rfl⟩

theorem readValueGranted_data_length (st : IfStream) (tg data : List Nat) :
    (readValueGranted st tg data).2.2.data.length ≤ st.data.length := by
  have h1 := read_data_length st 4
  unfold readValueGranted
  generalize st.read 4 = r at h1
  obtain ⟨lb, in1⟩ := r
  simp only [] at h1 ⊢
  split
  · exact h1
  · split
    · split
      · exact h1
      · split
        · have h2 := read_data_length in1 (fromLE32 lb)
          generalize in1.read (fromLE32 lb) = r2 at h2
          obtain ⟨got, in2⟩ := r2
          simp only [] at h2 ⊢
          omega
        · exact h1
    · exact le_refl _

theorem loadLoop_failbit {alloc : Allocator} (fuel : Nat) (d : List Nat) (e : Bool) (doc : PropertyMap)
    (geo : StdMap GeometryData) :
    loadLoop alloc (fuel + 1) (IfStream.mk d true e) doc geo = some (doc, geo) := by
  rw [loadLoop]
  rfl

theorem loadLoop_eofbit {alloc : Allocator} (fuel : Nat) (d : List Nat) (doc : PropertyMap)
    (geo : StdMap GeometryData) :
    loadLoop alloc (fuel + 1) (IfStream.mk d false true) doc geo = some (doc, geo) := by
  rw [loadLoop]
  rfl

/-- The loop keeps the index in key order: what it returns is in key order when
the maps it starts from are. -/
theorem loadLoop_sorted {alloc : Allocator} (fuel : Nat) (st : IfStream) (doc : PropertyMap)
    (geo : StdMap GeometryData) (hinv : indexSorted doc geo)
    (r : PropertyMap × StdMap GeometryData) (h : loadLoop alloc fuel st doc geo = some r) :
    indexSorted r.1 r.2 := by
  induction fuel generalizing st doc geo with
  | zero => simp [loadLoop] at h
  | succ fuel ih =>
    obtain ⟨data, fb, eb⟩ := st
    cases fb with
    | true =>
      rw [loadLoop_failbit] at h
      cases h
      exact hinv
    | false =>
      cases eb with
      | true =>
        rw [loadLoop_eofbit] at h
        cases h
        exact hinv
      | false =>
        cases data with
        | nil =>
          rw [loadLoop_end] at h
          cases h
          exact hinv
        | cons b t =>
          by_cases hG : b = markerG
          · subst hG
            rw [loadLoop_G] at h
            split at h
            · cases h
            · split at h
              · cases h
                exact hinv
              · exact ih _ _ _ (indexSorted_document _ _ _ _ hinv) h
          · by_cases hM : b = markerM
            · subst hM
              rw [loadLoop_M] at h
              split at h
              · cases h
              · split at h
                · cases h
                  exact hinv
                · refine ih _ _ _ (indexSorted_geometry _ _ _ _ hinv ?_) h
                  exact mapAssign_sorted _ _ _ (mapAt_sorted geo _ hinv.2.2)
            · by_cases hI : b = markerI
              · subst hI
                rw [loadLoop_I] at h
                by_cases hnames : namesRefused alloc (IfStream.mk t false false) = true
                · rw [if_pos hnames] at h
                  cases h
                · rw [if_neg hnames] at h
                  cases hres : ReadIntArray alloc (readStringGranted (readStringGranted
                      (IfStream.mk t false false) []).2.2 []).2.2 [] with
                  | none => rw [hres] at h; cases h
                  | some res =>
                    rw [hres] at h
                    simp only [] at h
                    split at h
                    · cases h
                      exact hinv
                    · refine ih _ _ _ (indexSorted_geometry _ _ _ _ hinv ?_) h
                      exact mapAt_sorted geo _ hinv.2.2
              · rw [loadLoop_other fuel b t doc geo hG hM hI] at h
                exact ih _ _ _ hinv h

/-- With one unit of fuel per byte and one more, the amount of fuel does not matter:
the loop returns the same indices, or does not return, with any such amount. -/
theorem loadLoop_fuel {alloc : Allocator} (fuel1 fuel2 : Nat) (st : IfStream)
    (doc : PropertyMap) (geo : StdMap GeometryData) (h1 : st.data.length < fuel1)
    (h2 : st.data.length < fuel2) :
    loadLoop alloc fuel1 st doc geo = loadLoop alloc fuel2 st doc geo := by
  induction fuel1 generalizing fuel2 st doc geo with
  | zero => omega
  | succ fuel1 ih =>
    cases fuel2 with
    | zero => omega
    | succ fuel2 =>
      obtain ⟨data, fb, eb⟩ := st
      cases fb with
      | true => rw [loadLoop_failbit, loadLoop_failbit]
      | false =>
        cases eb with
        | true => rw [loadLoop_eofbit, loadLoop_eofbit]
        | false =>
          cases data with
          | nil => rw [loadLoop_end, loadLoop_end]
          | cons b t =>
            simp only [List.length_cons] at h1 h2
            have hs1 := readStringGranted_data_length (IfStream.mk t false false) []
            have hs2 := readStringGranted_data_length
              (readStringGranted (IfStream.mk t false false) []).2.2 []
            have hs3 := readStringGranted_data_length
              (readStringGranted (readStringGranted (IfStream.mk t false false) []).2.2 []).2.2 []
            have hv := readValueGranted_data_length
              (readStringGranted (readStringGranted (readStringGranted (IfStream.mk t false false)
                []).2.2 []).2.2 []).2.2
              (readStringGranted (readStringGranted (readStringGranted (IfStream.mk t false false)
                []).2.2 []).2.2 []).2.1 []
            simp only [] at hs1 hs2 hs3 hv
            by_cases hG : b = markerG
            · subst hG
              rw [loadLoop_G, loadLoop_G]
              split
              · rfl
              · split
                · rfl
                · exact ih _ _ _ _ (by omega) (by omega)
            · by_cases hM : b = markerM
              · subst hM
                rw [loadLoop_M, loadLoop_M]
                split
                · rfl
                · split
                  · rfl
                  · exact ih _ _ _ _ (by omega) (by omega)
              · by_cases hI : b = markerI
                · subst hI
                  rw [loadLoop_I, loadLoop_I]
                  by_cases hnames : namesRefused alloc (IfStream.mk t false false) = true
                  · rw [if_pos hnames, if_pos hnames]
                  · rw [if_neg hnames, if_neg hnames]
                    cases hres : ReadIntArray alloc (readStringGranted (readStringGranted
                        (IfStream.mk t false false) []).2.2 []).2.2 [] with
                    | none => rfl
                    | some res =>
                      have ha := ReadIntArray_data_length _ _ res hres
                      simp only []
                      split
                      · rfl
                      · exact ih _ _ _ _ (by omega) (by omega)
                · rw [loadLoop_other fuel1 b t doc geo hG hM hI,
                    loadLoop_other fuel2 b t doc geo hG hM hI]
                  exact ih _ _ _ _ (by simp only []; omega) (by simp only []; omega)

/-- The fuel `LoadAllDataFromFile` gives the loop is enough: with any greater amount
the outcome is the same. A result `none` of `LoadAllDataFromFile` therefore stands
for `std::bad_alloc`, never for a lack of fuel. -/
theorem LoadAllDataFromFile_fuel {alloc : Allocator} (bytes : List Nat) (fuel : Nat)
    (hfuel : bytes.length < fuel) (doc : PropertyMap) (geo : StdMap GeometryData) :
    loadLoop alloc fuel (IfStream.open bytes) doc geo =
      LoadAllDataFromFile alloc (some bytes) doc geo := by
  unfold LoadAllDataFromFile
  exact loadLoop_fuel _ _ _ _ _ hfuel (Nat.lt_succ_self _)

/-- When the allocator grants every request, no read of a property record is
refused its storage. -/
theorem propertyRefused_granted {alloc : Allocator} (halloc : ∀ n, alloc n = true)
    (st : IfStream) : propertyRefused alloc st = false := by
  simp [propertyRefused, stringRefused, valueRefused, grants, halloc]

/-- When the allocator grants every request, no read of a name of an array record
is refused its storage. -/
theorem namesRefused_granted {alloc : Allocator} (halloc : ∀ n, alloc n = true)
    (st : IfStream) : namesRefused alloc st = false := by
  simp [namesRefused, stringRefused, grants, halloc]

/-- When the allocator grants every request, the loop returns on every stream with
one unit of fuel per byte and one more, whatever the two maps hold. -/
theorem loadLoop_returns {alloc : Allocator} (halloc : ∀ n, alloc n = true) (fuel : Nat)
    (st : IfStream) (doc : PropertyMap) (geo : StdMap GeometryData)
    (hfuel : st.data.length < fuel) :
    ∃ r, loadLoop alloc fuel st doc geo = some r := by
  induction fuel generalizing st doc geo with
  | zero => omega
  | succ fuel ih =>
    obtain ⟨data, fb, eb⟩ := st
    cases fb with
    | true => exact ⟨_, loadLoop_failbit fuel data eb doc geo⟩
    | false =>
      cases eb with
      | true => exact ⟨_, loadLoop_eofbit fuel data doc geo⟩
      | false =>
        cases data with
        | nil => exact ⟨_, loadLoop_end fuel doc geo⟩
        | cons b t =>
          simp only [List.length_cons] at hfuel
          have hs1 := readStringGranted_data_length (IfStream.mk t false false) []
          have hs2 := readStringGranted_data_length (readStringGranted (IfStream.mk t false false) []).2.2 []
          have hs3 := readStringGranted_data_length
            (readStringGranted (readStringGranted (IfStream.mk t false false) []).2.2 []).2.2 []
          have hv := readValueGranted_data_length
            (readStringGranted (readStringGranted (readStringGranted (IfStream.mk t false false)
              []).2.2 []).2.2 []).2.2
            (readStringGranted (readStringGranted (readStringGranted (IfStream.mk t false false)
              []).2.2 []).2.2 []).2.1 []
          simp only [] at hs1 hs2 hs3 hv
          by_cases hG : b = markerG
          · subst hG
            rw [loadLoop_G, propertyRefused_granted halloc, if_neg (by decide)]
            split
            · exact ⟨_, rfl⟩
            · exact ih _ _ _ (by omega)
          · by_cases hM : b = markerM
            · subst hM
              rw [loadLoop_M, propertyRefused_granted halloc, if_neg (by decide)]
              split
              · exact ⟨_, rfl⟩
              · exact ih _ _ _ (by omega)
            · by_cases hI : b = markerI
              · subst hI
                rw [loadLoop_I, namesRefused_granted halloc, if_neg (by decide)]
                obtain ⟨res, hres⟩ := @ReadIntArray_granted alloc halloc
                  (readStringGranted (readStringGranted (IfStream.mk t false false) []).2.2 []).2.2 []
                have ha := ReadIntArray_data_length _ _ res hres
                rw [hres]
                simp only []
                split
                · exact ⟨_, rfl⟩
                · exact ih _ _ _ (by omega)
              · rw [loadLoop_other fuel b t doc geo hG hM hI]
                exact ih _ _ _ (by simp only []; omega)

/-! ## Order of enumeration and bounds of the integer read -/

/-- C18, as the code has it. For every container, the index `LoadAllDataFromFile`
returns when started on empty maps is made of `std::map`s: the document
properties, the owners, and the properties stored for each owner are enumerated in
strictly ascending byte-wise order of their names, each name once, whatever the
order of the records in the file. The load returns an index for every container
of well-formed records, and for every container at all when the allocator grants
every request. -/
theorem index_enumeration_order (alloc : Allocator) (bytes : List Nat) :
    (∀ doc geo, LoadAllDataFromFile alloc (some bytes) [] [] = some (doc, geo) →
      doc.Pairwise (fun a b => strLt a.1 b.1 = true) ∧
      geo.Pairwise (fun a b => strLt a.1 b.1 = true) ∧
      ∀ e ∈ geo, e.2.properties.Pairwise (fun a b => strLt a.1 b.1 = true)) ∧
    (∀ rs : List Record, (∀ r ∈ rs, r.WellFormed) → bytes = writeRecords [] rs →
      ∃ doc geo, LoadAllDataFromFile alloc (some bytes) [] [] = some (doc, geo)) ∧
    ((∀ n, alloc n = true) →
      ∃ doc geo, LoadAllDataFromFile alloc (some bytes) [] [] = some (doc, geo)) := by
  have h0 : indexSorted ([] : PropertyMap) ([] : StdMap GeometryData) :=
    ⟨List.Pairwise.nil, List.Pairwise.nil, fun e he => by cases he⟩
  refine ⟨fun doc geo h => ?_, fun rs hrs hb => ?_, fun halloc => ?_⟩
  · exact loadLoop_sorted (bytes.length + 1) (IfStream.open bytes) [] [] h0 (doc, geo) h
  · subst hb
    exact ⟨_, _, LoadAllDataFromFile_written rs hrs [] []⟩
  · obtain ⟨r, hr⟩ := @loadLoop_returns alloc halloc (bytes.length + 1) (IfStream.open bytes)
      [] [] (Nat.lt_succ_self _)
    exact ⟨r.1, r.2, hr⟩

/-- C18, counterexample. The container holds the properties `b` and then `a` of one
owner; the loaded entry enumerates them as `a`, `b`. -/
theorem index_enumeration_order_counterexample :
    ∃ doc geo g, LoadAllDataFromFile noSpareMemory (some containerOutOfKeyOrder) [] [] = some (doc, geo) ∧
      mapFind geo [88] = some g ∧
      g.properties.map (fun e => e.1) = [[97], [98]] := by
  exact ⟨_, _, _, rfl, rfl, rfl⟩

/-- C20, the code at the failing inputs. A record named `RizomUV` written with a
blob or string type is loaded with a value shorter than four bytes (here none and
two), and both inject functions then read four bytes from it: the run has no
defined result. -/
theorem rizomUV_read_out_of_bounds (alloc : Allocator) :
    (∃ doc geo v,
      LoadAllDataFromFile alloc (some containerWithEmptyRizomUV) [] [] = some (doc, geo) ∧
      mapFind doc (bytesOf "RizomUV") = some v ∧ v.2.length = 0 ∧
      reinterpretInt v.2 = none ∧
      InjectDocumentRizomData emptyTargetScene doc = none ∧
      Injector.main alloc 4 (some emptyTargetScene) (some containerWithEmptyRizomUV)
          true true =
        none) ∧
    (∃ doc geo g v, LoadAllDataFromFile alloc (some containerWithShortRizomUV) [] [] =
        some (doc, geo) ∧
      mapFind geo [65] = some g ∧ mapFind g.properties (bytesOf "RizomUV") = some v ∧
      v.2.length = 2 ∧
      InjectGeometryRizomData { rootDocument := none, nodes := [plainMeshNode [65] [66]] } geo =
        none) := by
  exact ⟨⟨_, _, _, rfl, rfl, rfl, rfl, rfl, rfl⟩, ⟨_, _, _, _, rfl, rfl, rfl, rfl, rfl⟩⟩

/-! ## Unknown markers -/

/-- C21. Unknown marker bytes are skipped, not rejected: for every byte `b` other
than `'G'`, `'M'` and `'I'` and every byte sequence `s`, `LoadAllDataFromFile` on `b`
followed by `s` does what it does on `s` alone: it returns the same indices, or
like it does not return. The same holds when whole records come before `b`, so
the dispatch resumes at the byte after `b`. When the allocator grants every
request the load returns. -/
theorem unknown_marker_skipped (alloc : Allocator) (b : Nat) (s : List Nat)
    (documentProperties : PropertyMap) (geometryData : StdMap GeometryData)
    (hG : b ≠ markerG) (hM : b ≠ markerM) (hI : b ≠ markerI) :
    LoadAllDataFromFile alloc (some (b :: s)) documentProperties geometryData =
      LoadAllDataFromFile alloc (some s) documentProperties geometryData ∧
    (∀ rs : List Record, (∀ r ∈ rs, r.WellFormed) →
      LoadAllDataFromFile alloc (some (writeRecords [] rs ++ b :: s)) documentProperties
          geometryData =
        LoadAllDataFromFile alloc (some (writeRecords [] rs ++ s)) documentProperties
          geometryData) ∧
    ((∀ n, alloc n = true) →
      ∃ r, LoadAllDataFromFile alloc (some (b :: s)) documentProperties geometryData =
        some r) := by
  have hstep : LoadAllDataFromFile alloc (some (b :: s)) documentProperties geometryData =
      LoadAllDataFromFile alloc (some s) documentProperties geometryData := by
    unfold LoadAllDataFromFile IfStream.open
    simp only [List.length_cons]
    exact loadLoop_other _ b s _ _ hG hM hI
  refine ⟨hstep, ?_, ?_⟩
  · intro rs hrs
    unfold LoadAllDataFromFile IfStream.open
    obtain ⟨k, hk⟩ := Nat.exists_eq_add_of_le (length_writeRecords_ge rs hrs)
    have hf1 : (writeRecords [] rs ++ b :: s).length + 1 =
        rs.length + ((k + s.length + 1) + 1) := by
      rw [List.length_append, List.length_cons]; omega
    have hf2 : (writeRecords [] rs ++ s).length + 1 = rs.length + (k + s.length + 1) := by
      rw [List.length_append]; omega
    simp only [hf1, hf2, loadLoop_records rs hrs _ _ documentProperties geometryData]
    exact loadLoop_other _ b s _ _ hG hM hI
  · intro halloc
    unfold LoadAllDataFromFile IfStream.open
    exact loadLoop_returns halloc _ _ _ _ (Nat.lt_succ_self _)

/-- Witness of C21: the byte `'X'` before the record of an array, at the start of
the container and after a whole record. -/
theorem unknown_marker_skipped_witness :
    LoadAllDataFromFile noSpareMemory
        (some (88 :: writeRecords [] [Record.auxiliaryArray [67] [68] [1]])) [] [] =
      LoadAllDataFromFile noSpareMemory
        (some (writeRecords [] [Record.auxiliaryArray [67] [68] [1]])) [] [] ∧
    LoadAllDataFromFile noSpareMemory
        (some (writeRecords [] [Record.auxiliaryArray [65] [66] [5]] ++
          88 :: writeRecords [] [Record.auxiliaryArray [67] [68] [1]])) [] [] =
      LoadAllDataFromFile noSpareMemory
        (some (writeRecords [] [Record.auxiliaryArray [65] [66] [5]] ++
          writeRecords [] [Record.auxiliaryArray [67] [68] [1]])) [] [] :=
  have h := unknown_marker_skipped noSpareMemory 88
    (writeRecords [] [Record.auxiliaryArray [67] [68] [1]]) [] []
    (by decide) (by decide) (by decide)
  ⟨h.1, h.2.1 [Record.auxiliaryArray [65] [66] [5]] (by decide)⟩

/-! ## The owner name of a document record -/

/-- A second assignment to a key replaces the first without a trace. -/
theorem mapAssign_mapAssign {β : Type} (m : StdMap β) (k : List Nat) (v1 v2 : β) :
    mapAssign (mapAssign m k v1) k v2 = mapAssign m k v2 := by
  induction m with
  | nil => simp [mapAssign]
  | cons e rest ih =>
    obtain ⟨k1, x⟩ := e
    by_cases hk : k1 = k
    · simp [mapAssign, hk]
    · by_cases hlt : strLt k k1 = true
      · simp [mapAssign, hk, hlt]
      · simp [mapAssign, hk, hlt, ih]

/-- The field a writer lays down is the encoding of a string shorter than `2^32`. -/
theorem lengthPrefixed_encodes (s : List Nat) :
    ∃ s2 : List Nat, s2.length < 2 ^ 32 ∧ lengthPrefixed s = toLE32 s2.length ++ s2 := by
  refine ⟨s.take (castU32 s.length), ?_, ?_⟩
  · have h : castU32 s.length < 2 ^ 32 := Nat.mod_lt _ (by decide)
    rw [List.length_take]
    omega
  · have h : castU32 s.length ≤ s.length := Nat.mod_le _ _
    simp only [lengthPrefixed, List.length_take, Nat.min_eq_left h]

/-- `readValueGranted` on a value field of the tag: it returns true with the value. -/
theorem readValueGranted_field (tag field value rest : List Nat) (h : ValueField tag field value) :
    readValueGranted (IfStream.mk (field ++ rest) false false) tag [] =
      (true, value, IfStream.mk rest false false) := by
  rcases h with ⟨ht, hl, hv⟩ | ⟨ht, hl, hf⟩
  · subst hv
    unfold readValueGranted
    rw [if_pos ht]
    have h4 : 4 ≤ (value ++ rest).length := by rw [List.length_append]; omega
    have h5 : 4 ≤ value.length + rest.length := by omega
    have htake : (value ++ rest).take 4 = value := by
      rw [← hl, List.take_left]
    have hdrop : (value ++ rest).drop 4 = rest := by
      rw [← hl, List.drop_left]
    have hb : (resized [] 4).length ≤ value.length := by rw [length_resized, hl]
    simp [IfStream.read, h5, htake, hdrop, overlay_full _ _ hb]
  · subst hf
    rw [List.append_assoc]
    exact readValueGranted_sized tag ht value rest [] hl

/-- The storage of a value field of the tag is backed by the file. -/
theorem valueRefused_field {alloc : Allocator} (tag field value rest : List Nat)
    (h : ValueField tag field value) :
    valueRefused alloc (IfStream.mk (field ++ rest) false false) tag = false := by
  rcases h with ⟨ht, hl, hv⟩ | ⟨ht, hl, hf⟩
  · unfold valueRefused
    rw [if_pos ht]
    simp [grants, hl]
  · subst hf
    rw [List.append_assoc]
    exact valueRefused_sized tag ht value rest hl

/-- The loop on a `'G'` record does not depend on the owner name the record carries. -/
theorem loadLoop_owner {alloc : Allocator} (fuel1 fuel2 : Nat) (o1 o2 t : List Nat)
    (ho1 : o1.length < 2 ^ 32) (ho2 : o2.length < 2 ^ 32) (doc : PropertyMap)
    (geo : StdMap GeometryData) (h1 : t.length < fuel1) (h2 : t.length < fuel2) :
    loadLoop alloc (fuel1 + 1)
        (IfStream.mk (markerG :: (toLE32 o1.length ++ (o1 ++ t))) false false) doc geo =
      loadLoop alloc (fuel2 + 1)
        (IfStream.mk (markerG :: (toLE32 o2.length ++ (o2 ++ t))) false false) doc geo := by
  have hs2 := readStringGranted_data_length (IfStream.mk t false false) []
  have hs3 := readStringGranted_data_length (readStringGranted (IfStream.mk t false false) []).2.2 []
  have hv := readValueGranted_data_length
    (readStringGranted (readStringGranted (IfStream.mk t false false) []).2.2 []).2.2
    (readStringGranted (readStringGranted (IfStream.mk t false false) []).2.2 []).2.1 []
  simp only [] at hs2 hs3 hv
  rw [loadLoop_G, loadLoop_G]
  simp only [propertyRefused, readStringGranted_written _ _ _ ho1,
    readStringGranted_written _ _ _ ho2, stringRefused_written _ _ ho1,
    stringRefused_written _ _ ho2, Bool.false_or]
  split
  · rfl
  · split
    · rfl
    · exact loadLoop_fuel _ _ _ _ _ (by omega) (by omega)

/-- The loop consumes a property record whose value field the reader decodes, and
stores the type tag and the value under the property name, of the document for the
marker `'G'` and of the owner for the marker `'M'`. -/
theorem loadLoop_property {alloc : Allocator} (fuel : Nat)
    (o n tg field value rest : List Nat) (ho : o.length < 2 ^ 32) (hn : n.length < 2 ^ 32)
    (htg : tg.length < 2 ^ 32) (hv : ValueField tg field value) (doc : PropertyMap)
    (geo : StdMap GeometryData) :
    loadLoop alloc (fuel + 1)
        (IfStream.mk (markerG :: (lengthPrefixed o ++ (lengthPrefixed n ++
          (lengthPrefixed tg ++ (field ++ rest))))) false false) doc geo =
      loadLoop alloc fuel (IfStream.mk rest false false) (mapAssign doc n (tg, value)) geo ∧
    loadLoop alloc (fuel + 1)
        (IfStream.mk (markerM :: (lengthPrefixed o ++ (lengthPrefixed n ++
          (lengthPrefixed tg ++ (field ++ rest))))) false false) doc geo =
      loadLoop alloc fuel (IfStream.mk rest false false) doc
        (mapAssign geo o
          { mapAt geo o with
            properties := mapAssign (mapAt geo o).properties n (tg, value) }) := by
  simp only [lengthPrefixed_short _ ho, lengthPrefixed_short _ hn, lengthPrefixed_short _ htg,
    List.append_assoc]
  constructor
  · rw [loadLoop_G, propertyRefused_tagged _ _ _ _ ho hn htg,
      valueRefused_field _ _ _ _ hv, if_neg (by decide)]
    simp only [readStringGranted_written _ _ _ ho, readStringGranted_written _ _ _ hn,
      readStringGranted_written _ _ _ htg, readValueGranted_field _ _ _ _ hv]
    simp
  · rw [loadLoop_M, propertyRefused_tagged _ _ _ _ ho hn htg,
      valueRefused_field _ _ _ _ hv, if_neg (by decide)]
    simp only [readStringGranted_written _ _ _ ho, readStringGranted_written _ _ _ hn,
      readStringGranted_written _ _ _ htg, readValueGranted_field _ _ _ _ hv]
    simp

/-- The loop ends at a property record of an unrecognised type. -/
theorem loadLoop_unreadable {alloc : Allocator} (fuel : Nat) (marker : Nat)
    (hm : marker = markerG ∨ marker = markerM)
    (o n tg rest : List Nat) (ho : o.length < 2 ^ 32) (hn : n.length < 2 ^ 32)
    (htg : tg.length < 2 ^ 32) (h1 : ¬ (tg = tagInt ∨ tg = tagInteger))
    (h2 : ¬ (tg = tagBlob ∨ tg = tagKString ∨ tg = tagString)) (doc : PropertyMap)
    (geo : StdMap GeometryData) :
    loadLoop alloc (fuel + 1)
        (IfStream.mk (marker :: (lengthPrefixed o ++ (lengthPrefixed n ++
          (lengthPrefixed tg ++ rest)))) false false) doc geo = some (doc, geo) := by
  simp only [lengthPrefixed_short _ ho, lengthPrefixed_short _ hn, lengthPrefixed_short _ htg,
    List.append_assoc]
  rcases hm with hm | hm
  · subst hm
    rw [loadLoop_G, propertyRefused_tagged _ _ _ _ ho hn htg,
      valueRefused_unknown _ _ h1 h2, if_neg (by decide), if_pos]
    simp only [readStringGranted_written _ _ _ ho, readStringGranted_written _ _ _ hn,
      readStringGranted_written _ _ _ htg]
    rw [readValueGranted_unknown _ _ _ h1 h2]
  · subst hm
    rw [loadLoop_M, propertyRefused_tagged _ _ _ _ ho hn htg,
      valueRefused_unknown _ _ h1 h2, if_neg (by decide), if_pos]
    simp only [readStringGranted_written _ _ _ ho, readStringGranted_written _ _ _ hn,
      readStringGranted_written _ _ _ htg]
    rw [readValueGranted_unknown _ _ _ h1 h2]

/-- The loop does the same on two containers that differ only in the owner names
of their `'G'` records. -/
theorem loadLoop_ownerVariant {alloc : Allocator} (c1 c2 : List Nat)
    (h : OwnerVariant c1 c2) :
    ∀ (fuel1 fuel2 : Nat) (doc : PropertyMap) (geo : StdMap GeometryData),
      c1.length < fuel1 → c2.length < fuel2 →
      loadLoop alloc fuel1 (IfStream.mk c1 false false) doc geo =
        loadLoop alloc fuel2 (IfStream.mk c2 false false) doc geo := by
  induction h with
  | same t =>
    intro fuel1 fuel2 doc geo h1 h2
    exact loadLoop_fuel _ _ _ _ _ h1 h2
  | skipped b t1 t2 hG hM hI _ ih =>
    intro fuel1 fuel2 doc geo h1 h2
    obtain ⟨f1, rfl⟩ := Nat.exists_eq_succ_of_ne_zero (Nat.not_eq_zero_of_lt h1)
    obtain ⟨f2, rfl⟩ := Nat.exists_eq_succ_of_ne_zero (Nat.not_eq_zero_of_lt h2)
    simp only [List.length_cons] at h1 h2
    rw [loadLoop_other f1 b t1 doc geo hG hM hI, loadLoop_other f2 b t2 doc geo hG hM hI]
    exact ih _ _ _ _ (by omega) (by omega)
  | documentRecord o1 o2 n tg field value t1 t2 ho1 ho2 hn htg hv _ ih =>
    intro fuel1 fuel2 doc geo h1 h2
    obtain ⟨f1, rfl⟩ := Nat.exists_eq_succ_of_ne_zero (Nat.not_eq_zero_of_lt h1)
    obtain ⟨f2, rfl⟩ := Nat.exists_eq_succ_of_ne_zero (Nat.not_eq_zero_of_lt h2)
    simp only [List.length_cons, List.length_append] at h1 h2
    rw [(loadLoop_property f1 o1 n tg field value t1 ho1 hn htg hv doc geo).1,
      (loadLoop_property f2 o2 n tg field value t2 ho2 hn htg hv doc geo).1]
    exact ih _ _ _ _ (by omega) (by omega)
  | geometryRecord o n tg field value t1 t2 ho hn htg hv _ ih =>
    intro fuel1 fuel2 doc geo h1 h2
    obtain ⟨f1, rfl⟩ := Nat.exists_eq_succ_of_ne_zero (Nat.not_eq_zero_of_lt h1)
    obtain ⟨f2, rfl⟩ := Nat.exists_eq_succ_of_ne_zero (Nat.not_eq_zero_of_lt h2)
    simp only [List.length_cons, List.length_append] at h1 h2
    rw [(loadLoop_property f1 o n tg field value t1 ho hn htg hv doc geo).2,
      (loadLoop_property f2 o n tg field value t2 ho hn htg hv doc geo).2]
    exact ih _ _ _ _ (by omega) (by omega)
  | arrayRecord o u ids t1 t2 ho hu hi hr _ ih =>
    intro fuel1 fuel2 doc geo h1 h2
    obtain ⟨f1, rfl⟩ := Nat.exists_eq_succ_of_ne_zero (Nat.not_eq_zero_of_lt h1)
    obtain ⟨f2, rfl⟩ := Nat.exists_eq_succ_of_ne_zero (Nat.not_eq_zero_of_lt h2)
    simp only [List.length_cons, List.length_append] at h1 h2
    simp only [lengthPrefixed_short _ ho, lengthPrefixed_short _ hu,
      (countPrefixed_short ids hi), List.append_assoc]
    rw [loadLoop_I, loadLoop_I]
    simp only [namesRefused, readStringGranted_written _ _ _ ho,
      readStringGranted_written _ _ _ hu, stringRefused_written _ _ ho,
      stringRefused_written _ _ hu, ReadIntArray_written _ _ _ hi hr]
    simp only [Bool.true_eq_false, Bool.false_eq_true, Bool.or_self, if_false]
    exact ih _ _ _ _ (by omega) (by omega)
  | documentOwner owner1 owner2 t =>
    intro fuel1 fuel2 doc geo h1 h2
    obtain ⟨f1, rfl⟩ := Nat.exists_eq_succ_of_ne_zero (Nat.not_eq_zero_of_lt h1)
    obtain ⟨f2, rfl⟩ := Nat.exists_eq_succ_of_ne_zero (Nat.not_eq_zero_of_lt h2)
    obtain ⟨o1, ho1, he1⟩ := lengthPrefixed_encodes owner1
    obtain ⟨o2, ho2, he2⟩ := lengthPrefixed_encodes owner2
    simp only [List.length_cons, List.length_append] at h1 h2
    rw [he1, he2, List.append_assoc, List.append_assoc]
    exact loadLoop_owner f1 f2 o1 o2 t ho1 ho2 doc geo (by omega) (by omega)
  | unreadable marker o1 o2 n tg t1 t2 hm ho1 ho2 hn htg hn1 hn2 _ _ =>
    intro fuel1 fuel2 doc geo h1 h2
    obtain ⟨f1, rfl⟩ := Nat.exists_eq_succ_of_ne_zero (Nat.not_eq_zero_of_lt h1)
    obtain ⟨f2, rfl⟩ := Nat.exists_eq_succ_of_ne_zero (Nat.not_eq_zero_of_lt h2)
    have hm2 : marker = markerG ∨ marker = markerM := by
      rcases hm with hm | hm
      · exact Or.inl hm
      · exact Or.inr hm.1
    rw [loadLoop_unreadable f1 marker hm2 o1 n tg t1 ho1 hn htg hn1 hn2,
      loadLoop_unreadable f2 marker hm2 o2 n tg t2 ho2 hn htg hn1 hn2]

/-- The value field the extractor writes for a well-formed property, and the value
the reader stores for it. -/
theorem valueField_written (p : FbxProperty) (hp : WellFormedProperty p) :
    ValueField (cstr p.dataType.name)
      (if p.dataType.id = .int then valueBytes p
       else toLE32 (valueBytes p).length ++ valueBytes p) (valueBytes p) := by
  rcases hp.2 with ⟨ht, hid⟩ | ⟨ht, hid, hv⟩
  · left
    refine ⟨ht, ?_, ?_⟩
    · simp [hid, valueBytes, FbxDataType.Is, FbxIntDT, length_toLE32]
    · rw [if_pos hid]
  · right
    have hne : p.dataType.id ≠ .int := by
      rcases hid with h | h | h <;> rw [h] <;> decide
    exact ⟨ht, hv, by rw [if_neg hne]⟩

/-- The containers the extractor writes for two well-formed records that differ at
most in the owner name of a document record, followed by containers that differ
only in the owner names of their `'G'` records, differ only in these. -/
theorem ownerVariant_record (r1 r2 : Record) (h1 : r1.WellFormed) (h2 : r2.WellFormed)
    (hrel : r1.sameUpToDocumentOwner r2) (t1 t2 : List Nat) (ht : OwnerVariant t1 t2) :
    OwnerVariant (writeRecord [] r1 ++ t1) (writeRecord [] r2 ++ t2) := by
  have htag : ∀ p : FbxProperty, WellFormedProperty p →
      (cstr p.dataType.name).length < 2 ^ 32 := by
    intro p hp
    rcases hp.2 with ⟨h | h, _⟩ | ⟨h | h | h, _⟩ <;> rw [h] <;> decide
  have hprop : ∀ (marker : Nat) (o : List Nat) (p : FbxProperty) (t : List Nat),
      o.length < 2 ^ 32 → WellFormedProperty p →
      ProcessAndWriteProperty [] p o marker ++ t =
        marker :: (lengthPrefixed o ++ (lengthPrefixed (cstr p.name) ++
          (lengthPrefixed (cstr p.dataType.name) ++
            ((if p.dataType.id = .int then valueBytes p
              else toLE32 (valueBytes p).length ++ valueBytes p) ++ t)))) := by
    intro marker o p t ho hp
    rw [ProcessAndWriteProperty_eq [] p o marker ho hp, lengthPrefixed_short _ ho,
      lengthPrefixed_short _ hp.1, lengthPrefixed_short _ (htag p hp)]
    simp only [List.nil_append, List.cons_append, List.append_assoc]
  cases r1 with
  | documentProperty o1 p1 =>
    cases r2 with
    | documentProperty o2 p2 =>
      have hp : p1 = p2 := hrel
      subst hp
      simp only [writeRecord]
      rw [hprop markerG o1 p1 t1 h1.1 h1.2, hprop markerG o2 p1 t2 h2.1 h2.2]
      exact OwnerVariant.documentRecord o1 o2 _ _ _ _ t1 t2 h1.1 h2.1 h1.2.1 (htag p1 h1.2)
        (valueField_written p1 h1.2) ht
    | geometryProperty o2 p2 => cases hrel
    | auxiliaryArray c2 u2 ids2 => cases hrel
  | geometryProperty o1 p1 =>
    have hr : Record.geometryProperty o1 p1 = r2 := by
      cases r2 <;> exact hrel
    subst hr
    simp only [writeRecord]
    rw [hprop markerM o1 p1 t1 h1.1 h1.2, hprop markerM o1 p1 t2 h1.1 h1.2]
    exact OwnerVariant.geometryRecord o1 _ _ _ _ t1 t2 h1.1 h1.2.1 (htag p1 h1.2)
      (valueField_written p1 h1.2) ht
  | auxiliaryArray c1 u1 ids1 =>
    have hr : Record.auxiliaryArray c1 u1 ids1 = r2 := by
      cases r2 <;> exact hrel
    subst hr
    have he : ∀ t : List Nat, writeRecord [] (Record.auxiliaryArray c1 u1 ids1) ++ t =
        markerI :: (lengthPrefixed c1 ++ (lengthPrefixed u1 ++ (countPrefixed ids1 ++ t))) := by
      intro t
      simp only [writeRecord, writeIslandRecord_eq c1 u1 ids1 h1.1 h1.2.1 h1.2.2.1,
        lengthPrefixed_short _ h1.1, lengthPrefixed_short _ h1.2.1,
        (countPrefixed_short ids1 h1.2.2.1), List.cons_append, List.append_assoc]
    rw [he t1, he t2]
    exact OwnerVariant.arrayRecord c1 u1 ids1 t1 t2 h1.1 h1.2.1 h1.2.2.1 h1.2.2.2 ht

theorem ownerVariant_records (rs1 rs2 : List Record)
    (hrel : List.Forall₂ Record.sameUpToDocumentOwner rs1 rs2)
    (h1 : ∀ r ∈ rs1, r.WellFormed) (h2 : ∀ r ∈ rs2, r.WellFormed) (t1 t2 : List Nat)
    (ht : OwnerVariant t1 t2) :
    OwnerVariant (writeRecords [] rs1 ++ t1) (writeRecords [] rs2 ++ t2) := by
  induction hrel with
  | nil => simpa [writeRecords] using ht
  | @cons r1 r2 l1 l2 hr _ ih =>
    rw [writeRecords_cons r1 l1, writeRecords_cons r2 l2, List.append_assoc,
      List.append_assoc]
    exact ownerVariant_record r1 r2 (h1 r1 (List.mem_cons_self _ _))
      (h2 r2 (List.mem_cons_self _ _)) hr _ _
      (ih (fun r hr => h1 r (List.mem_cons_of_mem _ hr))
        (fun r hr => h2 r (List.mem_cons_of_mem _ hr)))

/-- C22. The owner name of a document record does not influence the result: on
two containers that differ only in the owner names of their `'G'` records,
`LoadAllDataFromFile` does the same, it returns the same document and geometry
indices or on neither returns; it returns when the allocator grants every request.
Among these are the containers the extractor writes for two sequences of
well-formed records that differ only in the owner names of the document records,
followed by any bytes. Document properties are keyed by property name alone: two
`'G'` records with different owner names and the same property name overwrite each
other, the load returns the index obtained from the later record alone, which
holds the type tag and the value of the later record under that name. -/
theorem document_owner_irrelevant (alloc : Allocator) (container1 container2 : List Nat)
    (hvariant : OwnerVariant container1 container2)
    (documentProperties : PropertyMap) (geometryData : StdMap GeometryData) :
    (LoadAllDataFromFile alloc (some container1) documentProperties geometryData =
      LoadAllDataFromFile alloc (some container2) documentProperties geometryData) ∧
    ((∀ n, alloc n = true) →
      ∃ r, LoadAllDataFromFile alloc (some container1) documentProperties geometryData =
        some r) ∧
    (∀ (rs1 rs2 : List Record) (tail : List Nat),
      (∀ r ∈ rs1, r.WellFormed) → (∀ r ∈ rs2, r.WellFormed) →
      List.Forall₂ Record.sameUpToDocumentOwner rs1 rs2 →
      LoadAllDataFromFile alloc (some (writeRecords [] rs1 ++ tail)) documentProperties
          geometryData =
        LoadAllDataFromFile alloc (some (writeRecords [] rs2 ++ tail)) documentProperties
          geometryData) ∧
    ∀ owner1 owner2 name tag1 field1 value1 tag2 field2 value2 : List Nat,
      owner1.length < 2 ^ 32 → owner2.length < 2 ^ 32 → name.length < 2 ^ 32 →
      tag1.length < 2 ^ 32 → tag2.length < 2 ^ 32 →
      ValueField tag1 field1 value1 → ValueField tag2 field2 value2 →
      LoadAllDataFromFile alloc
          (some (documentRecordBytes owner1 name tag1 field1 ++
            documentRecordBytes owner2 name tag2 field2))
          documentProperties geometryData =
        some (mapAssign documentProperties name (tag2, value2), geometryData) ∧
      LoadAllDataFromFile alloc (some (documentRecordBytes owner2 name tag2 field2))
          documentProperties geometryData =
        some (mapAssign documentProperties name (tag2, value2), geometryData) ∧
      mapFind (mapAssign documentProperties name (tag2, value2)) name =
        some (tag2, value2) := by
  refine ⟨?_, ?_, ?_, ?_⟩
  · unfold LoadAllDataFromFile IfStream.open
    exact loadLoop_ownerVariant container1 container2 hvariant _ _ _ _
      (Nat.lt_succ_self _) (Nat.lt_succ_self _)
  · intro halloc
    unfold LoadAllDataFromFile IfStream.open
    exact loadLoop_returns halloc _ _ _ _ (Nat.lt_succ_self _)
  · intro rs1 rs2 tail h1 h2 hrel
    unfold LoadAllDataFromFile IfStream.open
    exact loadLoop_ownerVariant _ _
      (ownerVariant_records rs1 rs2 hrel h1 h2 tail tail (OwnerVariant.same tail)) _ _ _ _
      (Nat.lt_succ_self _) (Nat.lt_succ_self _)
  · intro owner1 owner2 name tag1 field1 value1 tag2 field2 value2 ho1 ho2 hn ht1 ht2 hv1 hv2
    refine ⟨?_, ?_, mapFind_mapAssign_self _ _ _⟩
    · have h2 := fun (f : Nat) (doc : PropertyMap) =>
        (@loadLoop_property alloc f owner2 name tag2 field2 value2 []
          ho2 hn ht2 hv2 doc geometryData).1
      simp only [List.append_nil] at h2
      unfold LoadAllDataFromFile IfStream.open documentRecordBytes
      simp only [List.cons_append, List.append_assoc, List.length_cons]
      rw [(loadLoop_property _ owner1 name tag1 field1 value1 _ ho1 hn ht1 hv1 _ _).1]
      simp only [List.length_append, List.length_cons, ← Nat.add_assoc]
      rw [h2, loadLoop_end, mapAssign_mapAssign]
    · have h2 := fun (f : Nat) (doc : PropertyMap) =>
        (@loadLoop_property alloc f owner2 name tag2 field2 value2 []
          ho2 hn ht2 hv2 doc geometryData).1
      simp only [List.append_nil] at h2
      unfold LoadAllDataFromFile IfStream.open documentRecordBytes
      simp only [List.length_cons]
      rw [h2]
      have hpos : ∃ k, (lengthPrefixed owner2 ++ (lengthPrefixed name ++
          (lengthPrefixed tag2 ++ field2))).length = k + 1 := by
        refine ⟨(lengthPrefixed owner2 ++ (lengthPrefixed name ++
          (lengthPrefixed tag2 ++ field2))).length + 3 - 4, ?_⟩
        simp only [lengthPrefixed, List.length_append, length_toLE32]
        omega
      obtain ⟨k, hk⟩ := hpos
      rw [hk, loadLoop_end]

/-- Witness of C22: the container of `containerOwnedBy` with the owner names
`FbxDocument` and `FbxDocument` against the same container with the owner names
`Other` and `A`; and two document records of the property `Scene` with the owner
names `A` and `B`, the first an integer, the second a blob. -/
theorem document_owner_irrelevant_witness :
    (LoadAllDataFromFile noSpareMemory
        (some (containerOwnedBy (bytesOf "FbxDocument") (bytesOf "FbxDocument"))) [] [] =
      LoadAllDataFromFile noSpareMemory
        (some (containerOwnedBy (bytesOf "Other") [65])) [] []) ∧
    LoadAllDataFromFile noSpareMemory
        (some (documentRecordBytes [65] (bytesOf "Scene") (bytesOf "Integer") [1, 0, 0, 0] ++
          documentRecordBytes [66] (bytesOf "Scene") (bytesOf "Blob") [1, 0, 0, 0, 4]))
        [] [] =
      some (mapAssign [] (bytesOf "Scene") (bytesOf "Blob", [4]), []) ∧
    LoadAllDataFromFile noSpareMemory
        (some (documentRecordBytes [66] (bytesOf "Scene") (bytesOf "Blob") [1, 0, 0, 0, 4]))
        [] [] =
      some (mapAssign [] (bytesOf "Scene") (bytesOf "Blob", [4]), []) ∧
    mapFind (mapAssign ([] : PropertyMap) (bytesOf "Scene") (bytesOf "Blob", [4]))
        (bytesOf "Scene") = some (bytesOf "Blob", [4]) :=
  have h := document_owner_irrelevant noSpareMemory
    (containerOwnedBy (bytesOf "FbxDocument") (bytesOf "FbxDocument"))
    (containerOwnedBy (bytesOf "Other") [65])
    (OwnerVariant.documentRecord (bytesOf "FbxDocument") (bytesOf "Other") (bytesOf "RizomUV")
      (bytesOf "Integer") [7, 0, 0, 0] [7, 0, 0, 0] _ _
      (by decide) (by decide) (by decide) (by decide) (by decide)
      (OwnerVariant.skipped 88 _ _ (by decide) (by decide) (by decide)
        (OwnerVariant.unreadable markerG (bytesOf "FbxDocument") [65] (bytesOf "Path")
          (bytesOf "Url") _ _ (Or.inl rfl) (by decide) (by decide) (by decide) (by decide)
          (by decide) (by decide) (OwnerVariant.same [1, 0, 0, 0, 47])))) [] []
  ⟨h.1, h.2.2.2 [65] [66] (bytesOf "Scene") (bytesOf "Integer") [1, 0, 0, 0] [1, 0, 0, 0]
    (bytesOf "Blob") [1, 0, 0, 0, 4] [4] (by decide) (by decide) (by decide) (by decide)
    (by decide) (by decide) (by decide)⟩

/-! ## The filter on the names of user-data elements -/

/-- The test `isPrefixOf` holds exactly when the string starts with `sub`. -/
theorem isPrefixOf_iff_starts (sub s : List Nat) :
    sub.isPrefixOf s = true ↔ ∃ post, s = sub ++ post := by
  induction sub generalizing s with
  | nil => simp
  | cons a as ih =>
    cases s with
    | nil => simp
    | cons b bs =>
      simp only [List.isPrefixOf, Bool.and_eq_true, beq_iff_eq, ih, List.cons_append,
        List.cons.injEq]
      constructor
      · rintro ⟨rfl, post, rfl⟩
        exact ⟨post, rfl, rfl⟩
      · rintro ⟨post, rfl, rfl⟩
        exact ⟨rfl, post, rfl⟩

/-- The search `s.find(sub)` finds a position exactly when `s` contains `sub`. -/
theorem stringFind_isSome (s sub : List Nat) :
    (stringFind s sub).isSome = true ↔ containsSubstring s sub := by
  induction s with
  | nil =>
    unfold containsSubstring
    cases sub with
    | nil => simp [stringFind]
    | cons a as => simp [stringFind]
  | cons c cs ih =>
    unfold containsSubstring at ih ⊢
    rw [stringFind]
    by_cases hp : sub.isPrefixOf (c :: cs) = true
    · rw [if_pos hp]
      obtain ⟨post, hpost⟩ := (isPrefixOf_iff_starts sub (c :: cs)).mp hp
      simp only [Option.isSome_some, true_iff]
      exact ⟨[], post, by simpa using hpost⟩
    · rw [if_neg hp]
      have hmap : (Option.map (fun i => i + 1) (stringFind cs sub)).isSome =
          (stringFind cs sub).isSome := by
        cases stringFind cs sub <;> rfl
      rw [hmap, ih]
      constructor
      · rintro ⟨pre, post, h⟩
        exact ⟨c :: pre, post, by simp [h]⟩
      · rintro ⟨pre, post, h⟩
        cases pre with
        | nil =>
          exact absurd ((isPrefixOf_iff_starts sub (c :: cs)).mpr ⟨post, by simpa using h⟩) hp
        | cons d pre =>
          simp only [List.cons_append, List.cons.injEq] at h
          exact ⟨pre, post, h.2⟩

/-- The test of `ExtractGeometryRizomData` holds exactly for the names that contain
one of the three substrings. -/
theorem isRizomData_iff (userDataName : List Nat) :
    isRizomData userDataName = true ↔ nameSelects userDataName := by
  unfold isRizomData nameSelects
  simp only [Bool.or_eq_true, stringFind_isSome, or_assoc]

/-- The loop over the layers only appends to the file. -/
theorem extractLayers_out (cacheName : List Nat) (layers : List FbxLayer) (out : List Nat) :
    extractLayers cacheName layers out = out ++ extractLayers cacheName layers [] := by
  induction layers generalizing out with
  | nil => simp [extractLayers]
  | cons layer rest ih =>
    obtain ⟨ud⟩ := layer
    cases ud with
    | none =>
      simp only [extractLayers]
      exact ih out
    | some userData =>
      simp only [extractLayers]
      split
      · rw [ih, ih (writeIslandRecord [] _ _ _), writeIslandRecord_append, List.append_assoc]
      · exact ih out

/-- The loop over the layers, layer list by layer list. -/
theorem extractLayers_layers_append (cacheName : List Nat) (l1 l2 : List FbxLayer)
    (out : List Nat) :
    extractLayers cacheName (l1 ++ l2) out =
      extractLayers cacheName l2 (extractLayers cacheName l1 out) := by
  induction l1 generalizing out with
  | nil => simp [extractLayers]
  | cons layer rest ih =>
    obtain ⟨ud⟩ := layer
    cases ud with
    | none =>
      simp only [List.cons_append, extractLayers]
      exact ih out
    | some userData =>
      simp only [List.cons_append, extractLayers]
      split
      · exact ih _
      · exact ih out

/-- The loop body for one node only appends to the file. -/
theorem extractNode_out (node : FbxNode) (out : List Nat) :
    extractNode node out = out ++ extractNode node [] := by
  unfold extractNode
  split
  · simp only []
    rw [extractLayers_out]
    conv_rhs => rw [extractLayers_out]
    rw [← List.append_assoc]
    congr 1
    split <;> split <;>
      simp only [ProcessAndWriteProperty_append out,
        ProcessAndWriteProperty_append (out ++ _),
        ProcessAndWriteProperty_append (ProcessAndWriteProperty [] _ _ _),
        List.append_assoc, List.append_nil, List.nil_append]
  · simp

/-- The loop over the nodes only appends to the file. -/
theorem foldl_extractNode_out (nodes : List FbxNode) (out : List Nat) :
    nodes.foldl (fun out node => extractNode node out) out =
      out ++ nodes.foldl (fun out node => extractNode node out) [] := by
  induction nodes generalizing out with
  | nil => simp
  | cons node rest ih =>
    simp only [List.foldl_cons]
    rw [ih, ih (extractNode node []), extractNode_out, List.append_assoc]

/-- The step of the layer loop on a layer that carries a user-data element. -/
theorem extractLayers_userData (cacheName : List Nat) (userData : FbxLayerElementUserData)
    (rest : List FbxLayer) (out : List Nat) :
    (nameSelects (cstr userData.name) →
      extractLayers cacheName ({ userData := some userData } :: rest) out =
        out ++ markerI :: (lengthPrefixed cacheName ++ (lengthPrefixed (cstr userData.name) ++
          countPrefixed (collectGroupIDs userData))) ++ extractLayers cacheName rest []) ∧
    (¬ nameSelects (cstr userData.name) →
      extractLayers cacheName ({ userData := some userData } :: rest) out =
        out ++ extractLayers cacheName rest []) := by
  constructor
  · intro hsel
    have hsel2 := (isRizomData_iff _).mpr hsel
    simp only [extractLayers, hsel2, if_true]
    rw [extractLayers_out]
    simp only [writeIslandRecord, ite_self, WriteString_layout, WriteIntArray_layout]
    simp
  · intro hsel
    have hsel2 : isRizomData (cstr userData.name) = false := by
      cases h : isRizomData (cstr userData.name)
      · rfl
      · exact absurd ((isRizomData_iff _).mp h) hsel
    simp only [extractLayers, hsel2]
    exact extractLayers_out _ _ _

/-- C23. Auxiliary-array selection filter: for every layer of a mesh that carries a
user-data element, wherever the layer stands in the scene, `ExtractGeometryRizomData`
writes the `'I'` record of the element, between what it writes before and what it
writes after that layer, when the name of the element contains `Island`, `RizomUV`
or `GroupID` (bytes compared as they are), and writes nothing for the element when
the name contains none of them; what is written before and after does not depend
on the element. The record of a selected element carries the count 0 when no
integers were collected, as for an element without direct array. -/
theorem auxiliary_array_selection (rootDocument : Option FbxDocument)
    (nodesBefore nodesAfter : List FbxNode) (nodeName meshName : List Nat)
    (properties : List FbxProperty) (layersBefore layersAfter : List FbxLayer)
    (outFile : List Nat) :
    ∃ before after : List Nat, ∀ userData : FbxLayerElementUserData,
      (nameSelects (cstr userData.name) →
        ExtractGeometryRizomData
            (sceneWithUserData rootDocument nodesBefore nodeName meshName properties
              layersBefore userData layersAfter nodesAfter) outFile =
          before ++ markerI :: (lengthPrefixed (cstr nodeName) ++
            (lengthPrefixed (cstr userData.name) ++
              countPrefixed (collectGroupIDs userData))) ++ after) ∧
      (¬ nameSelects (cstr userData.name) →
        ExtractGeometryRizomData
            (sceneWithUserData rootDocument nodesBefore nodeName meshName properties
              layersBefore userData layersAfter nodesAfter) outFile =
          before ++ after) ∧
      (userData.directArrays = [] → collectGroupIDs userData = []) ∧
      (collectGroupIDs userData = [] →
        countPrefixed (collectGroupIDs userData) = [0, 0, 0, 0]) := by
  refine ⟨ExtractGeometryRizomData
      { rootDocument := rootDocument,
        nodes := nodesBefore ++
          [{ name := nodeName,
             nodeAttribute := some (.mesh
               { name := meshName, properties := properties, layers := layersBefore }) }] }
      outFile,
    extractLayers (cstr nodeName) layersAfter [] ++
      nodesAfter.foldl (fun out node => extractNode node out) [], fun userData => ?_⟩
  have hstep := extractLayers_userData (cstr nodeName) userData layersAfter
  refine ⟨fun hsel => ?_, fun hsel => ?_, fun hno => ?_, fun hempty => ?_⟩
  · simp only [ExtractGeometryRizomData, sceneWithUserData, List.foldl_append,
      List.foldl_cons, List.foldl_nil]
    rw [foldl_extractNode_out]
    simp only [extractNode, extractLayers_layers_append, (hstep _).1 hsel, List.append_assoc]
  · simp only [ExtractGeometryRizomData, sceneWithUserData, List.foldl_append,
      List.foldl_cons, List.foldl_nil]
    rw [foldl_extractNode_out]
    simp only [extractNode, extractLayers_layers_append, (hstep _).2 hsel, List.append_assoc]
  · simp [collectGroupIDs, hno]
  · rw [hempty]
    rfl

/-- An evaluation of the filter: of the elements `island`, `myGroupIDs` and `RizomUV`
of the node `Cube`, the first is passed over although it holds an integer, the
second gives a record with its two integers, the third, without array, a record
with the count 0. -/
theorem three_elements_extraction :
    ExtractGeometryRizomData sceneWithThreeElements [] =
      markerI :: (lengthPrefixed (bytesOf "Cube") ++ (lengthPrefixed (bytesOf "myGroupIDs") ++
        countPrefixed [5, 6])) ++
      markerI :: (lengthPrefixed (bytesOf "Cube") ++ (lengthPrefixed (bytesOf "RizomUV") ++
        [0, 0, 0, 0])) := by
  decide

end RizomBridge
